import Mathlib

/-!
# A distributed lock on an object store

A verification development for the `lock` package (`leadership.go`) and the mock
object store it is tested against (`mock_gcs/mock_gcs.go`).

* The lock client (`Lock`) is written against a bucket handle.  The handle is the
  structure `Bucket σ`: four store calls over a store state `σ`.
* `Server` is the mock store; `gcs` is the bucket handle that talks to it.
* `traced` wraps a handle so that every store call issued is recorded; `shared` wraps a
  handle so that other actors act on the store between the calls of the client.
* `Store` is the store the spec assumes, with a new generation for every create;
  `specStore` is the bucket handle on it.
* Clock readings (`time.Now()`) are explicit arguments; the run of `Lock.lock` takes one
  `Tick` for every loop iteration entered before the context is done.
-/

namespace DistLock

/-! ## Time -/

/-- An instant, in nanoseconds (Go `time.Time`). -/
abbrev Time := Int

/-- A span of time, in nanoseconds (Go `time.Duration`). -/
abbrev Duration := Int

/-- The wire format of instants: `Time.Format(time.RFC3339Nano)` and
`time.Parse(time.RFC3339Nano, _)` of the Go standard library, taken as given. -/
structure TimeCodec where
  format : Time → String
  parse : String → Option Time

/-! ## Errors -/

/-- The error values the package meets: the two sentinels of the store client and of the
context package, `*googleapi.Error` with its HTTP code and body, and the package's own
sentinels. -/
inductive Err where
  | errObjectNotExist
  | googleapi (code : Nat) (body : String)
  | errLockAbandoned
  | errLockOwnedBySomeoneElse
  | deadlineExceeded
  | canceled
  deriving DecidableEq, Repr

/-- An `error` as returned by the method `Lock`: one error value, or `errors.Join` of several. -/
inductive LockError where
  | single (e : Err)
  | joined (es : List Err)
  deriving DecidableEq, Repr

def statusPreconditionFailed : Nat := 412

def statusTeapot : Nat := 418

def statusNotImplemented : Nat := 501

def statusNotFound : Nat := 404

/-- The test `errors.As(err, &gErr) && gErr.Code == http.StatusPreconditionFailed`. -/
def Err.isPreconditionFailed : Err → Bool
  | .googleapi code _ => code == statusPreconditionFailed
  | _ => false

/-- The test `errors.Is(err, storage.ErrObjectNotExist)`. -/
def Err.isObjectNotExist : Err → Bool
  | .errObjectNotExist => true
  | _ => false

/-! ## The bucket handle -/

/-- User metadata of an object (`map[string]string`), as an association list. -/
abbrev Metadata := List (String × String)

/-- Map indexing `m[k]`: the empty string when the key is absent. -/
def Metadata.get (m : Metadata) (k : String) : String :=
  (m.lookup k).getD ""

/-- The fields of `storage.Conditions` the package sets.  A field left out of the
literal is `none` (or `false`). -/
structure Conditions where
  generationMatch : Option Int := none
  metagenerationMatch : Option Int := none
  doesNotExist : Bool := false
  deriving DecidableEq, Repr

/-- The fields of `storage.ObjectAttrs` the package and the mock use. -/
structure ObjectAttrs where
  bucket : String
  name : String
  cacheControl : String
  metadata : Metadata
  generation : Int
  metageneration : Int
  deriving DecidableEq, Repr

/-- The four calls the package makes on `l.bucket.Object(path)`, over a store state `σ`:
`If(conds).NewWriter` with `CacheControl` and `Metadata` set, then `Close`; `Attrs`;
`If(conds).Update` with new metadata; `If(conds).Delete`. -/
structure Bucket (σ : Type) where
  write : σ → String → Conditions → String → Metadata → Option Err × σ
  attrs : σ → String → Except Err ObjectAttrs × σ
  update : σ → String → Conditions → Metadata → Except Err ObjectAttrs × σ
  delete : σ → String → Conditions → Option Err × σ

/-! ## The lock client (`leadership.go`) -/

def maxRefreshFailures : Nat := 3

def ownerMetadata : String := "owner"

def expiresAtMetadata : String := "expires-at"

/-- The state of a `Lock`.  The bucket handle and the logger are arguments of the
operations; the mutex serialises the operations of one client and is not a field here.
`refreshFailures` is a `uint` that is only incremented below `maxRefreshFailures + 1`. -/
structure Lock where
  path : String
  identity : String
  ttl : Duration
  refreshMetadata : Bool
  refreshFailures : Nat
  latestGeneration : Int
  latestMetadataGeneration : Int
  deriving DecidableEq, Repr

def NewLock (id path : String) (ttl : Duration) : Lock :=
  { path := path
    identity := id
    ttl := ttl
    refreshMetadata := false
    refreshFailures := 0
    latestGeneration := 0
    latestMetadataGeneration := 1 }

/-- The method `metadata`, with `now` the reading of `time.Now()`. -/
def Lock.metadata (c : TimeCodec) (l : Lock) (now : Time) : Metadata :=
  [(expiresAtMetadata, c.format (now + l.ttl)), (ownerMetadata, l.identity)]

/-- The method `createLock`, with `now` the clock reading taken by `metadata`. -/
def Lock.createLock {σ : Type} (b : Bucket σ) (c : TimeCodec) (l : Lock) (w : σ)
    (now : Time) : Option Err × Lock × σ :=
  match b.write w l.path { doesNotExist := true } "no-store" (l.metadata c now) with
  | (some err, w1) => (some err, l, w1)
  | (none, w1) =>
    match b.attrs w1 l.path with
    | (.error err, w2) => (some err, l, w2)
    | (.ok attrs, w2) =>
      (none,
        { l with
          refreshMetadata := true
          latestMetadataGeneration := attrs.metageneration
          latestGeneration := attrs.generation },
        w2)

/-- The second half of `deleteLock`, from `l.refreshMetadata = false` on: the flag is
cleared, then the delete is issued on the metageneration given, or on the cached one. -/
def Lock.deleteLockTail {σ : Type} (b : Bucket σ) (l : Lock) (w : σ)
    (metageneration : Option Int) : Option Err × Lock × σ :=
  let l1 := { l with refreshMetadata := false }
  let m := match metageneration with
    | some v => v
    | none => l.latestMetadataGeneration
  match b.delete w l.path { metagenerationMatch := some m } with
  | (some err, w1) =>
    if err.isObjectNotExist || err.isPreconditionFailed then (none, l1, w1)
    else (some err, l1, w1)
  | (none, w1) => (none, l1, w1)

/-- The method `deleteLock`: the confirmation of the owner, then `deleteLockTail`. -/
def Lock.deleteLock {σ : Type} (b : Bucket σ) (l : Lock) (w : σ)
    (metageneration : Option Int) (confirmOwner : Bool) : Option Err × Lock × σ :=
  if confirmOwner then
    match b.attrs w l.path with
    | (.error err, w1) =>
      if err.isObjectNotExist then (none, l, w1) else (some err, l, w1)
    | (.ok attrs, w1) =>
      if attrs.metadata.get ownerMetadata ≠ l.identity then
        (some .errLockOwnedBySomeoneElse, l, w1)
      else l.deleteLockTail b w1 metageneration
  else l.deleteLockTail b w metageneration

/-- The method `Unlock`. -/
def Lock.Unlock {σ : Type} (b : Bucket σ) (l : Lock) (w : σ) : Option Err × Lock × σ :=
  l.deleteLock b w none true

/-- The method `deleteLockIfStale`, with `now` the clock reading compared with the
parsed expiry. -/
def Lock.deleteLockIfStale {σ : Type} (b : Bucket σ) (c : TimeCodec) (l : Lock) (w : σ)
    (now : Time) : Option Err × Lock × σ :=
  match b.attrs w l.path with
  | (.error err, w1) => (some err, l, w1)
  | (.ok attrs, w1) =>
    let r :=
      if attrs.metadata.get ownerMetadata = l.identity then
        l.deleteLock b w1 (some attrs.metageneration) false
      else (none, l, w1)
    match r with
    | (some err, l2, w2) => (some err, l2, w2)
    | (none, l2, w2) =>
      match c.parse (attrs.metadata.get expiresAtMetadata) with
      | none => l2.deleteLock b w2 (some attrs.metageneration) false
      | some expires =>
        if expires < now then l2.deleteLock b w2 (some attrs.metageneration) false
        else (none, l2, w2)

/-- The clock readings of one iteration of the loop of the method `Lock`: the one taken by
`metadata` inside `createLock`, and the one `deleteLockIfStale` compares the expiry
with. -/
structure Tick where
  nowCreate : Time
  nowStale : Time
  deriving DecidableEq, Repr

/-- The loop of the method `Lock`.  The list holds one `Tick` for every iteration at whose
`select` the context is not yet done; once it is used up the context is done with
`ctxErr` (`ctx.Err()`).  `errs` is the slice of the errors recorded so far. -/
def Lock.lockLoop {σ : Type} (b : Bucket σ) (c : TimeCodec) (ctxErr : Err) :
    List Tick → Lock → σ → List Err → Option LockError × Lock × σ
  | [], l, w, errs => (some (.joined (errs ++ [ctxErr])), l, w)
  | t :: ts, l, w, errs =>
    match l.createLock b c w t.nowCreate with
    | (none, l1, w1) => (none, l1, w1)
    | (some err, l1, w1) =>
      if err.isPreconditionFailed then
        match l1.deleteLockIfStale b c w1 t.nowStale with
        | (some err2, l2, w2) => (some (.single err2), l2, w2)
        | (none, l2, w2) => Lock.lockLoop b c ctxErr ts l2 w2 (errs ++ [err])
      else Lock.lockLoop b c ctxErr ts l1 w1 (errs ++ [err])

/-- The method `Lock` (in lower case here: the structure bears the name). -/
def Lock.lock {σ : Type} (b : Bucket σ) (c : TimeCodec) (l : Lock) (w : σ)
    (ticks : List Tick) (ctxErr : Err) : Option LockError × Lock × σ :=
  Lock.lockLoop b c ctxErr ticks l w []

/-- The method `RefreshLock`, with `now` the clock reading taken by `metadata`. -/
def Lock.RefreshLock {σ : Type} (b : Bucket σ) (c : TimeCodec) (l : Lock) (w : σ)
    (now : Time) : Option Err × Lock × σ :=
  if !l.refreshMetadata then (none, l, w)
  else if l.refreshFailures > maxRefreshFailures then (some .errLockAbandoned, l, w)
  else
    match b.update w l.path
        { generationMatch := some l.latestGeneration
          metagenerationMatch := some l.latestMetadataGeneration }
        (l.metadata c now) with
    | (.error err, w1) =>
      if err.isObjectNotExist || err.isPreconditionFailed then
        (some .errLockAbandoned, l, w1)
      else
        let l1 := { l with refreshFailures := l.refreshFailures + 1 }
        if l1.refreshFailures > maxRefreshFailures then (some .errLockAbandoned, l1, w1)
        else (some err, l1, w1)
    | (.ok attrs, w1) =>
      (none,
        { l with
          refreshFailures := 0
          latestMetadataGeneration := attrs.metageneration
          latestGeneration := attrs.generation },
        w1)

/-! ## The mock store (`mock_gcs/mock_gcs.go`) -/

/-- Go `int64` arithmetic: the result reduced into `[-2^63, 2^63)`. -/
def wrapInt64 (x : Int) : Int :=
  (x + 2 ^ 63) % 2 ^ 64 - 2 ^ 63

/-- The fields of `v1.Object` the mock sets. -/
structure Object where
  generation : Int
  id : String
  kind : String
  metadata : Metadata
  metageneration : Int
  name : String
  cacheControl : String
  bucket : String
  deriving DecidableEq, Repr

/-- The mock server: `data` maps an object name to the stored object. -/
structure Server where
  data : String → Option Object
  bucket : String
  failOnObjectExistence : Bool
  failOnObjectName : Option String

def NewServer (bucket : String) : Server :=
  { data := fun _ => none
    bucket := bucket
    failOnObjectExistence := false
    failOnObjectName := none }

def WithFailOnObjectExistence (s : Server) : Server :=
  { s with failOnObjectExistence := true }

def WithFailOnObjectName (name : String) (s : Server) : Server :=
  { s with failOnObjectName := some name }

def Server.Add (s : Server) (name : String) (attrs : ObjectAttrs) : Server :=
  { s with
    data := Function.update s.data name (some
      { id := name
        kind := "storage#object"
        metadata := attrs.metadata
        metageneration := attrs.metageneration
        name := name
        bucket := s.bucket
        cacheControl := attrs.cacheControl
        generation := attrs.generation }) }

def Server.Get (s : Server) (name : String) : Option ObjectAttrs :=
  match s.data name with
  | none => none
  | some obj =>
    some
      { bucket := obj.bucket
        name := obj.name
        cacheControl := obj.cacheControl
        metadata := obj.metadata
        generation := obj.generation
        metageneration := obj.metageneration }

def Server.RemoveAll (s : Server) : Server :=
  { s with data := fun _ => none }

/-- The query parameters the handlers look at.  The mock compares the decimal text of a
counter with the text of the parameter; both are kept as integers here. -/
structure Query where
  ifGenerationMatch : Option Int := none
  ifMetagenerationMatch : Option Int := none
  deriving DecidableEq, Repr

/-- What a handler writes: `http.Error(w, msg, code)` (and `http.NotFound`), or a status
with the JSON of an object (no body for 204). -/
inductive Response where
  | error (code : Nat) (msg : String)
  | ok (code : Nat) (obj : Option Object)
  deriving DecidableEq, Repr

/-- The wrapper `validateRequest`; `bucket` is the bucket of the request path. -/
def Server.validateRequest (s : Server) (bucket : String)
    (next : Server → Response × Server) : Response × Server :=
  if bucket ≠ s.bucket then (.error 599 "incorrect bucket", s)
  else next s

/-- The handler `createObject`, from the decoded JSON part on (a request of the store
client always has a well-formed multipart body). -/
def Server.createObject (s : Server) (query : Query) (objectAttrs : ObjectAttrs) :
    Response × Server :=
  if objectAttrs.name = "" then
    (.error statusNotImplemented "createObject missing name", s)
  else if s.failOnObjectName = some objectAttrs.name then
    (.error statusTeapot "createObject failed on name", s)
  else if s.failOnObjectExistence = true ∧ query.ifGenerationMatch ≠ some 0 then
    (.error statusNotImplemented "createObject missing ifGenerationMatch", s)
  else if s.failOnObjectExistence = true ∧ (s.data objectAttrs.name).isSome = true then
    (.error statusPreconditionFailed "createObject already has that object", s)
  else
    let object : Object :=
      { generation := 1
        id := "doo"
        kind := "storage#object"
        metadata := objectAttrs.metadata
        metageneration := 1
        name := objectAttrs.name
        cacheControl := objectAttrs.cacheControl
        bucket := objectAttrs.bucket }
    (.ok 200 (some object), { s with data := Function.update s.data object.name (some object) })

/-- The handler `readObject`. -/
def Server.readObject (s : Server) (name : String) : Response × Server :=
  match s.data name with
  | none => (.error statusNotFound "404 page not found", s)
  | some obj => (.ok 200 (some obj), s)

/-- The handler `updateObject`; `metadata` is the decoded request body. -/
def Server.updateObject (s : Server) (name : String) (query : Query)
    (metadata : Metadata) : Response × Server :=
  if s.failOnObjectName = some name then
    (.error statusTeapot "updateObject failed on name", s)
  else
    match query.ifMetagenerationMatch with
    | none => (.error statusNotImplemented "updateObject missing ifGenerationMatch", s)
    | some m =>
      match s.data name with
      | none => (.error statusNotFound "404 page not found", s)
      | some obj =>
        if obj.metageneration ≠ m then
          (.error statusPreconditionFailed "updateObject with old metageneration", s)
        else
          let obj1 : Object :=
            { obj with
              metadata := metadata
              metageneration := wrapInt64 (obj.metageneration + 1) }
          (.ok 200 (some obj1), { s with data := Function.update s.data name (some obj1) })

/-- The handler `deleteObject`. -/
def Server.deleteObject (s : Server) (name : String) (query : Query) :
    Response × Server :=
  if s.failOnObjectName = some name then
    (.error statusTeapot "deleteObject failed on name", s)
  else if s.failOnObjectExistence = true ∧ query.ifMetagenerationMatch = none then
    (.error 501 "deleteObject missing ifGenerationMatch", s)
  else
    match s.data name with
    | none => (.error statusNotFound "404 page not found", s)
    | some obj =>
      if s.failOnObjectExistence = true ∧ some obj.metageneration ≠ query.ifMetagenerationMatch then
        (.error statusPreconditionFailed "deleteObject with old metageneration", s)
      else (.ok 204 none, { s with data := Function.update s.data name none })

/-! ## The store client between the package and the mock -/

/-- Modelled from the spec: the store client library (`cloud.google.com/go/storage`) is
not part of the repository.  Per the consumed interface of the spec, a call carries the
conditions it is given: `DoesNotExist` is sent as `ifGenerationMatch=0`, the other two
fields under their own names. -/
def Conditions.toQuery (conds : Conditions) : Query :=
  { ifGenerationMatch := if conds.doesNotExist then some 0 else conds.generationMatch
    ifMetagenerationMatch := conds.metagenerationMatch }

/-- Modelled from the spec: the error classes of the consumed interface.  A 404 answer is
the not-found sentinel, any other error answer a `*googleapi.Error` with its code. -/
def httpError (code : Nat) (msg : String) : Err :=
  if code = statusNotFound then .errObjectNotExist else .googleapi code msg

def Object.toAttrs (obj : Object) : ObjectAttrs :=
  { bucket := obj.bucket
    name := obj.name
    cacheControl := obj.cacheControl
    metadata := obj.metadata
    generation := obj.generation
    metageneration := obj.metageneration }

/-- Modelled from the spec: the answer of a call that returns attributes. -/
def Response.toAttrs : Response → Except Err ObjectAttrs
  | .error code msg => .error (httpError code msg)
  | .ok _ (some obj) => .ok obj.toAttrs
  | .ok code none => .error (.googleapi code "")

/-- Modelled from the spec: the answer of a call that returns only an error. -/
def Response.toErr : Response → Option Err
  | .error code msg => some (httpError code msg)
  | .ok _ _ => none

/-- Modelled from the spec: the bucket handle `client.Bucket(bucket)` of a client of the
mock server; every call is one request to the matching handler. -/
def gcs (bucket : String) : Bucket Server :=
  { write := fun s name conds cacheControl metadata =>
      let r := s.validateRequest bucket fun s0 =>
        s0.createObject conds.toQuery
          { bucket := bucket
            name := name
            cacheControl := cacheControl
            metadata := metadata
            generation := 0
            metageneration := 0 }
      (r.1.toErr, r.2)
    attrs := fun s name =>
      let r := s.validateRequest bucket fun s0 => s0.readObject name
      (r.1.toAttrs, r.2)
    update := fun s name conds metadata =>
      let r := s.validateRequest bucket fun s0 => s0.updateObject name conds.toQuery metadata
      (r.1.toAttrs, r.2)
    delete := fun s name conds =>
      let r := s.validateRequest bucket fun s0 => s0.deleteObject name conds.toQuery
      (r.1.toErr, r.2) }

/-! ## Recording the store calls -/

/-- A store call as issued on a bucket handle. -/
inductive Call where
  | write (name : String) (conds : Conditions) (cacheControl : String) (metadata : Metadata)
  | attrs (name : String)
  | update (name : String) (conds : Conditions) (metadata : Metadata)
  | delete (name : String) (conds : Conditions)
  deriving DecidableEq, Repr

/-- The handle `b` with a log: every call is appended to the log, then passed on. -/
def traced {σ : Type} (b : Bucket σ) : Bucket (σ × List Call) :=
  { write := fun w name conds cacheControl metadata =>
      let r := b.write w.1 name conds cacheControl metadata
      (r.1, (r.2, w.2 ++ [.write name conds cacheControl metadata]))
    attrs := fun w name =>
      let r := b.attrs w.1 name
      (r.1, (r.2, w.2 ++ [.attrs name]))
    update := fun w name conds metadata =>
      let r := b.update w.1 name conds metadata
      (r.1, (r.2, w.2 ++ [.update name conds metadata]))
    delete := fun w name conds =>
      let r := b.delete w.1 name conds
      (r.1, (r.2, w.2 ++ [.delete name conds])) }

/-! ## Notions used in the statements -/

/-- The object `createObject` stores for a create issued by `createLock` at clock
reading `now`. -/
def Lock.created (c : TimeCodec) (l : Lock) (bucket : String) (now : Time) : Object :=
  { generation := 1
    id := "doo"
    kind := "storage#object"
    metadata := [(expiresAtMetadata, c.format (now + l.ttl)), (ownerMetadata, l.identity)]
    metageneration := 1
    name := l.path
    cacheControl := "no-store"
    bucket := bucket }

/-- The store answers the requests for `path` from its data: the request reaches the
handler (`validateRequest`) and no failure is configured for the name. -/
def Server.Serves (s : Server) (bucket path : String) : Prop :=
  s.bucket = bucket ∧ s.failOnObjectName ≠ some path

instance (s : Server) (bucket path : String) : Decidable (s.Serves bucket path) := by
  unfold Server.Serves
  infer_instance

/-- A codec for the examples: an instant is written as a run of `n` letters. -/
def unaryCodec : TimeCodec :=
  { format := fun t => String.mk (List.replicate t.toNat (Char.ofNat 110))
    parse := fun s => some (s.length : Int) }

/-- The object of the test `cannot-lock-if-already-present`, with `expires-at` five
letters long. -/
def liveForeignObject : ObjectAttrs :=
  { bucket := "b"
    name := "testing"
    cacheControl := "no-store"
    metadata := [("owner", "someone-else"), ("expires-at", "nnnnn")]
    generation := 1
    metageneration := 6 }

/-- The number of conditional deletes `deleteLockIfStale` issues for an object it has
read at clock reading `now`: one if the owner is the identity, and one if `expires-at`
does not parse or lies before `now`. -/
def Lock.reapCalls (c : TimeCodec) (l : Lock) (obj : Object) (now : Time) : Nat :=
  (if obj.metadata.get ownerMetadata = l.identity then 1 else 0) +
    (match c.parse (obj.metadata.get expiresAtMetadata) with
      | none => 1
      | some expires => if expires < now then 1 else 0)

/-- The object is stale for the client at clock reading `now`: owned by the identity,
or with an `expires-at` that does not parse, or with one strictly before `now`. -/
def Lock.Stale (c : TimeCodec) (l : Lock) (obj : Object) (now : Time) : Prop :=
  obj.metadata.get ownerMetadata = l.identity
    ∨ c.parse (obj.metadata.get expiresAtMetadata) = none
    ∨ ∃ expires, c.parse (obj.metadata.get expiresAtMetadata) = some expires ∧ expires < now

/-- The object of the test `removes-lock-if-owned-by-me`: owned by `id`, with an
`expires-at` nine letters long. -/
def selfOwnedObject : ObjectAttrs :=
  { bucket := "b"
    name := "testing"
    cacheControl := "no-store"
    metadata := [("owner", "id"), ("expires-at", "nnnnnnnnn")]
    generation := 1
    metageneration := 6 }

/-! ## A store shared with other actors -/

/-- The handle `b` on a store shared with other actors.  The second component lists,
for the calls of this client in order, what the others do to the store right before
the call arrives; once the list is used up the client is alone. -/
def shared {σ : Type} (b : Bucket σ) : Bucket (σ × List (σ → σ)) :=
  let turn := fun (w : σ × List (σ → σ)) =>
    match w.2 with
    | [] => (w.1, [])
    | f :: fs => (f w.1, fs)
  { write := fun w name conds cacheControl metadata =>
      let r := b.write (turn w).1 name conds cacheControl metadata
      (r.1, (r.2, (turn w).2))
    attrs := fun w name =>
      let r := b.attrs (turn w).1 name
      (r.1, (r.2, (turn w).2))
    update := fun w name conds metadata =>
      let r := b.update (turn w).1 name conds metadata
      (r.1, (r.2, (turn w).2))
    delete := fun w name conds =>
      let r := b.delete (turn w).1 name conds
      (r.1, (r.2, (turn w).2)) }

/-- The client `holder` after it has acquired the lock on an empty mock server. -/
def holderAfterLock : Lock :=
  ((NewLock "holder" "testing" 180).lock (gcs "b") unaryCodec
    (WithFailOnObjectExistence (NewServer "b")) [⟨0, 0⟩] .deadlineExceeded).2.1

/-- The mock server after `holder` has acquired the lock. -/
def heldStore : Server :=
  ((NewLock "holder" "testing" 180).lock (gcs "b") unaryCodec
    (WithFailOnObjectExistence (NewServer "b")) [⟨0, 0⟩] .deadlineExceeded).2.2

/-- The holder releases the lock (`Unlock`). -/
def releaseByHolder (s : Server) : Server :=
  (holderAfterLock.Unlock (gcs "b") s).2.2

/-! ## Notions for `RefreshLock` -/

/-- The conditions `RefreshLock` puts on its update: both cached counters. -/
def Lock.refreshConds (l : Lock) : Conditions :=
  { generationMatch := some l.latestGeneration
    metagenerationMatch := some l.latestMetadataGeneration }

/-- The update call `RefreshLock` issues at clock reading `now`. -/
def Lock.refreshCall (c : TimeCodec) (l : Lock) (now : Time) : Call :=
  .update l.path l.refreshConds (l.metadata c now)

/-- The error is neither not-found nor precondition-failed. -/
def Err.Unclassified (err : Err) : Prop :=
  err.isObjectNotExist = false ∧ err.isPreconditionFailed = false

instance (err : Err) : Decidable err.Unclassified := by
  unfold Err.Unclassified
  infer_instance

/-- The object of the test `lock-abandoned-if-metageneration-incorrect`. -/
def ownObjectAtOne : ObjectAttrs :=
  { bucket := "b"
    name := "testing"
    cacheControl := "no-store"
    metadata := [("owner", "id"), ("expires-at", "n")]
    generation := 2
    metageneration := 1 }

/-- The object `Add` stores for `ownObjectAtOne`. -/
def storedOwnObjectAtOne : Object :=
  { generation := 2
    id := "testing"
    kind := "storage#object"
    metadata := [("owner", "id"), ("expires-at", "n")]
    metageneration := 1
    name := "testing"
    cacheControl := "no-store"
    bucket := "b" }

/-- The client of the tests of `RefreshLock`: holding, with the cached metageneration
and the failure count set by hand. -/
def holdingClient (metageneration : Int) (failures : Nat) : Lock :=
  { path := "testing"
    identity := "id"
    ttl := 180
    refreshMetadata := true
    refreshFailures := failures
    latestGeneration := 0
    latestMetadataGeneration := metageneration }

/-- The object of the test `updates-expires-at`. -/
def ownObjectAtTwo : ObjectAttrs :=
  { bucket := "b"
    name := "testing"
    cacheControl := "no-store"
    metadata := [("owner", "id"), ("expires-at", "n")]
    generation := 2
    metageneration := 2 }

/-- The mock server of the test `lock-failure-increments-refreshFailures`: the object of
`id` at metageneration 1, and every update of `testing` answered with 418. -/
def teapotStore : Server :=
  WithFailOnObjectName "testing"
    ((WithFailOnObjectExistence (NewServer "b")).Add "testing" ownObjectAtOne)

/-- The error of the store client for the 418 answer of `updateObject`. -/
def teapotErr : Err :=
  .googleapi 418 "updateObject failed on name"

/-- Calls of `RefreshLock` in a row, one for each clock reading: the errors returned,
and the client and the store after the last call. -/
def Lock.refreshes {σ : Type} (b : Bucket σ) (c : TimeCodec) :
    List Time → Lock → σ → List (Option Err) × Lock × σ
  | [], l, w => ([], l, w)
  | now :: rest, l, w =>
    let r := l.RefreshLock b c w now
    let rs := Lock.refreshes b c rest r.2.1 r.2.2
    (r.1 :: rs.1, rs.2)

/-- The failure configured for an object name comes to an end. -/
def endFault (s : Server) : Server :=
  { s with failOnObjectName := none }

/-! ## Two clients on one path -/

/-- Drop the log from the result of an operation on a recorded handle. -/
def unlog {α σ : Type} (r : α × Lock × σ × List Call) : α × Lock × σ :=
  (r.1, r.2.1, r.2.2.1)

/-- The two clients of one path. -/
inductive Client where
  | a
  | b
  deriving DecidableEq, Repr

/-- A completed call of one of the two clients, with the clock readings it takes. -/
inductive Op where
  | lock (who : Client) (ticks : List Tick) (ctxErr : Err)
  | refresh (who : Client) (now : Time)
  | unlock (who : Client)
  deriving DecidableEq, Repr

/-! ## Notions for `Unlock` -/

/-- The delete call `Unlock` issues: conditioned on the cached metageneration. -/
def Lock.unlockCall (l : Lock) : Call :=
  .delete l.path { metagenerationMatch := some l.latestMetadataGeneration }

/-- The object of the test `doesn't-unlock-lock-owned-by-someone-else`. -/
def foreignObjectAtTwo : ObjectAttrs :=
  { bucket := "b"
    name := "testing"
    cacheControl := "no-store"
    metadata := [("owner", "someone-else"), ("expires-at", "n")]
    generation := 0
    metageneration := 2 }

/-- The object `Add` stores for `foreignObjectAtTwo`. -/
def storedForeignObjectAtTwo : Object :=
  { generation := 0
    id := "testing"
    kind := "storage#object"
    metadata := [("owner", "someone-else"), ("expires-at", "n")]
    metageneration := 2
    name := "testing"
    cacheControl := "no-store"
    bucket := "b" }

/-- The client of the tests of `Unlock`: fresh, with the cached metageneration set by
hand. -/
def idleClient (metageneration : Int) : Lock :=
  { path := "testing"
    identity := "id"
    ttl := 180
    refreshMetadata := false
    refreshFailures := 0
    latestGeneration := 0
    latestMetadataGeneration := metageneration }

/-- The object at the path is absent, or owned by the identity of the client. -/
def Lock.FreeOrOwn (l : Lock) (s : Server) : Prop :=
  s.data l.path = none ∨ ∃ obj, s.data l.path = some obj ∧ obj.metadata.get ownerMetadata = l.identity

/-- The object `Add` stores for `ownObjectAtTwo`. -/
def storedOwnObjectAtTwo : Object :=
  { generation := 2
    id := "testing"
    kind := "storage#object"
    metadata := [("owner", "id"), ("expires-at", "n")]
    metageneration := 2
    name := "testing"
    cacheControl := "no-store"
    bucket := "b" }

/-- The error of the store client for the 418 answer of `deleteObject`. -/
def teapotDeleteErr : Err :=
  .googleapi 418 "deleteObject failed on name"

/-! ## Sequences of calls on one client -/

/-- A call on a client, with the state in which the call finds the store (any state:
other actors may have acted since the call before) and the clock readings it takes. -/
inductive Step (σ : Type) where
  | lock (w : σ) (ticks : List Tick) (ctxErr : Err)
  | refresh (w : σ) (now : Time)
  | unlock (w : σ)

/-- The client after a call. -/
def Lock.after {σ : Type} (b : Bucket σ) (c : TimeCodec) (l : Lock) : Step σ → Lock
  | .lock w ticks ctxErr => (l.lock b c w ticks ctxErr).2.1
  | .refresh w now => (l.RefreshLock b c w now).2.1
  | .unlock w => (l.Unlock b w).2.1

/-- The client after a sequence of calls. -/
def Lock.afterAll {σ : Type} (b : Bucket σ) (c : TimeCodec) (l : Lock)
    (steps : List (Step σ)) : Lock :=
  steps.foldl (Lock.after b c) l

/-! ## Sequences of requests to the mock store -/

/-- A request to one of the three handlers of the mock that change the store. -/
inductive Request where
  | create (query : Query) (objectAttrs : ObjectAttrs)
  | update (name : String) (query : Query) (metadata : Metadata)
  | delete (name : String) (query : Query)
  deriving DecidableEq, Repr

/-- The handler for a request. -/
def Server.handle (s : Server) : Request → Response × Server
  | .create query objectAttrs => s.createObject query objectAttrs
  | .update name query metadata => s.updateObject name query metadata
  | .delete name query => s.deleteObject name query

/-- The generation and the metageneration of the object of a name, if there is one. -/
def Server.counters (s : Server) (name : String) : Option (Int × Int) :=
  match s.data name with
  | none => none
  | some obj => some (obj.generation, obj.metageneration)

/-- The counters of a name after each request of a sequence. -/
def Server.history (name : String) : Server → List Request → List (Option (Int × Int))
  | _, [] => []
  | s, r :: rs => (s.handle r).2.counters name :: Server.history name (s.handle r).2 rs

/-- The body of a create of the object `testing`. -/
def testingAttrs : ObjectAttrs :=
  { bucket := "b"
    name := "testing"
    cacheControl := "no-store"
    metadata := [("owner", "id")]
    generation := 0
    metageneration := 0 }

/-- Create, update, delete, then create and update anew. -/
def createAnew : List Request :=
  [.create { ifGenerationMatch := some 0 } testingAttrs,
    .update "testing" { ifMetagenerationMatch := some 1 } [("owner", "id")],
    .delete "testing" { ifMetagenerationMatch := some 2 },
    .create { ifGenerationMatch := some 0 } testingAttrs,
    .update "testing" { ifMetagenerationMatch := some 1 } [("owner", "id")]]

/-- Create, update, then create over the object. -/
def createOver : List Request :=
  [.create {} testingAttrs,
    .update "testing" { ifMetagenerationMatch := some 1 } [("owner", "id")],
    .create {} testingAttrs]

/-! ## The store of the spec -/

/-- Modelled from the spec: the object store that the spec assumes and the repository
does not contain (the mock is its stand-in for the tests). Section 1: strongly
consistent metadata with monotonic generation counters per object. Section 3 and the
glossary: the generation changes with every replacement of the content, the
metageneration with every update of the metadata. Section 6: the conditions of create,
update and delete are enforced. Section 8: a store enforcing monotone generations.
`generations name` is the last generation given out for the name, so that a create
after a delete goes on counting; the counters are integers without a bound. -/
structure Store where
  data : String → Option ObjectAttrs
  generations : String → Int

/-- Modelled from the spec: the store before any create. -/
def Store.empty : Store :=
  { data := fun _ => none
    generations := fun _ => 0 }

/-- Modelled from the spec: the precondition-failed error class of the store (HTTP 412). -/
def preconditionFailed : Err :=
  .googleapi statusPreconditionFailed "conditionNotMet"

/-- Modelled from the spec: the conditions on generation and metageneration hold for the
stored object (a condition that is not set holds). -/
def Conditions.holdFor (conds : Conditions) (obj : ObjectAttrs) : Bool :=
  (match conds.generationMatch with
    | none => true
    | some g => g == obj.generation) &&
  (match conds.metagenerationMatch with
    | none => true
    | some m => m == obj.metageneration)

/-- Modelled from the spec: the bucket handle on the store of the spec, with the four
calls of the consumed interface of section 6. A create gives the object the next
generation of its name and metageneration 1; an update replaces the metadata and
increments the metageneration; a delete removes the object. Of the error classes of
section 6 the store gives not-found and precondition-failed; it has no faults, so it
never gives an error of the class other. -/
def specStore : Bucket Store :=
  { write := fun s name conds cacheControl metadata =>
      if conds.doesNotExist = true ∧ (s.data name).isSome = true then
        (some preconditionFailed, s)
      else
        (none,
          { data := Function.update s.data name (some
              { bucket := ""
                name := name
                cacheControl := cacheControl
                metadata := metadata
                generation := s.generations name + 1
                metageneration := 1 })
            generations := Function.update s.generations name (s.generations name + 1) })
    attrs := fun s name =>
      match s.data name with
      | none => (.error .errObjectNotExist, s)
      | some obj => (.ok obj, s)
    update := fun s name conds metadata =>
      match s.data name with
      | none => (.error .errObjectNotExist, s)
      | some obj =>
        if conds.holdFor obj = true then
          (.ok { obj with metadata := metadata, metageneration := obj.metageneration + 1 },
            { s with
              data := Function.update s.data name (some
                { obj with metadata := metadata, metageneration := obj.metageneration + 1 }) })
        else (.error preconditionFailed, s)
    delete := fun s name conds =>
      match s.data name with
      | none => (some .errObjectNotExist, s)
      | some obj =>
        if conds.holdFor obj = true then
          (none, { s with data := Function.update s.data name none })
        else (some preconditionFailed, s) }

/-- The counters of the store are in order for the name: an object that is there has the
last generation given out for the name, and that is at least 1. -/
def Store.OK (s : Store) (p : String) : Prop :=
  0 ≤ s.generations p ∧
    ∀ obj, s.data p = some obj → obj.generation = s.generations p ∧ 1 ≤ s.generations p

/-- A call that creates nothing: the client keeps its path and its cached generation,
the store keeps the last generation of the path and stays in order. -/
def Quiet (l : Lock) (s : Store) (l1 : Lock) (s1 : Store) : Prop :=
  l1.path = l.path ∧ (s.OK l.path → s1.OK l.path)
    ∧ s1.generations l.path = s.generations l.path
    ∧ l1.latestGeneration = l.latestGeneration

/-- A call that may create: as `Quiet`, or the store has given out later generations for
the path and the client caches the last of them. -/
def Evolves (l : Lock) (s : Store) (l1 : Lock) (s1 : Store) : Prop :=
  l1.path = l.path ∧ (s.OK l.path → s1.OK l.path)
    ∧ ((s1.generations l.path = s.generations l.path
          ∧ l1.latestGeneration = l.latestGeneration)
      ∨ (s.generations l.path < s1.generations l.path
          ∧ l1.latestGeneration = s1.generations l.path))

/-! ## Two clients on the store of the spec -/

/-- The cached counters of the client are those of the object the store holds at its
path. -/
def Lock.MatchesStore (l : Lock) (s : Store) : Prop :=
  ∃ obj, s.data l.path = some obj ∧ l.latestGeneration = obj.generation
    ∧ l.latestMetadataGeneration = obj.metageneration

/-- The two clients and the store they share. -/
structure Sys where
  a : Lock
  b : Lock
  store : Store

/-- One completed call on the store of the spec: the client and the store change as the
call leaves them. -/
def Sys.step (c : TimeCodec) (st : Sys) : Op → Sys
  | .lock .a ticks ctxErr =>
    { st with
      a := (st.a.lock specStore c st.store ticks ctxErr).2.1
      store := (st.a.lock specStore c st.store ticks ctxErr).2.2 }
  | .lock .b ticks ctxErr =>
    { st with
      b := (st.b.lock specStore c st.store ticks ctxErr).2.1
      store := (st.b.lock specStore c st.store ticks ctxErr).2.2 }
  | .refresh .a now =>
    { st with
      a := (st.a.RefreshLock specStore c st.store now).2.1
      store := (st.a.RefreshLock specStore c st.store now).2.2 }
  | .refresh .b now =>
    { st with
      b := (st.b.RefreshLock specStore c st.store now).2.1
      store := (st.b.RefreshLock specStore c st.store now).2.2 }
  | .unlock .a =>
    { st with
      a := (st.a.Unlock specStore st.store).2.1
      store := (st.a.Unlock specStore st.store).2.2 }
  | .unlock .b =>
    { st with
      b := (st.b.Unlock specStore st.store).2.1
      store := (st.b.Unlock specStore st.store).2.2 }

/-- A sequence of completed calls, one after the other. -/
def Sys.run (c : TimeCodec) (st : Sys) (ops : List Op) : Sys :=
  ops.foldl (Sys.step c) st

/-- Two fresh clients of one path and the empty store. -/
def Sys.fresh (idA idB path : String) (ttlA ttlB : Duration) : Sys :=
  { a := NewLock idA path ttlA
    b := NewLock idB path ttlB
    store := Store.empty }

/-- Both clients are holding, and the cached counters of both are those of the object in
the store. -/
def Sys.BothHoldAndMatch (st : Sys) : Prop :=
  st.a.refreshMetadata = true ∧ st.b.refreshMetadata = true
    ∧ st.a.MatchesStore st.store ∧ st.b.MatchesStore st.store

/-- The invariant of two clients of the path `p`: the store is in order, no client caches
a generation the store has not given out, and the two do not both cache the last
generation given out. -/
def Sys.Inv (st : Sys) (p : String) : Prop :=
  st.a.path = p ∧ st.b.path = p ∧ st.store.OK p
    ∧ st.a.latestGeneration ≤ st.store.generations p
    ∧ st.b.latestGeneration ≤ st.store.generations p
    ∧ ¬ (st.a.latestGeneration = st.store.generations p
        ∧ st.b.latestGeneration = st.store.generations p
        ∧ 1 ≤ st.store.generations p)

/-- The object a create of `createLock` stores on the store of the spec, with generation
`g`. -/
def Lock.specObject (c : TimeCodec) (l : Lock) (now : Time) (g : Int) : ObjectAttrs :=
  { bucket := ""
    name := l.path
    cacheControl := "no-store"
    metadata := l.metadata c now
    generation := g
    metageneration := 1 }

/-- The store of the spec after a create at the path of the client. -/
def Store.created (s : Store) (c : TimeCodec) (l : Lock) (now : Time) : Store :=
  { data := Function.update s.data l.path (some (l.specObject c now (s.generations l.path + 1)))
    generations := Function.update s.generations l.path (s.generations l.path + 1) }

/-- The client after a `createLock` that has created the object with generation `g`. -/
def Lock.holdingAt (l : Lock) (g : Int) : Lock :=
  { l with
    refreshMetadata := true
    latestMetadataGeneration := 1
    latestGeneration := g }

/-! ## Any number of clients on the store of the spec -/

/-- A step of one client `i` in an interleaving of the store calls of the clients.
`lock` is a whole call of `Lock` with no call of another client during it. The other
steps are the pieces a call is cut into by the calls of the others. `create` is
`createLock`: the conditional create and, when it succeeds, the read of the attributes,
with no call of another client between the two. `refresh` is `RefreshLock`, which has
one store call. `delete` is `deleteLock` without the confirmation of the owner: the
delete of the probe of `Lock` on the metageneration it has read, or the delete of
`Unlock` on the cached one (`none`). The reads of the probe and of `Unlock` change
neither the store nor the client, and what they return only decides whether a delete
follows and on which metageneration; a `delete` with any metageneration at any place of
the sequence covers them. -/
inductive Move (ι : Type) where
  | lock (i : ι) (ticks : List Tick) (ctxErr : Err)
  | create (i : ι) (now : Time)
  | refresh (i : ι) (now : Time)
  | delete (i : ι) (metageneration : Option Int)

/-- The clients and the store they share. -/
structure Net (ι : Type) where
  clients : ι → Lock
  store : Store

/-- One step on the store of the spec: the client and the store change as the call
leaves them. -/
def Net.step {ι : Type} [DecidableEq ι] (c : TimeCodec) (st : Net ι) : Move ι → Net ι
  | .lock i ticks ctxErr =>
    { clients := Function.update st.clients i
        ((st.clients i).lock specStore c st.store ticks ctxErr).2.1
      store := ((st.clients i).lock specStore c st.store ticks ctxErr).2.2 }
  | .create i now =>
    { clients := Function.update st.clients i
        ((st.clients i).createLock specStore c st.store now).2.1
      store := ((st.clients i).createLock specStore c st.store now).2.2 }
  | .refresh i now =>
    { clients := Function.update st.clients i
        ((st.clients i).RefreshLock specStore c st.store now).2.1
      store := ((st.clients i).RefreshLock specStore c st.store now).2.2 }
  | .delete i metageneration =>
    { clients := Function.update st.clients i
        ((st.clients i).deleteLock specStore st.store metageneration false).2.1
      store := ((st.clients i).deleteLock specStore st.store metageneration false).2.2 }

/-- The client that acquires the lock by the step: the one whose `Lock` returns nil, or
whose `createLock` returns nil (the `Lock` it belongs to returns nil right then). -/
def Net.acquiredBy {ι : Type} (c : TimeCodec) (st : Net ι) : Move ι → Option ι
  | .lock i ticks ctxErr =>
    if ((st.clients i).lock specStore c st.store ticks ctxErr).1.isNone then some i else none
  | .create i now =>
    if ((st.clients i).createLock specStore c st.store now).1.isNone then some i else none
  | .refresh _ _ => none
  | .delete _ _ => none

/-- A sequence of steps, one after the other. -/
def Net.run {ι : Type} [DecidableEq ι] (c : TimeCodec) (st : Net ι)
    (moves : List (Move ι)) : Net ι :=
  moves.foldl (Net.step c) st

/-- Whether the client `i` acquires the lock in the course of the steps. -/
def Net.reacquires {ι : Type} [DecidableEq ι] (c : TimeCodec) :
    Net ι → List (Move ι) → ι → Bool
  | _, [], _ => false
  | st, m :: ms, i =>
    decide (Net.acquiredBy c st m = some i) || Net.reacquires c (st.step c m) ms i

/-- Fresh clients of one path and the empty store. -/
def Net.fresh {ι : Type} (ids : ι → String) (path : String) (ttls : ι → Duration) : Net ι :=
  { clients := fun i => NewLock (ids i) path (ttls i)
    store := Store.empty }

/-- The invariant of the clients of the path `p`, with `w` the client that acquired
last: the store is in order, no client caches a generation the store has not given
out, and only `w` caches the last generation given out. -/
def Net.Inv {ι : Type} (st : Net ι) (p : String) (w : Option ι) : Prop :=
  (∀ i, (st.clients i).path = p) ∧ st.store.OK p
    ∧ (∀ i, (st.clients i).latestGeneration ≤ st.store.generations p)
    ∧ (∀ i, (st.clients i).latestGeneration = st.store.generations p →
        1 ≤ st.store.generations p → w = some i)

/-- The first client of the interleaving that breaks mutual exclusion. -/
def lockA : Lock := NewLock "a" "testing" 3

/-- The second client of the interleaving. -/
def lockB : Lock := NewLock "b" "testing" 3

/-- The store of the spec after the create of `createLock` of `lockA` at time 0, before
the read of the attributes. -/
def afterCreateA : Store :=
  (specStore.write Store.empty lockA.path { doesNotExist := true } "no-store"
    (lockA.metadata unaryCodec 0)).2

/-- The `Lock` of `lockB` on the store as the create of `lockA` has left it: the first
iteration, at time 5, reaps the object of `lockA`, expired at time 3; the second, at
time 6, creates the object anew. -/
def lockOfB : Option LockError × Lock × Store :=
  lockB.lock specStore unaryCodec afterCreateA [⟨5, 5⟩, ⟨6, 6⟩] .deadlineExceeded

/-- The `RefreshLock` of `lockB` at time 7, right after its `Lock`. -/
def refreshOfB : Option Err × Lock × Store :=
  Lock.RefreshLock specStore unaryCodec lockOfB.2.1 lockOfB.2.2 7

/-- What `lockB` does to the store between the create of `lockA` and the read of the
attributes that follows it: the store calls of `lockOfB` and `refreshOfB`. -/
def turnOfB (s : Store) : Store :=
  (Lock.RefreshLock specStore unaryCodec
    (lockB.lock specStore unaryCodec s [⟨5, 5⟩, ⟨6, 6⟩] .deadlineExceeded).2.1
    (lockB.lock specStore unaryCodec s [⟨5, 5⟩, ⟨6, 6⟩] .deadlineExceeded).2.2 7).2.2

/-- The `Lock` of `lockA` from the empty store, with the turn of `lockB` between its
create, at time 0, and its read of the attributes. -/
def lockOfA : Option LockError × Lock × Store × List (Store → Store) :=
  lockA.lock (shared specStore) unaryCodec (Store.empty, [id, turnOfB]) [⟨0, 0⟩]
    .deadlineExceeded

/-- The identities of the two clients of the witnesses. -/
def Client.identity : Client → String
  | .a => "a"
  | .b => "b"

/-! ## Theorems: `Lock` -/

/-- C3. On a store that answers from its data and has no object at the path, `Lock`
entered with the context not done returns nil after one create and one read of the
attributes; the store then holds at the path the object with metadata
`expires-at = format (clock at create + ttl)` and `owner = identity`, cache control
`no-store`, generation 1 and metageneration 1; the client is holding and caches those
two counters. -/
theorem C3_lock_creates_absent_object (c : TimeCodec) (l : Lock) (bucket : String)
    (s : Server) (log : List Call) (t : Tick) (ts : List Tick) (ctxErr : Err)
    (hserves : s.Serves bucket l.path) (hname : l.path ≠ "")
    (habsent : s.data l.path = none) :
    l.lock (traced (gcs bucket)) c (s, log) (t :: ts) ctxErr =
      (none,
        { l with refreshMetadata := true, latestMetadataGeneration := 1, latestGeneration := 1 },
        ({ s with data := Function.update s.data l.path (some (l.created c bucket t.nowCreate)) },
          log ++ [.write l.path { doesNotExist := true } "no-store" (l.metadata c t.nowCreate),
            .attrs l.path]))
    ∧ (Function.update s.data l.path (some (l.created c bucket t.nowCreate))) l.path =
        some (l.created c bucket t.nowCreate)
    ∧ (l.created c bucket t.nowCreate).metadata =
        [(expiresAtMetadata, c.format (t.nowCreate + l.ttl)), (ownerMetadata, l.identity)]
    ∧ (l.created c bucket t.nowCreate).cacheControl = "no-store"
    ∧ (l.created c bucket t.nowCreate).generation = 1
    ∧ (l.created c bucket t.nowCreate).metageneration = 1 := by
  obtain ⟨hb, hf⟩ := hserves
  refine ⟨?_, by simp, rfl, rfl, rfl, rfl⟩
  simp [Lock.lock, Lock.lockLoop, Lock.createLock, traced, gcs, Server.validateRequest,
    Server.createObject, Server.readObject, Conditions.toQuery, Response.toErr,
    Response.toAttrs, Object.toAttrs, Lock.created, Lock.metadata, hb, hf, hname, habsent]

/-- The witness of C3: a fresh client on an empty mock server. -/
theorem C3_lock_creates_absent_object_witness :
    ((NewLock "id" "testing" 180).lock (traced (gcs "b")) unaryCodec
        (WithFailOnObjectExistence (NewServer "b"), []) [⟨10, 10⟩] .deadlineExceeded).1 = none := by
  rw [(C3_lock_creates_absent_object unaryCodec (NewLock "id" "testing" 180) "b"
    (WithFailOnObjectExistence (NewServer "b")) [] ⟨10, 10⟩ [] .deadlineExceeded
    ⟨rfl, by decide⟩ (by decide) rfl).1]

/-- One iteration of the loop against a live lock of another owner: the create fails,
the probe (if entered) leaves the object, and the loop goes on with one more error. -/
theorem lockLoop_live_step (c : TimeCodec) (l : Lock) (bucket : String) (s : Server)
    (obj : Object) (expires : Time) (t : Tick) (ts : List Tick) (ctxErr : Err)
    (errs : List Err)
    (hflag : s.failOnObjectExistence = true)
    (hobj : s.data l.path = some obj)
    (howner : obj.metadata.get ownerMetadata ≠ l.identity)
    (hparse : c.parse (obj.metadata.get expiresAtMetadata) = some expires)
    (hlive : ¬ expires < t.nowStale) :
    ∃ err, Lock.lockLoop (gcs bucket) c ctxErr (t :: ts) l s errs =
      Lock.lockLoop (gcs bucket) c ctxErr ts l s (errs ++ [err]) := by
  by_cases hb : bucket = s.bucket
  · by_cases hn : l.path = ""
    · refine ⟨.googleapi statusNotImplemented "createObject missing name", ?_⟩
      simp [Lock.lockLoop, Lock.createLock, gcs, Server.validateRequest,
        Server.createObject, Response.toErr, httpError, Err.isPreconditionFailed,
        statusNotImplemented, statusNotFound, statusPreconditionFailed, hb, hn]
    · by_cases hf : s.failOnObjectName = some l.path
      · refine ⟨.googleapi statusTeapot "createObject failed on name", ?_⟩
        simp [Lock.lockLoop, Lock.createLock, gcs, Server.validateRequest,
          Server.createObject, Response.toErr, httpError, Err.isPreconditionFailed,
          statusTeapot, statusNotFound, statusPreconditionFailed, hb, hn, hf]
      · refine ⟨.googleapi statusPreconditionFailed "createObject already has that object", ?_⟩
        simp [Lock.lockLoop, Lock.createLock, Lock.deleteLockIfStale, gcs,
          Server.validateRequest, Server.createObject, Server.readObject,
          Conditions.toQuery, Response.toErr, Response.toAttrs, Object.toAttrs, httpError,
          Err.isPreconditionFailed, statusNotFound, statusPreconditionFailed, hb, hn, hf,
          hflag, hobj, howner, hparse, hlive]
  · refine ⟨.googleapi 599 "incorrect bucket", ?_⟩
    simp [Lock.lockLoop, Lock.createLock, gcs, Server.validateRequest, Response.toErr,
      httpError, Err.isPreconditionFailed, statusNotFound, statusPreconditionFailed, hb]

/-- The loop against a live lock of another owner, for any number of iterations. -/
theorem lockLoop_live (c : TimeCodec) (l : Lock) (bucket : String) (s : Server)
    (obj : Object) (expires : Time) (ctxErr : Err)
    (hflag : s.failOnObjectExistence = true)
    (hobj : s.data l.path = some obj)
    (howner : obj.metadata.get ownerMetadata ≠ l.identity)
    (hparse : c.parse (obj.metadata.get expiresAtMetadata) = some expires) :
    ∀ (ticks : List Tick) (errs : List Err), (∀ t ∈ ticks, ¬ expires < t.nowStale) →
      ∃ more : List Err, more.length = ticks.length ∧
        Lock.lockLoop (gcs bucket) c ctxErr ticks l s errs =
          (some (.joined (errs ++ more ++ [ctxErr])), l, s) := by
  intro ticks
  induction ticks with
  | nil =>
    intro errs _
    exact ⟨[], rfl, by simp [Lock.lockLoop]⟩
  | cons t ts ih =>
    intro errs hlive
    obtain ⟨err, hstep⟩ := lockLoop_live_step c l bucket s obj expires t ts ctxErr errs
      hflag hobj howner hparse (hlive t (List.mem_cons_self t ts))
    obtain ⟨more, hlen, hrest⟩ := ih (errs ++ [err])
      (fun u hu => hlive u (List.mem_cons_of_mem t hu))
    refine ⟨err :: more, by simp [hlen], ?_⟩
    rw [hstep, hrest]
    simp

/-- C4. On a store that enforces the does-not-exist condition of a create, if the object
at the path has an owner other than the identity and an `expires-at` that parses and is
not before the clock reading of any probe of the call, `Lock` returns a non-nil error
(the join of one error for each iteration and the error of the context), the store is
what it was, and the client, not holding before, is unchanged and not holding. -/
theorem C4_lock_blocked_by_live_lock (c : TimeCodec) (l : Lock) (bucket : String)
    (s : Server) (obj : Object) (expires : Time) (ticks : List Tick) (ctxErr : Err)
    (hflag : s.failOnObjectExistence = true)
    (hidle : l.refreshMetadata = false)
    (hobj : s.data l.path = some obj)
    (howner : obj.metadata.get ownerMetadata ≠ l.identity)
    (hparse : c.parse (obj.metadata.get expiresAtMetadata) = some expires)
    (hlive : ∀ t ∈ ticks, ¬ expires < t.nowStale) :
    (∃ errs : List Err, errs.length = ticks.length ∧
      (l.lock (gcs bucket) c s ticks ctxErr).1 = some (.joined (errs ++ [ctxErr])))
    ∧ (l.lock (gcs bucket) c s ticks ctxErr).2.2 = s
    ∧ (l.lock (gcs bucket) c s ticks ctxErr).2.2.data l.path = some obj
    ∧ (l.lock (gcs bucket) c s ticks ctxErr).2.1 = l
    ∧ (l.lock (gcs bucket) c s ticks ctxErr).2.1.refreshMetadata = false := by
  obtain ⟨more, hlen, hrun⟩ :=
    lockLoop_live c l bucket s obj expires ctxErr hflag hobj howner hparse ticks [] hlive
  have hrun2 : l.lock (gcs bucket) c s ticks ctxErr =
      (some (.joined (more ++ [ctxErr])), l, s) := by
    simpa [Lock.lock] using hrun
  rw [hrun2]
  exact ⟨⟨more, hlen, rfl⟩, rfl, hobj, rfl, hidle⟩

/-- The witness of C4: the test `cannot-lock-if-already-present`, two iterations. -/
theorem C4_lock_blocked_by_live_lock_witness :
    ((NewLock "id" "testing" 180).lock (gcs "b") unaryCodec
        ((WithFailOnObjectExistence (NewServer "b")).Add "testing" liveForeignObject)
        [⟨1, 2⟩, ⟨3, 4⟩] .deadlineExceeded).2.1 = NewLock "id" "testing" 180 :=
  (C4_lock_blocked_by_live_lock unaryCodec (NewLock "id" "testing" 180) "b"
    ((WithFailOnObjectExistence (NewServer "b")).Add "testing" liveForeignObject)
    { generation := 1, id := "testing", kind := "storage#object",
      metadata := [("owner", "someone-else"), ("expires-at", "nnnnn")],
      metageneration := 6, name := "testing", cacheControl := "no-store", bucket := "b" }
    5 [⟨1, 2⟩, ⟨3, 4⟩] .deadlineExceeded rfl rfl
    (by simp [Server.Add, WithFailOnObjectExistence, NewServer, NewLock, liveForeignObject])
    (by decide) (by decide) (by decide)).2.2.2.1

/-- A stale object draws one or two deletes. -/
theorem reapCalls_of_stale (c : TimeCodec) (l : Lock) (obj : Object) (now : Time)
    (h : l.Stale c obj now) :
    l.reapCalls c obj now = 1 ∨ l.reapCalls c obj now = 2 := by
  unfold Lock.reapCalls
  rcases h with h | h | ⟨e, h, hlt⟩
  · cases hp : c.parse (obj.metadata.get expiresAtMetadata) with
    | none => simp [h]
    | some e => by_cases hlt : e < now <;> simp [h, hlt]
  · by_cases ho : obj.metadata.get ownerMetadata = l.identity <;> simp [h, ho]
  · by_cases ho : obj.metadata.get ownerMetadata = l.identity <;> simp [h, ho, hlt]

/-- The first iteration of the loop on a stale object: the create is refused, the probe
reads the object and deletes it on the metageneration it has read. -/
theorem lockLoop_stale_step (c : TimeCodec) (l : Lock) (bucket : String) (s : Server)
    (log : List Call) (obj : Object) (t : Tick) (ts : List Tick) (ctxErr : Err)
    (errs : List Err)
    (hflag : s.failOnObjectExistence = true)
    (hserves : s.Serves bucket l.path) (hname : l.path ≠ "")
    (hobj : s.data l.path = some obj)
    (hstale : l.Stale c obj t.nowStale) :
    Lock.lockLoop (traced (gcs bucket)) c ctxErr (t :: ts) l (s, log) errs =
      Lock.lockLoop (traced (gcs bucket)) c ctxErr ts
        { l with refreshMetadata := false }
        ({ s with data := Function.update s.data l.path none },
          log ++ [.write l.path { doesNotExist := true } "no-store" (l.metadata c t.nowCreate),
              .attrs l.path]
            ++ List.replicate (l.reapCalls c obj t.nowStale)
              (.delete l.path { metagenerationMatch := some obj.metageneration }))
        (errs ++ [.googleapi statusPreconditionFailed "createObject already has that object"]) := by
  obtain ⟨hb, hf⟩ := hserves
  by_cases ho : obj.metadata.get ownerMetadata = l.identity
  · cases hp : c.parse (obj.metadata.get expiresAtMetadata) with
    | none =>
      simp [Lock.lockLoop, Lock.createLock, Lock.deleteLockIfStale, Lock.deleteLock, Lock.deleteLockTail,
        Lock.reapCalls, traced, gcs, Server.validateRequest, Server.createObject,
        Server.readObject, Server.deleteObject, Conditions.toQuery, Response.toErr,
        Response.toAttrs, Object.toAttrs, httpError, Err.isPreconditionFailed,
        Err.isObjectNotExist, statusNotFound, statusPreconditionFailed, hb, hname, hf,
        hflag, hobj, ho, hp, List.replicate]
    | some e =>
      by_cases hlt : e < t.nowStale
      · simp [Lock.lockLoop, Lock.createLock, Lock.deleteLockIfStale, Lock.deleteLock, Lock.deleteLockTail,
          Lock.reapCalls, traced, gcs, Server.validateRequest, Server.createObject,
          Server.readObject, Server.deleteObject, Conditions.toQuery, Response.toErr,
          Response.toAttrs, Object.toAttrs, httpError, Err.isPreconditionFailed,
          Err.isObjectNotExist, statusNotFound, statusPreconditionFailed, hb, hname, hf,
          hflag, hobj, ho, hp, hlt, List.replicate]
      · simp [Lock.lockLoop, Lock.createLock, Lock.deleteLockIfStale, Lock.deleteLock, Lock.deleteLockTail,
          Lock.reapCalls, traced, gcs, Server.validateRequest, Server.createObject,
          Server.readObject, Server.deleteObject, Conditions.toQuery, Response.toErr,
          Response.toAttrs, Object.toAttrs, httpError, Err.isPreconditionFailed,
          Err.isObjectNotExist, statusNotFound, statusPreconditionFailed, hb, hname, hf,
          hflag, hobj, ho, hp, hlt, List.replicate]
  · rcases hstale with h | h | ⟨e, h, hlt⟩
    · exact absurd h ho
    · simp [Lock.lockLoop, Lock.createLock, Lock.deleteLockIfStale, Lock.deleteLock, Lock.deleteLockTail,
        Lock.reapCalls, traced, gcs, Server.validateRequest, Server.createObject,
        Server.readObject, Server.deleteObject, Conditions.toQuery, Response.toErr,
        Response.toAttrs, Object.toAttrs, httpError, Err.isPreconditionFailed,
        Err.isObjectNotExist, statusNotFound, statusPreconditionFailed, hb, hname, hf,
        hflag, hobj, ho, h, List.replicate]
    · simp [Lock.lockLoop, Lock.createLock, Lock.deleteLockIfStale, Lock.deleteLock, Lock.deleteLockTail,
        Lock.reapCalls, traced, gcs, Server.validateRequest, Server.createObject,
        Server.readObject, Server.deleteObject, Conditions.toQuery, Response.toErr,
        Response.toAttrs, Object.toAttrs, httpError, Err.isPreconditionFailed,
        Err.isObjectNotExist, statusNotFound, statusPreconditionFailed, hb, hname, hf,
        hflag, hobj, ho, h, hlt, List.replicate]

/-- An iteration of the loop that finds no object at the path: the create succeeds and
the loop returns nil, whatever errors were recorded before. -/
theorem lockLoop_absent_step (c : TimeCodec) (l : Lock) (bucket : String) (s : Server)
    (log : List Call) (t : Tick) (ts : List Tick) (ctxErr : Err) (errs : List Err)
    (hserves : s.Serves bucket l.path) (hname : l.path ≠ "")
    (habsent : s.data l.path = none) :
    Lock.lockLoop (traced (gcs bucket)) c ctxErr (t :: ts) l (s, log) errs =
      (none,
        { l with refreshMetadata := true, latestMetadataGeneration := 1, latestGeneration := 1 },
        ({ s with data := Function.update s.data l.path (some (l.created c bucket t.nowCreate)) },
          log ++ [.write l.path { doesNotExist := true } "no-store" (l.metadata c t.nowCreate),
            .attrs l.path])) := by
  obtain ⟨hb, hf⟩ := hserves
  simp [Lock.lockLoop, Lock.createLock, traced, gcs, Server.validateRequest,
    Server.createObject, Server.readObject, Conditions.toQuery, Response.toErr,
    Response.toAttrs, Object.toAttrs, Lock.created, Lock.metadata, hb, hf, hname, habsent]

/-- C5. On a store that enforces the conditions and answers from its data, with an
object at the path that is stale at the clock reading of the first probe (owned by the
identity, or `expires-at` not parsing, or `expires-at` strictly before that reading),
`Lock` with two iterations before the context is done runs as follows.  First
iteration: the create is refused, the probe reads the attributes and issues one or two
deletes, each conditioned on the metageneration just read, after which the object is
gone.  Second iteration: the create succeeds, the attributes are read, and `Lock`
returns nil.  The store then holds the object of the identity with generation 1 and
metageneration 1, and the client is holding with these counters cached. -/
theorem C5_lock_reaps_stale_object (c : TimeCodec) (l : Lock) (bucket : String)
    (s : Server) (log : List Call) (obj : Object) (t1 t2 : Tick) (ts : List Tick)
    (ctxErr : Err)
    (hflag : s.failOnObjectExistence = true)
    (hserves : s.Serves bucket l.path) (hname : l.path ≠ "")
    (hobj : s.data l.path = some obj)
    (hstale : l.Stale c obj t1.nowStale) :
    (l.reapCalls c obj t1.nowStale = 1 ∨ l.reapCalls c obj t1.nowStale = 2)
    ∧ Lock.lockLoop (traced (gcs bucket)) c ctxErr (t1 :: t2 :: ts) l (s, log) [] =
      Lock.lockLoop (traced (gcs bucket)) c ctxErr (t2 :: ts)
        { l with refreshMetadata := false }
        ({ s with data := Function.update s.data l.path none },
          log ++ [.write l.path { doesNotExist := true } "no-store" (l.metadata c t1.nowCreate),
              .attrs l.path]
            ++ List.replicate (l.reapCalls c obj t1.nowStale)
              (.delete l.path { metagenerationMatch := some obj.metageneration }))
        [.googleapi statusPreconditionFailed "createObject already has that object"]
    ∧ l.lock (traced (gcs bucket)) c (s, log) (t1 :: t2 :: ts) ctxErr =
      (none,
        { l with refreshMetadata := true, latestMetadataGeneration := 1, latestGeneration := 1 },
        ({ s with data := Function.update s.data l.path (some (l.created c bucket t2.nowCreate)) },
          log ++ [.write l.path { doesNotExist := true } "no-store" (l.metadata c t1.nowCreate),
              .attrs l.path]
            ++ List.replicate (l.reapCalls c obj t1.nowStale)
              (.delete l.path { metagenerationMatch := some obj.metageneration })
            ++ [.write l.path { doesNotExist := true } "no-store" (l.metadata c t2.nowCreate),
              .attrs l.path]))
    ∧ (l.created c bucket t2.nowCreate).metadata.get ownerMetadata = l.identity
    ∧ (l.created c bucket t2.nowCreate).generation = 1
    ∧ (l.created c bucket t2.nowCreate).metageneration = 1 := by
  have hstep := lockLoop_stale_step c l bucket s log obj t1 (t2 :: ts) ctxErr []
    hflag hserves hname hobj hstale
  rw [List.nil_append] at hstep
  have hserves2 : ({ s with data := Function.update s.data l.path none } : Server).Serves
      bucket l.path := hserves
  have hsecond := lockLoop_absent_step c { l with refreshMetadata := false } bucket
    { s with data := Function.update s.data l.path none }
    (log ++ [.write l.path { doesNotExist := true } "no-store" (l.metadata c t1.nowCreate),
        .attrs l.path]
      ++ List.replicate (l.reapCalls c obj t1.nowStale)
        (.delete l.path { metagenerationMatch := some obj.metageneration }))
    t2 ts ctxErr
    [.googleapi statusPreconditionFailed "createObject already has that object"]
    hserves2 hname (by simp)
  refine ⟨reapCalls_of_stale c l obj t1.nowStale hstale, hstep, ?_, ?_, rfl, rfl⟩
  · unfold Lock.lock
    rw [hstep, hsecond]
    simp [Lock.created, Lock.metadata]
  · simp [Lock.created, Metadata.get, ownerMetadata, expiresAtMetadata, List.lookup]

/-- The witness of C5: the test `removes-lock-if-owned-by-me`. -/
theorem C5_lock_reaps_stale_object_witness :
    ((NewLock "id" "testing" 180).lock (traced (gcs "b")) unaryCodec
        ((WithFailOnObjectExistence (NewServer "b")).Add "testing" selfOwnedObject, [])
        [⟨1, 2⟩, ⟨3, 4⟩] .deadlineExceeded).1 = none := by
  rw [(C5_lock_reaps_stale_object unaryCodec (NewLock "id" "testing" 180) "b"
    ((WithFailOnObjectExistence (NewServer "b")).Add "testing" selfOwnedObject) []
    { generation := 1, id := "testing", kind := "storage#object",
      metadata := [("owner", "id"), ("expires-at", "nnnnnnnnn")],
      metageneration := 6, name := "testing", cacheControl := "no-store", bucket := "b" }
    ⟨1, 2⟩ ⟨3, 4⟩ [] .deadlineExceeded rfl ⟨rfl, by decide⟩ (by decide)
    (by simp [Server.Add, WithFailOnObjectExistence, NewServer, NewLock, selfOwnedObject])
    (Or.inl (by decide))).2.2.1]

/-! ## The errors of `Lock` -/

set_option maxRecDepth 100000 in
/-- C6, the code at the failing input. The lock is held; the holder releases it between
the refused create of the contender and the read of its probe. `Lock` of the contender
returns the bare not-found error of the probe from its first iteration, with two
iterations to go before the context is done: no join, no error of the context, and no
retry, although the store is then without the object and one more iteration acquires
the lock. The sibling path does retry: when the object is removed between the create of
`createLock` and its own read of the attributes, the not-found error of that read is
recorded, joined with the error of the context if the context is done next, and
followed by a new attempt otherwise. -/
theorem C6_lock_returns_probe_error_alone :
    ((NewLock "id" "testing" 180).lock (shared (gcs "b")) unaryCodec
        (heldStore, [id, releaseByHolder]) [⟨1, 1⟩, ⟨2, 2⟩, ⟨3, 3⟩] .deadlineExceeded).1 =
      some (.single .errObjectNotExist)
    ∧ (∀ es, ((NewLock "id" "testing" 180).lock (shared (gcs "b")) unaryCodec
        (heldStore, [id, releaseByHolder]) [⟨1, 1⟩, ⟨2, 2⟩, ⟨3, 3⟩] .deadlineExceeded).1 ≠
      some (.joined es))
    ∧ ((NewLock "id" "testing" 180).lock (shared (gcs "b")) unaryCodec
        (heldStore, [id, releaseByHolder]) [⟨1, 1⟩, ⟨2, 2⟩, ⟨3, 3⟩]
        .deadlineExceeded).2.2.1.Get "testing" = none
    ∧ (Lock.lock (gcs "b") unaryCodec
        ((NewLock "id" "testing" 180).lock (shared (gcs "b")) unaryCodec
          (heldStore, [id, releaseByHolder]) [⟨1, 1⟩, ⟨2, 2⟩, ⟨3, 3⟩] .deadlineExceeded).2.1
        ((NewLock "id" "testing" 180).lock (shared (gcs "b")) unaryCodec
          (heldStore, [id, releaseByHolder]) [⟨1, 1⟩, ⟨2, 2⟩, ⟨3, 3⟩] .deadlineExceeded).2.2.1
        [⟨2, 2⟩] .deadlineExceeded).1 = none
    ∧ ((NewLock "id" "testing" 180).lock (shared (gcs "b")) unaryCodec
        (WithFailOnObjectExistence (NewServer "b"), [id, Server.RemoveAll]) [⟨1, 1⟩]
        .deadlineExceeded).1 = some (.joined [.errObjectNotExist, .deadlineExceeded])
    ∧ ((NewLock "id" "testing" 180).lock (shared (gcs "b")) unaryCodec
        (WithFailOnObjectExistence (NewServer "b"), [id, Server.RemoveAll]) [⟨1, 1⟩, ⟨2, 2⟩]
        .deadlineExceeded).1 = none := by
  have h : ((NewLock "id" "testing" 180).lock (shared (gcs "b")) unaryCodec
        (heldStore, [id, releaseByHolder]) [⟨1, 1⟩, ⟨2, 2⟩, ⟨3, 3⟩] .deadlineExceeded).1 =
      some (.single .errObjectNotExist) := by decide
  refine ⟨h, ?_, by decide, by decide, by decide, by decide⟩
  intro es
  rw [h]
  simp

/-! ## `RefreshLock` -/

/-- C7. A holding client with at most three refresh failures calls `RefreshLock` on a
store that answers from its data. If the object is absent, or its metageneration is
not the cached one, the call issues its one update, returns `ErrLockAbandoned`, and
leaves the store as it was and the client as it was, `refreshFailures` included. -/
theorem C7_refresh_abandons_on_lost_object (c : TimeCodec) (l : Lock) (bucket : String)
    (s : Server) (log : List Call) (now : Time)
    (hhold : l.refreshMetadata = true)
    (hfail : l.refreshFailures ≤ maxRefreshFailures)
    (hserves : s.Serves bucket l.path)
    (hlost : s.data l.path = none ∨
      ∃ obj, s.data l.path = some obj ∧ obj.metageneration ≠ l.latestMetadataGeneration) :
    l.RefreshLock (traced (gcs bucket)) c (s, log) now =
      (some .errLockAbandoned, l, (s, log ++ [l.refreshCall c now])) := by
  obtain ⟨hb, hf⟩ := hserves
  have hfail2 : ¬ maxRefreshFailures < l.refreshFailures := Nat.not_lt.2 hfail
  rcases hlost with habsent | ⟨obj, hobj, hne⟩
  · simp [Lock.RefreshLock, Lock.refreshCall, Lock.refreshConds, traced, gcs,
      Server.validateRequest, Server.updateObject, Conditions.toQuery, Response.toAttrs,
      httpError, Err.isObjectNotExist, statusNotFound, hhold, hfail2, hb, hf, habsent]
  · simp [Lock.RefreshLock, Lock.refreshCall, Lock.refreshConds, traced, gcs,
      Server.validateRequest, Server.updateObject, Conditions.toQuery, Response.toAttrs,
      httpError, Err.isObjectNotExist, Err.isPreconditionFailed, statusNotFound,
      statusPreconditionFailed, hhold, hfail2, hb, hf, hobj, hne]

/-- The witness of C7: the test `lock-abandoned-if-metageneration-incorrect`. -/
theorem C7_refresh_abandons_on_lost_object_witness :
    (holdingClient 2 0).RefreshLock (traced (gcs "b")) unaryCodec
        ((WithFailOnObjectExistence (NewServer "b")).Add "testing" ownObjectAtOne, []) 5 =
      (some .errLockAbandoned, holdingClient 2 0,
        ((WithFailOnObjectExistence (NewServer "b")).Add "testing" ownObjectAtOne,
          [] ++ [(holdingClient 2 0).refreshCall unaryCodec 5])) :=
  C7_refresh_abandons_on_lost_object unaryCodec (holdingClient 2 0) "b"
    ((WithFailOnObjectExistence (NewServer "b")).Add "testing" ownObjectAtOne) [] 5
    rfl (by decide) ⟨rfl, by decide⟩
    (Or.inr ⟨storedOwnObjectAtOne,
      by simp [Server.Add, WithFailOnObjectExistence, NewServer, ownObjectAtOne,
        holdingClient, storedOwnObjectAtOne],
      by decide⟩)

/-- The mock increment of an `int64` below the maximum is the successor. -/
theorem wrapInt64_succ (m : Int) (hlo : -2 ^ 63 ≤ m) (hhi : m < 2 ^ 63 - 1) :
    wrapInt64 (m + 1) = m + 1 := by
  unfold wrapInt64
  omega

/-- A `RefreshLock` that gets to its update and is answered with an error does not
return nil. -/
theorem refreshLock_error_ne_nil {σ : Type} (b : Bucket σ) (c : TimeCodec) (l : Lock)
    (w w1 : σ) (now : Time) (err : Err)
    (hhold : l.refreshMetadata = true)
    (hfail : ¬ maxRefreshFailures < l.refreshFailures)
    (hupd : b.update w l.path l.refreshConds (l.metadata c now) = (.error err, w1)) :
    (l.RefreshLock b c w now).1 ≠ none := by
  unfold Lock.refreshConds at hupd
  simp only [Lock.RefreshLock, hhold, hupd]
  by_cases h1 : (err.isObjectNotExist || err.isPreconditionFailed) = true
  · simp [hfail, h1]
  · by_cases h2 : maxRefreshFailures < l.refreshFailures + 1
    · simp [hfail, h1, h2]
    · simp [hfail, h1, h2]

/-- A `RefreshLock` of a holding client that returns nil has updated the object of the
store: the object was there with the cached metageneration, and the call has replaced
its metadata and incremented its metageneration. -/
theorem refreshLock_nil_inv (c : TimeCodec) (l : Lock) (bucket : String) (s : Server)
    (now : Time) (hhold : l.refreshMetadata = true)
    (hnil : (l.RefreshLock (gcs bucket) c s now).1 = none) :
    ∃ obj, s.data l.path = some obj ∧ obj.metageneration = l.latestMetadataGeneration ∧
      l.RefreshLock (gcs bucket) c s now =
        (none,
          { l with
            refreshFailures := 0
            latestMetadataGeneration := wrapInt64 (obj.metageneration + 1)
            latestGeneration := obj.generation },
          { s with
            data := Function.update s.data l.path (some
              { obj with
                metadata := l.metadata c now
                metageneration := wrapInt64 (obj.metageneration + 1) }) }) := by
  by_cases hfail : maxRefreshFailures < l.refreshFailures
  · simp [Lock.RefreshLock, hhold, hfail] at hnil
  have key : ∀ (err : Err) (w1 : Server),
      (gcs bucket).update s l.path l.refreshConds (l.metadata c now) = (.error err, w1) →
      False := fun err w1 h =>
    refreshLock_error_ne_nil (gcs bucket) c l s w1 now err hhold hfail h hnil
  by_cases hb : bucket = s.bucket
  swap
  · exact (key (httpError 599 "incorrect bucket") s
      (by simp [gcs, Server.validateRequest, Response.toAttrs, hb])).elim
  by_cases hf : s.failOnObjectName = some l.path
  · exact (key (httpError statusTeapot "updateObject failed on name") s
      (by simp [gcs, Server.validateRequest, Server.updateObject, Response.toAttrs, hb, hf])).elim
  cases hobj : s.data l.path with
  | none =>
    exact (key (httpError statusNotFound "404 page not found") s
      (by simp [gcs, Server.validateRequest, Server.updateObject, Response.toAttrs,
        Conditions.toQuery, Lock.refreshConds, hb, hf, hobj])).elim
  | some obj =>
    by_cases hm : obj.metageneration = l.latestMetadataGeneration
    · refine ⟨obj, rfl, hm, ?_⟩
      simp [Lock.RefreshLock, gcs, Server.validateRequest, Server.updateObject,
        Conditions.toQuery, Response.toAttrs, Object.toAttrs, hhold, hfail, hb, hf, hobj, hm]
    · exact (key (httpError statusPreconditionFailed "updateObject with old metageneration") s
        (by simp [gcs, Server.validateRequest, Server.updateObject, Response.toAttrs,
          Conditions.toQuery, Lock.refreshConds, hb, hf, hobj, hm])).elim

/-- C8. A holding client whose cached metageneration is an `int64` below the maximum
calls `RefreshLock` on the mock store and gets nil. Then the store had the object at
the cached metageneration and has updated it: the metageneration is the cached one plus
one, so strictly greater; the generation is what it was; the owner is the identity;
`expires-at` is the format of the clock reading of the call plus the ttl. The client
caches the generation and metageneration of the updated object, has `refreshFailures`
0 and is still holding. -/
theorem C8_refresh_success_advances_counters (c : TimeCodec) (l : Lock) (bucket : String)
    (s : Server) (now : Time)
    (hhold : l.refreshMetadata = true)
    (hlo : -2 ^ 63 ≤ l.latestMetadataGeneration)
    (hhi : l.latestMetadataGeneration < 2 ^ 63 - 1)
    (hnil : (l.RefreshLock (gcs bucket) c s now).1 = none) :
    ∃ obj obj1,
      s.data l.path = some obj
      ∧ obj.metageneration = l.latestMetadataGeneration
      ∧ (l.RefreshLock (gcs bucket) c s now).2.2.data l.path = some obj1
      ∧ obj1.metageneration = l.latestMetadataGeneration + 1
      ∧ l.latestMetadataGeneration < obj1.metageneration
      ∧ obj1.generation = obj.generation
      ∧ obj1.metadata.get ownerMetadata = l.identity
      ∧ obj1.metadata.get expiresAtMetadata = c.format (now + l.ttl)
      ∧ (l.RefreshLock (gcs bucket) c s now).2.1.latestGeneration = obj1.generation
      ∧ (l.RefreshLock (gcs bucket) c s now).2.1.latestMetadataGeneration = obj1.metageneration
      ∧ (l.RefreshLock (gcs bucket) c s now).2.1.refreshFailures = 0
      ∧ (l.RefreshLock (gcs bucket) c s now).2.1.refreshMetadata = true := by
  obtain ⟨obj, hobj, hm, hrun⟩ := refreshLock_nil_inv c l bucket s now hhold hnil
  have hw : wrapInt64 (obj.metageneration + 1) = l.latestMetadataGeneration + 1 := by
    rw [hm]
    exact wrapInt64_succ _ hlo hhi
  let obj1 : Object :=
    { obj with
      metadata := l.metadata c now
      metageneration := wrapInt64 (obj.metageneration + 1) }
  refine ⟨obj, obj1, hobj, hm, ?_, hw, ?_, rfl, ?_, ?_, ?_, ?_, ?_, ?_⟩
  · rw [hrun]
    simp
  · show l.latestMetadataGeneration < wrapInt64 (obj.metageneration + 1)
    rw [hw]
    omega
  · simp [obj1, Lock.metadata, Metadata.get, ownerMetadata, expiresAtMetadata, List.lookup]
  · simp [obj1, Lock.metadata, Metadata.get, ownerMetadata, expiresAtMetadata, List.lookup]
  · rw [hrun]
  · rw [hrun]
  · rw [hrun]
  · rw [hrun]
    exact hhold

set_option maxRecDepth 100000 in
/-- The witness of C8: the test `updates-expires-at`. -/
theorem C8_refresh_success_advances_counters_witness :
    ∃ obj obj1,
      ((WithFailOnObjectExistence (NewServer "b")).Add "testing" ownObjectAtTwo).data
          (holdingClient 2 0).path = some obj
      ∧ obj.metageneration = (holdingClient 2 0).latestMetadataGeneration
      ∧ ((holdingClient 2 0).RefreshLock (gcs "b") unaryCodec
          ((WithFailOnObjectExistence (NewServer "b")).Add "testing" ownObjectAtTwo)
          5).2.2.data (holdingClient 2 0).path = some obj1
      ∧ obj1.metageneration = (holdingClient 2 0).latestMetadataGeneration + 1
      ∧ (holdingClient 2 0).latestMetadataGeneration < obj1.metageneration
      ∧ obj1.generation = obj.generation
      ∧ obj1.metadata.get ownerMetadata = (holdingClient 2 0).identity
      ∧ obj1.metadata.get expiresAtMetadata = unaryCodec.format (5 + (holdingClient 2 0).ttl)
      ∧ ((holdingClient 2 0).RefreshLock (gcs "b") unaryCodec
          ((WithFailOnObjectExistence (NewServer "b")).Add "testing" ownObjectAtTwo)
          5).2.1.latestGeneration = obj1.generation
      ∧ ((holdingClient 2 0).RefreshLock (gcs "b") unaryCodec
          ((WithFailOnObjectExistence (NewServer "b")).Add "testing" ownObjectAtTwo)
          5).2.1.latestMetadataGeneration = obj1.metageneration
      ∧ ((holdingClient 2 0).RefreshLock (gcs "b") unaryCodec
          ((WithFailOnObjectExistence (NewServer "b")).Add "testing" ownObjectAtTwo)
          5).2.1.refreshFailures = 0
      ∧ ((holdingClient 2 0).RefreshLock (gcs "b") unaryCodec
          ((WithFailOnObjectExistence (NewServer "b")).Add "testing" ownObjectAtTwo)
          5).2.1.refreshMetadata = true :=
  C8_refresh_success_advances_counters unaryCodec (holdingClient 2 0) "b"
    ((WithFailOnObjectExistence (NewServer "b")).Add "testing" ownObjectAtTwo) 5
    rfl (by decide) (by decide) (by decide)

/-- A `RefreshLock` of a holding client with at most three failures whose update is
answered with an unclassified error: the failure is counted, and the call returns the
error of the store, or `ErrLockAbandoned` when the count has passed three. -/
theorem refreshLock_transient {σ : Type} (b : Bucket σ) (c : TimeCodec) (l : Lock)
    (w w1 : σ) (now : Time) (err : Err)
    (hhold : l.refreshMetadata = true)
    (hfail : l.refreshFailures ≤ maxRefreshFailures)
    (hupd : b.update w l.path l.refreshConds (l.metadata c now) = (.error err, w1))
    (hun : err.Unclassified) :
    l.RefreshLock b c w now =
      (if maxRefreshFailures < l.refreshFailures + 1 then some .errLockAbandoned else some err,
        { l with refreshFailures := l.refreshFailures + 1 }, w1) := by
  obtain ⟨h1, h2⟩ := hun
  have hfail2 : ¬ maxRefreshFailures < l.refreshFailures := Nat.not_lt.2 hfail
  unfold Lock.refreshConds at hupd
  by_cases h3 : maxRefreshFailures < l.refreshFailures + 1
  · simp [Lock.RefreshLock, hhold, hfail2, hupd, h1, h2, h3]
  · simp [Lock.RefreshLock, hhold, hfail2, hupd, h1, h2, h3]

/-- C9. For every bucket handle: a holding client starts with `refreshFailures = 0`, and
the updates of three `RefreshLock` calls in a row are answered with unclassified errors
`e1`, `e2`, `e3`. Then the calls return `e1`, `e2`, `e3`, and leave the client as it was
(holding, cached counters unchanged) but for `refreshFailures`, which is 1, 2 and 3. -/
theorem C9_three_transient_failures_are_counted {σ : Type} (b : Bucket σ) (c : TimeCodec)
    (l : Lock) (w0 w1 w2 w3 : σ) (n1 n2 n3 : Time) (e1 e2 e3 : Err)
    (hhold : l.refreshMetadata = true)
    (hzero : l.refreshFailures = 0)
    (h1 : b.update w0 l.path l.refreshConds (l.metadata c n1) = (.error e1, w1))
    (u1 : e1.Unclassified)
    (h2 : b.update w1 l.path l.refreshConds (l.metadata c n2) = (.error e2, w2))
    (u2 : e2.Unclassified)
    (h3 : b.update w2 l.path l.refreshConds (l.metadata c n3) = (.error e3, w3))
    (u3 : e3.Unclassified) :
    l.RefreshLock b c w0 n1 = (some e1, { l with refreshFailures := 1 }, w1)
    ∧ Lock.RefreshLock b c { l with refreshFailures := 1 } w1 n2 =
        (some e2, { l with refreshFailures := 2 }, w2)
    ∧ Lock.RefreshLock b c { l with refreshFailures := 2 } w2 n3 =
        (some e3, { l with refreshFailures := 3 }, w3)
    ∧ ({ l with refreshFailures := 3 } : Lock).refreshMetadata = true
    ∧ ({ l with refreshFailures := 3 } : Lock).latestGeneration = l.latestGeneration
    ∧ ({ l with refreshFailures := 3 } : Lock).latestMetadataGeneration =
        l.latestMetadataGeneration := by
  refine ⟨?_, ?_, ?_, hhold, rfl, rfl⟩
  · have h := refreshLock_transient b c l w0 w1 n1 e1 hhold (by simp [hzero]) h1 u1
    simpa [hzero, maxRefreshFailures] using h
  · have h := refreshLock_transient b c { l with refreshFailures := 1 } w1 w2 n2 e2 hhold
      (by simp [maxRefreshFailures]) h2 u2
    simpa [maxRefreshFailures] using h
  · have h := refreshLock_transient b c { l with refreshFailures := 2 } w2 w3 n3 e3 hhold
      (by simp [maxRefreshFailures]) h3 u3
    simpa [maxRefreshFailures] using h

set_option maxRecDepth 100000 in
/-- The witness of C9: the test `lock-failure-increments-refreshFailures`, three times. -/
theorem C9_three_transient_failures_are_counted_witness :
    (holdingClient 1 0).RefreshLock (gcs "b") unaryCodec teapotStore 5 =
      (some teapotErr, holdingClient 1 1, teapotStore)
    ∧ (holdingClient 1 1).RefreshLock (gcs "b") unaryCodec teapotStore 6 =
      (some teapotErr, holdingClient 1 2, teapotStore)
    ∧ (holdingClient 1 2).RefreshLock (gcs "b") unaryCodec teapotStore 7 =
      (some teapotErr, holdingClient 1 3, teapotStore) :=
  have h := C9_three_transient_failures_are_counted (gcs "b") unaryCodec (holdingClient 1 0)
    teapotStore teapotStore teapotStore teapotStore 5 6 7 teapotErr teapotErr teapotErr
    rfl rfl rfl (by decide) rfl (by decide) rfl (by decide)
  ⟨h.1, h.2.1, h.2.2.1⟩

/-- A `RefreshLock` that gets to its update, on a recorded handle: the same call on the
handle itself, with the update appended to the log. -/
theorem refreshLock_traced {σ : Type} (b : Bucket σ) (c : TimeCodec) (l : Lock) (w : σ)
    (log : List Call) (now : Time)
    (hhold : l.refreshMetadata = true)
    (hfail : l.refreshFailures ≤ maxRefreshFailures) :
    l.RefreshLock (traced b) c (w, log) now =
      ((l.RefreshLock b c w now).1, (l.RefreshLock b c w now).2.1,
        ((l.RefreshLock b c w now).2.2, log ++ [l.refreshCall c now])) := by
  have hfail2 : ¬ maxRefreshFailures < l.refreshFailures := Nat.not_lt.2 hfail
  simp only [Lock.RefreshLock, Lock.refreshCall, Lock.refreshConds, traced, hhold, hfail2]
  rcases b.update w l.path
      { generationMatch := some l.latestGeneration
        metagenerationMatch := some l.latestMetadataGeneration }
      (l.metadata c now) with ⟨res, w1⟩
  cases res with
  | error err =>
    by_cases h1 : (err.isObjectNotExist || err.isPreconditionFailed) = true
    · simp [h1]
    · by_cases h2 : maxRefreshFailures < l.refreshFailures + 1
      · simp [h1, h2]
      · simp [h1, h2]
  | ok attrs => simp

/-- A `RefreshLock` that gets to its update and is answered with not-found or
precondition-failed returns `ErrLockAbandoned` and leaves the client as it is. -/
theorem refreshLock_lost {σ : Type} (b : Bucket σ) (c : TimeCodec) (l : Lock)
    (w w1 : σ) (now : Time) (err : Err)
    (hhold : l.refreshMetadata = true)
    (hfail : l.refreshFailures ≤ maxRefreshFailures)
    (hupd : b.update w l.path l.refreshConds (l.metadata c now) = (.error err, w1))
    (hcl : ¬ err.Unclassified) :
    l.RefreshLock b c w now = (some .errLockAbandoned, l, w1) := by
  have hfail2 : ¬ maxRefreshFailures < l.refreshFailures := Nat.not_lt.2 hfail
  have hc : (err.isObjectNotExist || err.isPreconditionFailed) = true := by
    unfold Err.Unclassified at hcl
    cases h1 : err.isObjectNotExist <;> cases h2 : err.isPreconditionFailed <;> simp_all
  unfold Lock.refreshConds at hupd
  simp [Lock.RefreshLock, hhold, hfail2, hupd, hc]

/-- A `RefreshLock` that gets to its update and is answered with attributes returns nil,
resets the failure count and caches the counters of the answer. -/
theorem refreshLock_ok {σ : Type} (b : Bucket σ) (c : TimeCodec) (l : Lock)
    (w w1 : σ) (now : Time) (attrs : ObjectAttrs)
    (hhold : l.refreshMetadata = true)
    (hfail : l.refreshFailures ≤ maxRefreshFailures)
    (hupd : b.update w l.path l.refreshConds (l.metadata c now) = (.ok attrs, w1)) :
    l.RefreshLock b c w now =
      (none,
        { l with
          refreshFailures := 0
          latestMetadataGeneration := attrs.metageneration
          latestGeneration := attrs.generation },
        w1) := by
  have hfail2 : ¬ maxRefreshFailures < l.refreshFailures := Nat.not_lt.2 hfail
  unfold Lock.refreshConds at hupd
  simp [Lock.RefreshLock, hhold, hfail2, hupd]

/-- C10, amended. For every bucket handle: a holding client starts with
`refreshFailures = 0` and the updates of three `RefreshLock` calls in a row are answered
with unclassified errors, so that the client is holding with `refreshFailures = 3`. The
fourth call still issues its update, and the answer decides: an unclassified error is
counted (`refreshFailures = 4`) and turned into `ErrLockAbandoned`; not-found or
precondition-failed gives `ErrLockAbandoned` with the count left at 3; a success gives
nil, the count reset to 0 and the counters of the answer cached. -/
theorem C10_fourth_refresh_contacts_store {σ : Type} (b : Bucket σ) (c : TimeCodec)
    (l : Lock) (w0 w1 w2 w3 : σ) (log : List Call) (n1 n2 n3 n4 : Time) (e1 e2 e3 : Err)
    (hhold : l.refreshMetadata = true)
    (hzero : l.refreshFailures = 0)
    (h1 : b.update w0 l.path l.refreshConds (l.metadata c n1) = (.error e1, w1))
    (u1 : e1.Unclassified)
    (h2 : b.update w1 l.path l.refreshConds (l.metadata c n2) = (.error e2, w2))
    (u2 : e2.Unclassified)
    (h3 : b.update w2 l.path l.refreshConds (l.metadata c n3) = (.error e3, w3))
    (u3 : e3.Unclassified) :
    (Lock.RefreshLock b c (Lock.RefreshLock b c (l.RefreshLock b c w0 n1).2.1 w1 n2).2.1 w2 n3
      = (some e3, { l with refreshFailures := 3 }, w3))
    ∧ (Lock.RefreshLock (traced b) c { l with refreshFailures := 3 } (w3, log) n4).2.2.2 =
        log ++ [l.refreshCall c n4]
    ∧ (∀ e4 w4, b.update w3 l.path l.refreshConds (l.metadata c n4) = (.error e4, w4) →
        e4.Unclassified →
        Lock.RefreshLock (traced b) c { l with refreshFailures := 3 } (w3, log) n4 =
          (some .errLockAbandoned, { l with refreshFailures := 4 },
            (w4, log ++ [l.refreshCall c n4])))
    ∧ (∀ e4 w4, b.update w3 l.path l.refreshConds (l.metadata c n4) = (.error e4, w4) →
        ¬ e4.Unclassified →
        Lock.RefreshLock (traced b) c { l with refreshFailures := 3 } (w3, log) n4 =
          (some .errLockAbandoned, { l with refreshFailures := 3 },
            (w4, log ++ [l.refreshCall c n4])))
    ∧ (∀ attrs w4, b.update w3 l.path l.refreshConds (l.metadata c n4) = (.ok attrs, w4) →
        Lock.RefreshLock (traced b) c { l with refreshFailures := 3 } (w3, log) n4 =
          (none,
            { l with
              refreshFailures := 0
              latestMetadataGeneration := attrs.metageneration
              latestGeneration := attrs.generation },
            (w4, log ++ [l.refreshCall c n4]))) := by
  have r1 : l.RefreshLock b c w0 n1 = (some e1, { l with refreshFailures := 1 }, w1) := by
    have h := refreshLock_transient b c l w0 w1 n1 e1 hhold (by simp [hzero]) h1 u1
    simpa [hzero, maxRefreshFailures] using h
  have r2 : Lock.RefreshLock b c { l with refreshFailures := 1 } w1 n2 =
      (some e2, { l with refreshFailures := 2 }, w2) := by
    have h := refreshLock_transient b c { l with refreshFailures := 1 } w1 w2 n2 e2 hhold
      (by simp [maxRefreshFailures]) h2 u2
    simpa [maxRefreshFailures] using h
  have r3 : Lock.RefreshLock b c { l with refreshFailures := 2 } w2 n3 =
      (some e3, { l with refreshFailures := 3 }, w3) := by
    have h := refreshLock_transient b c { l with refreshFailures := 2 } w2 w3 n3 e3 hhold
      (by simp [maxRefreshFailures]) h3 u3
    simpa [maxRefreshFailures] using h
  have hthree : ({ l with refreshFailures := 3 } : Lock).refreshFailures ≤ maxRefreshFailures := by
    simp [maxRefreshFailures]
  have htr := refreshLock_traced b c { l with refreshFailures := 3 } w3 log n4 hhold hthree
  refine ⟨by rw [r1, r2, r3], ?_, ?_, ?_, ?_⟩
  · rw [htr]
    rfl
  · intro e4 w4 hu hun
    have h := refreshLock_transient b c { l with refreshFailures := 3 } w3 w4 n4 e4 hhold
      hthree hu hun
    rw [htr, h]
    simp [maxRefreshFailures, Lock.refreshCall, Lock.refreshConds, Lock.metadata]
  · intro e4 w4 hu hcl
    have h := refreshLock_lost b c { l with refreshFailures := 3 } w3 w4 n4 e4 hhold
      hthree hu hcl
    rw [htr, h]
    simp [Lock.refreshCall, Lock.refreshConds, Lock.metadata]
  · intro attrs w4 hu
    have h := refreshLock_ok b c { l with refreshFailures := 3 } w3 w4 n4 attrs hhold
      hthree hu
    rw [htr, h]
    simp [Lock.refreshCall, Lock.refreshConds, Lock.metadata]

set_option maxRecDepth 100000 in
/-- The witness of C10: the test `lock-failure-increments-refreshFailures` with three
failures counted. The fourth call issues its update, is answered with 418, and returns
`ErrLockAbandoned` with four failures counted. -/
theorem C10_fourth_refresh_contacts_store_witness :
    Lock.RefreshLock (traced (gcs "b")) unaryCodec (holdingClient 1 3) (teapotStore, []) 8 =
      (some .errLockAbandoned, holdingClient 1 4,
        (teapotStore, [] ++ [(holdingClient 1 0).refreshCall unaryCodec 8])) :=
  (C10_fourth_refresh_contacts_store (gcs "b") unaryCodec (holdingClient 1 0)
    teapotStore teapotStore teapotStore teapotStore [] 5 6 7 8 teapotErr teapotErr teapotErr
    rfl rfl rfl (by decide) rfl (by decide) rfl (by decide)).2.2.1 teapotErr teapotStore rfl
    (by decide)

set_option maxRecDepth 100000 in
/-- C10, counterexample. The store answers the updates of three calls of `RefreshLock`
with 418 and is in order again before the fourth. The client, holding and starting with
no failure counted, gets the 418 error three times; the fourth call issues an update as
well (four updates in the log), the store performs it (metageneration 2), and the call
returns nil with the count reset: not `ErrLockAbandoned`, and not without a store
call. -/
theorem C10_counterexample :
    (Lock.refreshes (traced (shared (gcs "b"))) unaryCodec [5, 6, 7, 8] (holdingClient 1 0)
        ((teapotStore, [id, id, id, endFault]), [])).1 =
      [some teapotErr, some teapotErr, some teapotErr, none]
    ∧ (Lock.refreshes (traced (shared (gcs "b"))) unaryCodec [5, 6, 7] (holdingClient 1 0)
        ((teapotStore, [id, id, id, endFault]), [])).2.1 = holdingClient 1 3
    ∧ (Lock.refreshes (traced (shared (gcs "b"))) unaryCodec [5, 6, 7, 8] (holdingClient 1 0)
        ((teapotStore, [id, id, id, endFault]), [])).2.1 =
      { holdingClient 2 0 with latestGeneration := 2 }
    ∧ (Lock.refreshes (traced (shared (gcs "b"))) unaryCodec [5, 6, 7, 8] (holdingClient 1 0)
        ((teapotStore, [id, id, id, endFault]), [])).2.2.2 =
      [(holdingClient 1 0).refreshCall unaryCodec 5, (holdingClient 1 0).refreshCall unaryCodec 6,
        (holdingClient 1 0).refreshCall unaryCodec 7, (holdingClient 1 0).refreshCall unaryCodec 8]
    ∧ ((Lock.refreshes (traced (shared (gcs "b"))) unaryCodec [5, 6, 7, 8] (holdingClient 1 0)
        ((teapotStore, [id, id, id, endFault]), [])).2.2.1.1.Get "testing").map
          (fun attrs => attrs.metageneration) = some 2 := by
  refine ⟨by decide, by decide, by decide, by decide, by decide⟩

/-! ## Recording does not change a run -/

theorem traced_createLock {σ : Type} (b : Bucket σ) (c : TimeCodec) (l : Lock) (w : σ)
    (log : List Call) (now : Time) :
    unlog (l.createLock (traced b) c (w, log) now) = l.createLock b c w now := by
  simp only [Lock.createLock, traced, unlog]
  rcases b.write w l.path { doesNotExist := true } "no-store" (l.metadata c now) with ⟨o, w1⟩
  cases o with
  | some err => rfl
  | none =>
    simp only
    rcases b.attrs w1 l.path with ⟨res, w2⟩
    cases res <;> rfl

theorem traced_deleteLockTail {σ : Type} (b : Bucket σ) (l : Lock) (w : σ)
    (log : List Call) (metageneration : Option Int) :
    unlog (l.deleteLockTail (traced b) (w, log) metageneration) =
      l.deleteLockTail b w metageneration := by
  simp only [Lock.deleteLockTail, traced, unlog]
  rcases b.delete w l.path
      { metagenerationMatch := some (match metageneration with
        | some v => v
        | none => l.latestMetadataGeneration) } with ⟨o, w1⟩
  cases o with
  | none => rfl
  | some err =>
    by_cases h : (err.isObjectNotExist || err.isPreconditionFailed) = true
    · simp [h]
    · simp [h]

theorem traced_deleteLock {σ : Type} (b : Bucket σ) (l : Lock) (w : σ) (log : List Call)
    (metageneration : Option Int) (confirmOwner : Bool) :
    unlog (l.deleteLock (traced b) (w, log) metageneration confirmOwner) =
      l.deleteLock b w metageneration confirmOwner := by
  cases confirmOwner with
  | false =>
    simp only [Lock.deleteLock]
    exact traced_deleteLockTail b l w log metageneration
  | true =>
    simp only [Lock.deleteLock, if_true]
    have hattrs : (traced b).attrs (w, log) l.path =
        ((b.attrs w l.path).1, ((b.attrs w l.path).2, log ++ [.attrs l.path])) := rfl
    rw [hattrs]
    rcases b.attrs w l.path with ⟨res, w1⟩
    cases res with
    | error err =>
      by_cases h : err.isObjectNotExist = true
      · simp [unlog, h]
      · simp [unlog, h]
    | ok attrs =>
      by_cases h : attrs.metadata.get ownerMetadata = l.identity
      · simp only [h, ne_eq, not_true_eq_false, if_false]
        exact traced_deleteLockTail b l w1 _ metageneration
      · simp [unlog, h]

theorem traced_deleteLockIfStale {σ : Type} (b : Bucket σ) (c : TimeCodec) (l : Lock)
    (w : σ) (log : List Call) (now : Time) :
    unlog (l.deleteLockIfStale (traced b) c (w, log) now) = l.deleteLockIfStale b c w now := by
  simp only [Lock.deleteLockIfStale]
  have hattrs : (traced b).attrs (w, log) l.path =
      ((b.attrs w l.path).1, ((b.attrs w l.path).2, log ++ [.attrs l.path])) := rfl
  rw [hattrs]
  rcases b.attrs w l.path with ⟨res, w1⟩
  cases res with
  | error err => rfl
  | ok attrs =>
    have second : ∀ (l2 : Lock) (w2 : σ) (log2 : List Call),
        unlog (match c.parse (attrs.metadata.get expiresAtMetadata) with
          | none => l2.deleteLock (traced b) (w2, log2) (some attrs.metageneration) false
          | some expires =>
            if expires < now then
              l2.deleteLock (traced b) (w2, log2) (some attrs.metageneration) false
            else (none, l2, (w2, log2))) =
        (match c.parse (attrs.metadata.get expiresAtMetadata) with
          | none => l2.deleteLock b w2 (some attrs.metageneration) false
          | some expires =>
            if expires < now then l2.deleteLock b w2 (some attrs.metageneration) false
            else (none, l2, w2)) := by
      intro l2 w2 log2
      cases c.parse (attrs.metadata.get expiresAtMetadata) with
      | none => exact traced_deleteLock b l2 w2 log2 _ false
      | some expires =>
        by_cases hlt : expires < now
        · simp only [hlt, if_true]
          exact traced_deleteLock b l2 w2 log2 _ false
        · simp [hlt, unlog]
    by_cases ho : attrs.metadata.get ownerMetadata = l.identity
    · simp only [ho, if_true]
      have h1 := traced_deleteLock b l w1 (log ++ [.attrs l.path]) (some attrs.metageneration) false
      rcases hr : l.deleteLock (traced b) (w1, log ++ [.attrs l.path])
          (some attrs.metageneration) false with ⟨o, l2, w2, log2⟩
      rw [hr] at h1
      rw [← h1]
      simp only [hr]
      cases o with
      | some err => rfl
      | none => exact second l2 w2 log2
    · simp only [ho, if_false]
      exact second l w1 _

theorem traced_lockLoop {σ : Type} (b : Bucket σ) (c : TimeCodec) (ctxErr : Err) :
    ∀ (ticks : List Tick) (l : Lock) (w : σ) (log : List Call) (errs : List Err),
      unlog (Lock.lockLoop (traced b) c ctxErr ticks l (w, log) errs) =
        Lock.lockLoop b c ctxErr ticks l w errs := by
  intro ticks
  induction ticks with
  | nil =>
    intro l w log errs
    rfl
  | cons t ts ih =>
    intro l w log errs
    have h1 := traced_createLock b c l w log t.nowCreate
    simp only [Lock.lockLoop]
    rcases hr : l.createLock (traced b) c (w, log) t.nowCreate with ⟨o, l1, w1, log1⟩
    rw [hr] at h1
    rw [← h1]
    cases o with
    | none => rfl
    | some err =>
      by_cases hpre : err.isPreconditionFailed = true
      · have h2 := traced_deleteLockIfStale b c l1 w1 log1 t.nowStale
        simp only [unlog, hpre, if_true]
        rcases hr2 : l1.deleteLockIfStale (traced b) c (w1, log1) t.nowStale with
          ⟨o2, l2, w2, log2⟩
        rw [hr2] at h2
        rw [← h2]
        simp only [unlog]
        cases o2 with
        | some err2 => rfl
        | none => exact ih l2 w2 log2 _
      · simp only [unlog, hpre]
        exact ih l1 w1 log1 _

/-- Recording does not change a run of `Lock`. -/
theorem traced_lock {σ : Type} (b : Bucket σ) (c : TimeCodec) (l : Lock) (w : σ)
    (log : List Call) (ticks : List Tick) (ctxErr : Err) :
    unlog (l.lock (traced b) c (w, log) ticks ctxErr) = l.lock b c w ticks ctxErr :=
  traced_lockLoop b c ctxErr ticks l w log []

/-! ## `RefreshLock` of a client that is not holding -/

/-- C11. For every bucket handle, every store state and every client that is not
holding, `RefreshLock` returns nil and issues no store call: the log of calls, the store
and every field of the client are what they were. -/
theorem C11_refresh_of_idle_client_is_noop {σ : Type} (b : Bucket σ) (c : TimeCodec)
    (l : Lock) (w : σ) (log : List Call) (now : Time)
    (hidle : l.refreshMetadata = false) :
    l.RefreshLock (traced b) c (w, log) now = (none, l, (w, log)) := by
  simp [Lock.RefreshLock, hidle]

/-- The witness of C11: the test `doesn't-update-lock-if-refreshMetadata-not-set`. -/
theorem C11_refresh_of_idle_client_is_noop_witness :
    (NewLock "id" "testing" 180).RefreshLock (traced (gcs "b")) unaryCodec
        ((WithFailOnObjectExistence (NewServer "b")).Add "testing" ownObjectAtTwo, []) 5 =
      (none, NewLock "id" "testing" 180,
        ((WithFailOnObjectExistence (NewServer "b")).Add "testing" ownObjectAtTwo, [])) :=
  C11_refresh_of_idle_client_is_noop (gcs "b") unaryCodec (NewLock "id" "testing" 180)
    ((WithFailOnObjectExistence (NewServer "b")).Add "testing" ownObjectAtTwo) [] 5 rfl

/-! ## `Unlock` -/

/-- C12. On the mock store, if the object at the path has an owner other than the
identity, then `Unlock` reads the attributes and returns the error
`errLockOwnedBySomeoneElse`, whatever the cached metageneration; no delete is issued,
the store is what it was, and the client, its holding flag included, is unchanged. -/
theorem C12_unlock_refuses_foreign_owner (l : Lock) (bucket : String) (s : Server)
    (log : List Call) (obj : Object)
    (hbucket : s.bucket = bucket)
    (hobj : s.data l.path = some obj)
    (howner : obj.metadata.get ownerMetadata ≠ l.identity) :
    l.Unlock (traced (gcs bucket)) (s, log) =
      (some .errLockOwnedBySomeoneElse, l, (s, log ++ [.attrs l.path])) := by
  simp [Lock.Unlock, Lock.deleteLock, traced, gcs, Server.validateRequest, Server.readObject,
    Response.toAttrs, Object.toAttrs, hbucket, hobj, howner]

/-- The witness of C12: the test `doesn't-unlock-lock-owned-by-someone-else`. -/
theorem C12_unlock_refuses_foreign_owner_witness :
    (idleClient 2).Unlock (traced (gcs "b"))
        ((WithFailOnObjectExistence (NewServer "b")).Add "testing" foreignObjectAtTwo, []) =
      (some .errLockOwnedBySomeoneElse, idleClient 2,
        ((WithFailOnObjectExistence (NewServer "b")).Add "testing" foreignObjectAtTwo,
          [] ++ [.attrs (idleClient 2).path])) :=
  C12_unlock_refuses_foreign_owner (idleClient 2) "b"
    ((WithFailOnObjectExistence (NewServer "b")).Add "testing" foreignObjectAtTwo) []
    storedForeignObjectAtTwo rfl
    (by simp [Server.Add, WithFailOnObjectExistence, NewServer, foreignObjectAtTwo,
      storedForeignObjectAtTwo, idleClient])
    (by decide)

/-- C13. On a mock store that enforces the metageneration condition of a delete and
answers from its data, if the object at the path is owned by the identity and its
metageneration is not the cached one, then `Unlock` reads the attributes, issues the
delete on the cached metageneration, which the store refuses, and returns nil; the store
with the object is what it was. -/
theorem C13_unlock_with_stale_counter_keeps_object (l : Lock) (bucket : String)
    (s : Server) (log : List Call) (obj : Object)
    (hflag : s.failOnObjectExistence = true)
    (hserves : s.Serves bucket l.path)
    (hobj : s.data l.path = some obj)
    (howner : obj.metadata.get ownerMetadata = l.identity)
    (hstale : obj.metageneration ≠ l.latestMetadataGeneration) :
    l.Unlock (traced (gcs bucket)) (s, log) =
      (none, { l with refreshMetadata := false },
        (s, log ++ [.attrs l.path] ++ [l.unlockCall]))
    ∧ (l.Unlock (traced (gcs bucket)) (s, log)).2.2.1.data l.path = some obj := by
  obtain ⟨hb, hf⟩ := hserves
  have hrun : l.Unlock (traced (gcs bucket)) (s, log) =
      (none, { l with refreshMetadata := false },
        (s, log ++ [.attrs l.path] ++ [l.unlockCall])) := by
    simp [Lock.Unlock, Lock.deleteLock, Lock.deleteLockTail, Lock.unlockCall, traced, gcs,
      Server.validateRequest, Server.readObject, Server.deleteObject, Conditions.toQuery,
      Response.toAttrs, Response.toErr, Object.toAttrs, httpError, Err.isObjectNotExist,
      Err.isPreconditionFailed, statusNotFound, statusPreconditionFailed, hb, hf, hflag,
      hobj, howner, hstale]
  rw [hrun]
  exact ⟨rfl, hobj⟩

/-- The witness of C13: the test `incorrect-metageneration-swallowed`. -/
theorem C13_unlock_with_stale_counter_keeps_object_witness :
    ((idleClient 3).Unlock (traced (gcs "b"))
        ((WithFailOnObjectExistence (NewServer "b")).Add "testing" ownObjectAtTwo,
          [])).2.2.1.data (idleClient 3).path = some
      { generation := 2
        id := "testing"
        kind := "storage#object"
        metadata := [("owner", "id"), ("expires-at", "n")]
        metageneration := 2
        name := "testing"
        cacheControl := "no-store"
        bucket := "b" } :=
  (C13_unlock_with_stale_counter_keeps_object (idleClient 3) "b"
    ((WithFailOnObjectExistence (NewServer "b")).Add "testing" ownObjectAtTwo) [] _
    rfl ⟨rfl, by decide⟩
    (by simp [Server.Add, WithFailOnObjectExistence, NewServer, ownObjectAtTwo, idleClient])
    (by decide) (by decide)).2

/-- `Unlock` on a mock store that answers from its data, with the object absent or
owned by the identity: the call returns nil; the client keeps its path and identity; the
object is gone afterwards, or it is the object that was there. -/
theorem unlock_free_or_own (l : Lock) (bucket : String) (s : Server)
    (hserves : s.Serves bucket l.path) (hfree : l.FreeOrOwn s) :
    ∃ (l1 : Lock) (s1 : Server),
      l.Unlock (gcs bucket) s = (none, l1, s1)
      ∧ l1.path = l.path ∧ l1.identity = l.identity
      ∧ s1.Serves bucket l.path
      ∧ (s1.data l.path = none ∨ s1.data l.path = s.data l.path) := by
  obtain ⟨hb, hf⟩ := hserves
  rcases hfree with habsent | ⟨obj, hobj, howner⟩
  · refine ⟨l, s, ?_, rfl, rfl, ⟨hb, hf⟩, Or.inr rfl⟩
    simp [Lock.Unlock, Lock.deleteLock, gcs, Server.validateRequest, Server.readObject,
      Response.toAttrs, httpError, Err.isObjectNotExist, statusNotFound, hb, habsent]
  · by_cases hdel : s.failOnObjectExistence = true ∧ obj.metageneration ≠ l.latestMetadataGeneration
    · obtain ⟨hflag, hne⟩ := hdel
      refine ⟨{ l with refreshMetadata := false }, s, ?_, rfl, rfl, ⟨hb, hf⟩, Or.inr rfl⟩
      simp [Lock.Unlock, Lock.deleteLock, Lock.deleteLockTail, gcs, Server.validateRequest,
        Server.readObject, Server.deleteObject, Conditions.toQuery, Response.toAttrs,
        Response.toErr, Object.toAttrs, httpError, Err.isObjectNotExist,
        Err.isPreconditionFailed, statusNotFound, statusPreconditionFailed, hb, hf, hflag,
        hobj, howner, hne]
    · let s1 : Server :=
        { s with
          data := Function.update s.data l.path none }
      have hdata1 : s1.data l.path = none := by simp [s1]
      refine ⟨{ l with refreshMetadata := false }, s1, ?_, rfl, rfl, ⟨hb, hf⟩, Or.inl hdata1⟩
      by_cases hflag : s.failOnObjectExistence = true
      · have hm : obj.metageneration = l.latestMetadataGeneration := by
          by_contra hne
          exact hdel ⟨hflag, hne⟩
        simp [Lock.Unlock, Lock.deleteLock, Lock.deleteLockTail, gcs, Server.validateRequest,
          Server.readObject, Server.deleteObject, Conditions.toQuery, Response.toAttrs,
          Response.toErr, Object.toAttrs, hb, hf, hflag, hobj, howner, hm, s1]
      · simp [Lock.Unlock, Lock.deleteLock, Lock.deleteLockTail, gcs, Server.validateRequest,
          Server.readObject, Server.deleteObject, Conditions.toQuery, Response.toAttrs,
          Response.toErr, Object.toAttrs, hb, hf, hflag, hobj, howner, s1]

/-- `Unlock` on the mock store with no object at the path: nil, after the one read of the
attributes; client and store are what they were. -/
theorem unlock_absent (l : Lock) (bucket : String) (s : Server) (log : List Call)
    (hbucket : s.bucket = bucket) (habsent : s.data l.path = none) :
    l.Unlock (traced (gcs bucket)) (s, log) = (none, l, (s, log ++ [.attrs l.path])) := by
  simp [Lock.Unlock, Lock.deleteLock, traced, gcs, Server.validateRequest, Server.readObject,
    Response.toAttrs, httpError, Err.isObjectNotExist, statusNotFound, hbucket, habsent]

/-- C14. On a mock store that answers from its data, with the object at the path absent
or owned by the identity, two calls of `Unlock` in a row (the second on the client and
the store the first has left) both return nil. On an absent object `Unlock` returns nil
after the one read of the attributes, and the store, still without the object, and the
client are what they were. -/
theorem C14_unlock_twice_returns_nil (l : Lock) (bucket : String) (s : Server)
    (log : List Call)
    (hserves : s.Serves bucket l.path) (hfree : l.FreeOrOwn s) :
    (l.Unlock (gcs bucket) s).1 = none
    ∧ (Lock.Unlock (gcs bucket) (l.Unlock (gcs bucket) s).2.1
        (l.Unlock (gcs bucket) s).2.2).1 = none
    ∧ (s.data l.path = none →
        l.Unlock (traced (gcs bucket)) (s, log) = (none, l, (s, log ++ [.attrs l.path]))) := by
  obtain ⟨l1, s1, hrun, hpath, hident, hserves1, hdata⟩ :=
    unlock_free_or_own l bucket s hserves hfree
  have hfree1 : l1.FreeOrOwn s1 := by
    unfold Lock.FreeOrOwn
    rw [hpath, hident]
    rcases hdata with h | h
    · exact Or.inl h
    · rw [h]
      exact hfree
  have hserves1' : s1.Serves bucket l1.path := by
    rw [hpath]
    exact hserves1
  obtain ⟨l2, s2, hrun2, _⟩ := unlock_free_or_own l1 bucket s1 hserves1' hfree1
  refine ⟨by rw [hrun], by rw [hrun, hrun2], ?_⟩
  intro habsent
  exact unlock_absent l bucket s log hserves.1 habsent

/-- The witness of C14: the test `happy-path`, with a second `Unlock` after it. -/
theorem C14_unlock_twice_returns_nil_witness :
    ((idleClient 2).Unlock (gcs "b")
      ((WithFailOnObjectExistence (NewServer "b")).Add "testing" ownObjectAtTwo)).1 = none
    ∧ (Lock.Unlock (gcs "b")
        ((idleClient 2).Unlock (gcs "b")
          ((WithFailOnObjectExistence (NewServer "b")).Add "testing" ownObjectAtTwo)).2.1
        ((idleClient 2).Unlock (gcs "b")
          ((WithFailOnObjectExistence (NewServer "b")).Add "testing" ownObjectAtTwo)).2.2).1 =
      none :=
  have h := C14_unlock_twice_returns_nil (idleClient 2) "b"
    ((WithFailOnObjectExistence (NewServer "b")).Add "testing" ownObjectAtTwo) []
    ⟨rfl, by decide⟩
    (Or.inr ⟨storedOwnObjectAtTwo,
      by simp [Server.Add, WithFailOnObjectExistence, NewServer, ownObjectAtTwo, idleClient,
        storedOwnObjectAtTwo],
      by decide⟩)
  ⟨h.1, h.2.1⟩

/-- `Unlock` on the mock store with the object owned by the identity: the attributes are
read, the delete on the cached metageneration is issued, and the call returns nil. The
store refuses the delete and is what it was if it enforces the condition and the
metageneration is not the cached one; else the object is removed. -/
theorem unlock_own (l : Lock) (bucket : String) (s : Server) (log : List Call)
    (obj : Object)
    (hserves : s.Serves bucket l.path)
    (hobj : s.data l.path = some obj)
    (howner : obj.metadata.get ownerMetadata = l.identity) :
    l.Unlock (traced (gcs bucket)) (s, log) =
      (none, { l with refreshMetadata := false },
        (if s.failOnObjectExistence = true ∧ obj.metageneration ≠ l.latestMetadataGeneration
          then s
          else { s with data := Function.update s.data l.path none },
        log ++ [.attrs l.path] ++ [l.unlockCall])) := by
  obtain ⟨hb, hf⟩ := hserves
  by_cases hflag : s.failOnObjectExistence = true
  · by_cases hm : obj.metageneration = l.latestMetadataGeneration
    · simp [Lock.Unlock, Lock.deleteLock, Lock.deleteLockTail, Lock.unlockCall, traced, gcs,
        Server.validateRequest, Server.readObject, Server.deleteObject, Conditions.toQuery,
        Response.toAttrs, Response.toErr, Object.toAttrs, hb, hf, hflag, hobj, howner, hm]
    · simp [Lock.Unlock, Lock.deleteLock, Lock.deleteLockTail, Lock.unlockCall, traced, gcs,
        Server.validateRequest, Server.readObject, Server.deleteObject, Conditions.toQuery,
        Response.toAttrs, Response.toErr, Object.toAttrs, httpError, Err.isObjectNotExist,
        Err.isPreconditionFailed, statusNotFound, statusPreconditionFailed, hb, hf, hflag,
        hobj, howner, hm]
  · simp [Lock.Unlock, Lock.deleteLock, Lock.deleteLockTail, Lock.unlockCall, traced, gcs,
      Server.validateRequest, Server.readObject, Server.deleteObject, Conditions.toQuery,
      Response.toAttrs, Response.toErr, Object.toAttrs, hb, hf, hflag, hobj, howner]

/-- C15, amended. `Unlock` does not look at the holding flag. For a client that is not
holding, on a mock store that answers from its data: if the object is absent, `Unlock`
returns nil after the read of the attributes, with no delete and the store unchanged; if
the object has another owner, it returns `errLockOwnedBySomeoneElse`, with no delete and
the store unchanged; if the object is owned by the identity, it does issue the delete on
the cached metageneration and returns nil, and the object is removed unless the store
enforces the condition and the stored metageneration is not the cached one. -/
theorem C15_unlock_of_idle_client (l : Lock) (bucket : String) (s : Server)
    (log : List Call)
    (hidle : l.refreshMetadata = false)
    (hserves : s.Serves bucket l.path) :
    (s.data l.path = none →
      l.Unlock (traced (gcs bucket)) (s, log) = (none, l, (s, log ++ [.attrs l.path])))
    ∧ (∀ obj, s.data l.path = some obj → obj.metadata.get ownerMetadata ≠ l.identity →
      l.Unlock (traced (gcs bucket)) (s, log) =
        (some .errLockOwnedBySomeoneElse, l, (s, log ++ [.attrs l.path])))
    ∧ (∀ obj, s.data l.path = some obj → obj.metadata.get ownerMetadata = l.identity →
      l.Unlock (traced (gcs bucket)) (s, log) =
        (none, l,
          (if s.failOnObjectExistence = true ∧
              obj.metageneration ≠ l.latestMetadataGeneration
            then s
            else { s with data := Function.update s.data l.path none },
          log ++ [.attrs l.path] ++ [l.unlockCall]))) := by
  refine ⟨?_, ?_, ?_⟩
  · intro habsent
    exact unlock_absent l bucket s log hserves.1 habsent
  · intro obj hobj howner
    simp [Lock.Unlock, Lock.deleteLock, traced, gcs, Server.validateRequest,
      Server.readObject, Response.toAttrs, Object.toAttrs, hserves.1, hobj, howner]
  · intro obj hobj howner
    rw [unlock_own l bucket s log obj hserves hobj howner]
    have hl : ({ l with refreshMetadata := false } : Lock) = l := by
      cases l
      simp_all
    rw [hl]

set_option maxRecDepth 100000 in
/-- The witness of C15: the test `happy-path`. The client is fresh, with the cached
metageneration set to 2, and the delete removes the object. -/
theorem C15_unlock_of_idle_client_witness :
    (idleClient 2).Unlock (traced (gcs "b"))
        ((WithFailOnObjectExistence (NewServer "b")).Add "testing" ownObjectAtTwo, []) =
      (none, idleClient 2,
        (if ((WithFailOnObjectExistence (NewServer "b")).Add "testing"
              ownObjectAtTwo).failOnObjectExistence = true ∧
            storedOwnObjectAtTwo.metageneration ≠ (idleClient 2).latestMetadataGeneration
          then (WithFailOnObjectExistence (NewServer "b")).Add "testing" ownObjectAtTwo
          else
            { (WithFailOnObjectExistence (NewServer "b")).Add "testing" ownObjectAtTwo with
              data := Function.update
                ((WithFailOnObjectExistence (NewServer "b")).Add "testing" ownObjectAtTwo).data
                (idleClient 2).path none },
          [] ++ [.attrs (idleClient 2).path] ++ [(idleClient 2).unlockCall])) :=
  (C15_unlock_of_idle_client (idleClient 2) "b"
    ((WithFailOnObjectExistence (NewServer "b")).Add "testing" ownObjectAtTwo) []
    rfl ⟨rfl, by decide⟩).2.2 storedOwnObjectAtTwo
    (by simp [Server.Add, WithFailOnObjectExistence, NewServer, ownObjectAtTwo, idleClient,
      storedOwnObjectAtTwo])
    (by decide)

set_option maxRecDepth 100000 in
/-- C15, counterexample. A freshly constructed client (not holding, cached metageneration
1) calls `Unlock` on a store that holds the object of its identity at metageneration 1.
The call issues the delete conditioned on the cached metageneration, and the store,
which held the object before, is without it afterwards. -/
theorem C15_counterexample :
    (NewLock "id" "testing" 180).refreshMetadata = false
    ∧ ((NewLock "id" "testing" 180).Unlock (traced (gcs "b"))
        ((WithFailOnObjectExistence (NewServer "b")).Add "testing" ownObjectAtOne, [])).1 = none
    ∧ ((NewLock "id" "testing" 180).Unlock (traced (gcs "b"))
        ((WithFailOnObjectExistence (NewServer "b")).Add "testing" ownObjectAtOne, [])).2.2.2 =
      [.attrs "testing", .delete "testing" { metagenerationMatch := some 1 }]
    ∧ (((WithFailOnObjectExistence (NewServer "b")).Add "testing" ownObjectAtOne).Get
        "testing").isSome = true
    ∧ ((NewLock "id" "testing" 180).Unlock (traced (gcs "b"))
        ((WithFailOnObjectExistence (NewServer "b")).Add "testing" ownObjectAtOne,
          [])).2.2.1.Get "testing" = none := by
  refine ⟨by decide, by decide, by decide, by decide, by decide⟩

/-! ## The holding flag -/

/-- `RefreshLock` never writes the holding flag. -/
theorem refreshLock_keeps_flag {σ : Type} (b : Bucket σ) (c : TimeCodec) (l : Lock)
    (w : σ) (now : Time) :
    (l.RefreshLock b c w now).2.1.refreshMetadata = l.refreshMetadata := by
  unfold Lock.RefreshLock
  by_cases hhold : l.refreshMetadata = true
  · by_cases hfail : maxRefreshFailures < l.refreshFailures
    · simp [hhold, hfail]
    · simp only [hhold, hfail]
      rcases b.update w l.path
          { generationMatch := some l.latestGeneration
            metagenerationMatch := some l.latestMetadataGeneration }
          (l.metadata c now) with ⟨res, w1⟩
      cases res with
      | error err =>
        by_cases h1 : (err.isObjectNotExist || err.isPreconditionFailed) = true
        · simp [h1, hhold]
        · by_cases h2 : maxRefreshFailures < l.refreshFailures + 1
          · simp [h1, h2, hhold]
          · simp [h1, h2, hhold]
      | ok attrs => simp [hhold]
  · simp [hhold]

/-- A `RefreshLock` of a holding client with more than three failures counted returns
`ErrLockAbandoned` and leaves the client and the state of the handle as they are. -/
theorem refreshLock_over_threshold {σ : Type} (b : Bucket σ) (c : TimeCodec) (l : Lock)
    (w : σ) (now : Time)
    (hhold : l.refreshMetadata = true)
    (hfail : maxRefreshFailures < l.refreshFailures) :
    l.RefreshLock b c w now = (some .errLockAbandoned, l, w) := by
  simp [Lock.RefreshLock, hhold, hfail]

/-- C16, amended. For every bucket handle: whenever `RefreshLock` returns
`ErrLockAbandoned`, the client was holding and is still holding afterwards, for
`RefreshLock` never clears the flag. The next `RefreshLock` is therefore not the nil
no-op of an idle client: with more than three failures counted it returns
`ErrLockAbandoned` again without a store call, and otherwise it issues its update
again. -/
theorem C16_refresh_abandoned_keeps_holding {σ : Type} (b : Bucket σ) (c : TimeCodec)
    (l : Lock) (w : σ) (now : Time)
    (habandoned : (l.RefreshLock b c w now).1 = some .errLockAbandoned) :
    l.refreshMetadata = true
    ∧ (l.RefreshLock b c w now).2.1.refreshMetadata = true
    ∧ (∀ (w1 : σ) (log : List Call) (now1 : Time),
        maxRefreshFailures < (l.RefreshLock b c w now).2.1.refreshFailures →
        Lock.RefreshLock (traced b) c (l.RefreshLock b c w now).2.1 (w1, log) now1 =
          (some .errLockAbandoned, (l.RefreshLock b c w now).2.1, (w1, log)))
    ∧ (∀ (w1 : σ) (log : List Call) (now1 : Time),
        (l.RefreshLock b c w now).2.1.refreshFailures ≤ maxRefreshFailures →
        (Lock.RefreshLock (traced b) c (l.RefreshLock b c w now).2.1 (w1, log) now1).2.2.2 =
          log ++ [(l.RefreshLock b c w now).2.1.refreshCall c now1]) := by
  have hhold : l.refreshMetadata = true := by
    by_contra h
    have hidle : l.refreshMetadata = false := by simpa using h
    simp [Lock.RefreshLock, hidle] at habandoned
  have hhold1 : (l.RefreshLock b c w now).2.1.refreshMetadata = true := by
    rw [refreshLock_keeps_flag]
    exact hhold
  refine ⟨hhold, hhold1, ?_, ?_⟩
  · intro w1 log now1 hfail
    exact refreshLock_over_threshold (traced b) c _ (w1, log) now1 hhold1 hfail
  · intro w1 log now1 hfail
    rw [refreshLock_traced b c _ w1 log now1 hhold1 hfail]

set_option maxRecDepth 100000 in
/-- The witness of C16: the test `lock-abandoned-if-metageneration-incorrect`. -/
theorem C16_refresh_abandoned_keeps_holding_witness :
    ((holdingClient 2 0).RefreshLock (gcs "b") unaryCodec
      ((WithFailOnObjectExistence (NewServer "b")).Add "testing" ownObjectAtOne)
      5).2.1.refreshMetadata = true :=
  (C16_refresh_abandoned_keeps_holding (gcs "b") unaryCodec (holdingClient 2 0)
    ((WithFailOnObjectExistence (NewServer "b")).Add "testing" ownObjectAtOne) 5
    (by decide)).2.1

set_option maxRecDepth 100000 in
/-- C16, counterexample. The test `lock-abandoned-if-metageneration-incorrect`, with a
second call: the first `RefreshLock` returns `ErrLockAbandoned` and the client is still
holding; the second is no nil no-op, it issues an update of its own and returns
`ErrLockAbandoned` again. -/
theorem C16_counterexample :
    (Lock.refreshes (traced (gcs "b")) unaryCodec [5] (holdingClient 2 0)
        ((WithFailOnObjectExistence (NewServer "b")).Add "testing" ownObjectAtOne, [])).1 =
      [some .errLockAbandoned]
    ∧ (Lock.refreshes (traced (gcs "b")) unaryCodec [5] (holdingClient 2 0)
        ((WithFailOnObjectExistence (NewServer "b")).Add "testing" ownObjectAtOne,
          [])).2.1.refreshMetadata = true
    ∧ (Lock.refreshes (traced (gcs "b")) unaryCodec [5, 6] (holdingClient 2 0)
        ((WithFailOnObjectExistence (NewServer "b")).Add "testing" ownObjectAtOne, [])).1 =
      [some .errLockAbandoned, some .errLockAbandoned]
    ∧ (Lock.refreshes (traced (gcs "b")) unaryCodec [5, 6] (holdingClient 2 0)
        ((WithFailOnObjectExistence (NewServer "b")).Add "testing" ownObjectAtOne,
          [])).2.2.2 =
      [(holdingClient 2 0).refreshCall unaryCodec 5, (holdingClient 2 0).refreshCall unaryCodec 6] := by
  refine ⟨by decide, by decide, by decide, by decide⟩

set_option maxRecDepth 100000 in
/-- C17, the code at the failing input. A holding client calls `Unlock` when the object
is gone from the store (reaped by another client). The read of the attributes meets
not-found and `Unlock` returns nil at once, before the flag is cleared: the client is
still holding, and its next `RefreshLock` goes to the store and returns
`ErrLockAbandoned`. When it is the delete that meets not-found, the flag is cleared. -/
theorem C17_unlock_on_gone_object_keeps_holding :
    (holdingClient 1 0).Unlock (traced (gcs "b")) (WithFailOnObjectExistence (NewServer "b"), []) =
      (none, holdingClient 1 0, (WithFailOnObjectExistence (NewServer "b"), [.attrs "testing"]))
    ∧ ((holdingClient 1 0).Unlock (traced (gcs "b"))
        (WithFailOnObjectExistence (NewServer "b"), [])).2.1.refreshMetadata = true
    ∧ (Lock.RefreshLock (traced (gcs "b")) unaryCodec
        ((holdingClient 1 0).Unlock (traced (gcs "b"))
          (WithFailOnObjectExistence (NewServer "b"), [])).2.1
        (WithFailOnObjectExistence (NewServer "b"), []) 5).1 = some .errLockAbandoned
    ∧ ((holdingClient 1 0).deleteLockTail (gcs "b") (WithFailOnObjectExistence (NewServer "b"))
        none).1 = none
    ∧ ((holdingClient 1 0).deleteLockTail (gcs "b") (WithFailOnObjectExistence (NewServer "b"))
        none).2.1.refreshMetadata = false := by
  refine ⟨?_, by decide, by decide, by decide, by decide⟩
  exact unlock_absent (holdingClient 1 0) "b" (WithFailOnObjectExistence (NewServer "b")) []
    rfl rfl

/-- C18, amended. For every bucket handle, the non-nil errors of `Unlock` are these. If
the read of the attributes fails with an error other than not-found, `Unlock` returns
that error and the client is what it was. If the object has another owner, `Unlock`
returns `errLockOwnedBySomeoneElse` and the client is what it was. If the delete fails
with an unclassified error, `Unlock` returns that error with the cached counters
unchanged but the holding flag cleared, for the flag is cleared before the delete is
issued; the next `RefreshLock` is then a no-op that returns nil without a store call. -/
theorem C18_unlock_errors {σ : Type} (b : Bucket σ) (l : Lock) (w : σ) :
    (∀ err w1, b.attrs w l.path = (.error err, w1) → err.isObjectNotExist = false →
      l.Unlock b w = (some err, l, w1))
    ∧ (∀ attrs w1, b.attrs w l.path = (.ok attrs, w1) →
      attrs.metadata.get ownerMetadata ≠ l.identity →
      l.Unlock b w = (some .errLockOwnedBySomeoneElse, l, w1))
    ∧ (∀ attrs w1 err w2, b.attrs w l.path = (.ok attrs, w1) →
      attrs.metadata.get ownerMetadata = l.identity →
      b.delete w1 l.path { metagenerationMatch := some l.latestMetadataGeneration } =
        (some err, w2) →
      err.Unclassified →
      l.Unlock b w = (some err, { l with refreshMetadata := false }, w2)
      ∧ ∀ (c : TimeCodec) (w3 : σ) (log : List Call) (now : Time),
        Lock.RefreshLock (traced b) c { l with refreshMetadata := false } (w3, log) now =
          (none, { l with refreshMetadata := false }, (w3, log))) := by
  refine ⟨?_, ?_, ?_⟩
  · intro err w1 hattrs hne
    simp [Lock.Unlock, Lock.deleteLock, hattrs, hne]
  · intro attrs w1 hattrs howner
    simp [Lock.Unlock, Lock.deleteLock, hattrs, howner]
  · intro attrs w1 err w2 hattrs howner hdel hun
    obtain ⟨h1, h2⟩ := hun
    refine ⟨?_, ?_⟩
    · simp [Lock.Unlock, Lock.deleteLock, Lock.deleteLockTail, hattrs, howner, hdel, h1, h2]
    · intro c w3 log now
      simp [Lock.RefreshLock]

set_option maxRecDepth 100000 in
/-- The witness of C18: a holding client on the mock store that answers every delete of
`testing` with 418. -/
theorem C18_unlock_errors_witness :
    (holdingClient 1 0).Unlock (gcs "b") teapotStore =
      (some teapotDeleteErr, idleClient 1, teapotStore) :=
  ((C18_unlock_errors (gcs "b") (holdingClient 1 0) teapotStore).2.2 storedOwnObjectAtOne.toAttrs
    teapotStore teapotDeleteErr teapotStore rfl (by decide) rfl (by decide)).1

set_option maxRecDepth 100000 in
/-- C18, counterexample. A holding client calls `Unlock` on a store that answers the
delete with 418. `Unlock` returns that error, the object of the client is still in the
store, and the client is no longer holding: its next `RefreshLock` returns nil without a
store call, so the lease is not renewed. -/
theorem C18_counterexample :
    (holdingClient 1 0).refreshMetadata = true
    ∧ ((holdingClient 1 0).Unlock (traced (gcs "b")) (teapotStore, [])).1 = some teapotDeleteErr
    ∧ ((holdingClient 1 0).Unlock (traced (gcs "b")) (teapotStore, [])).2.1.refreshMetadata = false
    ∧ (((holdingClient 1 0).Unlock (traced (gcs "b")) (teapotStore, [])).2.2.1.Get
        "testing").isSome = true
    ∧ Lock.RefreshLock (traced (gcs "b")) unaryCodec
        ((holdingClient 1 0).Unlock (traced (gcs "b")) (teapotStore, [])).2.1
        (teapotStore, []) 5 = (none, idleClient 1, (teapotStore, [])) := by
  refine ⟨by decide, by decide, by decide, by decide, ?_⟩
  rfl

/-! ## The count of refresh failures -/

theorem createLock_failures {σ : Type} (b : Bucket σ) (c : TimeCodec) (l : Lock) (w : σ)
    (now : Time) : (l.createLock b c w now).2.1.refreshFailures = l.refreshFailures := by
  unfold Lock.createLock
  rcases b.write w l.path { doesNotExist := true } "no-store" (l.metadata c now) with ⟨o, w1⟩
  cases o with
  | some err => rfl
  | none =>
    simp only
    rcases b.attrs w1 l.path with ⟨res, w2⟩
    cases res <;> rfl

theorem deleteLockTail_failures {σ : Type} (b : Bucket σ) (l : Lock) (w : σ)
    (metageneration : Option Int) :
    (l.deleteLockTail b w metageneration).2.1.refreshFailures = l.refreshFailures := by
  unfold Lock.deleteLockTail
  simp only
  rcases b.delete w l.path
      { metagenerationMatch := some (match metageneration with
        | some v => v
        | none => l.latestMetadataGeneration) } with ⟨o, w1⟩
  cases o with
  | none => rfl
  | some err =>
    by_cases h : (err.isObjectNotExist || err.isPreconditionFailed) = true
    · simp [h]
    · simp [h]

theorem deleteLock_failures {σ : Type} (b : Bucket σ) (l : Lock) (w : σ)
    (metageneration : Option Int) (confirmOwner : Bool) :
    (l.deleteLock b w metageneration confirmOwner).2.1.refreshFailures = l.refreshFailures := by
  unfold Lock.deleteLock
  cases confirmOwner with
  | false => exact deleteLockTail_failures b l w metageneration
  | true =>
    simp only [if_true]
    rcases b.attrs w l.path with ⟨res, w1⟩
    cases res with
    | error err =>
      by_cases h : err.isObjectNotExist = true
      · simp [h]
      · simp [h]
    | ok attrs =>
      by_cases h : attrs.metadata.get ownerMetadata = l.identity
      · simp only [h, ne_eq, not_true_eq_false, if_false]
        exact deleteLockTail_failures b l w1 metageneration
      · simp [h]

theorem deleteLockIfStale_failures {σ : Type} (b : Bucket σ) (c : TimeCodec) (l : Lock)
    (w : σ) (now : Time) :
    (l.deleteLockIfStale b c w now).2.1.refreshFailures = l.refreshFailures := by
  unfold Lock.deleteLockIfStale
  rcases b.attrs w l.path with ⟨res, w1⟩
  cases res with
  | error err => rfl
  | ok attrs =>
    have second : ∀ (l2 : Lock) (w2 : σ), l2.refreshFailures = l.refreshFailures →
        (match c.parse (attrs.metadata.get expiresAtMetadata) with
          | none => l2.deleteLock b w2 (some attrs.metageneration) false
          | some expires =>
            if expires < now then l2.deleteLock b w2 (some attrs.metageneration) false
            else (none, l2, w2)).2.1.refreshFailures = l.refreshFailures := by
      intro l2 w2 h2
      cases c.parse (attrs.metadata.get expiresAtMetadata) with
      | none =>
        simp only
        rw [deleteLock_failures, h2]
      | some expires =>
        by_cases hlt : expires < now
        · simp only [hlt, if_true]
          rw [deleteLock_failures, h2]
        · simp [hlt, h2]
    by_cases ho : attrs.metadata.get ownerMetadata = l.identity
    · simp only [ho, if_true]
      have h1 := deleteLock_failures b l w1 (some attrs.metageneration) false
      rcases hr : l.deleteLock b w1 (some attrs.metageneration) false with ⟨o, l2, w2⟩
      rw [hr] at h1
      cases o with
      | some err => exact h1
      | none => exact second l2 w2 h1
    · simp only [ho, if_false]
      exact second l w1 rfl

theorem lockLoop_failures {σ : Type} (b : Bucket σ) (c : TimeCodec) (ctxErr : Err) :
    ∀ (ticks : List Tick) (l : Lock) (w : σ) (errs : List Err),
      (Lock.lockLoop b c ctxErr ticks l w errs).2.1.refreshFailures = l.refreshFailures := by
  intro ticks
  induction ticks with
  | nil =>
    intro l w errs
    rfl
  | cons t ts ih =>
    intro l w errs
    have h1 := createLock_failures b c l w t.nowCreate
    simp only [Lock.lockLoop]
    rcases hr : l.createLock b c w t.nowCreate with ⟨o, l1, w1⟩
    rw [hr] at h1
    cases o with
    | none => exact h1
    | some err =>
      by_cases hpre : err.isPreconditionFailed = true
      · have h2 := deleteLockIfStale_failures b c l1 w1 t.nowStale
        simp only [hpre, if_true]
        rcases hr2 : l1.deleteLockIfStale b c w1 t.nowStale with ⟨o2, l2, w2⟩
        rw [hr2] at h2
        cases o2 with
        | some err2 => exact h2.trans h1
        | none =>
          show (Lock.lockLoop b c ctxErr ts l2 w2 (errs ++ [err])).2.1.refreshFailures =
            l.refreshFailures
          rw [ih l2 w2 _]
          exact h2.trans h1
      · simp only [hpre]
        show (Lock.lockLoop b c ctxErr ts l1 w1 (errs ++ [err])).2.1.refreshFailures =
          l.refreshFailures
        rw [ih l1 w1 _]
        exact h1

theorem refreshLock_failures_le {σ : Type} (b : Bucket σ) (c : TimeCodec) (l : Lock)
    (w : σ) (now : Time) (h : l.refreshFailures ≤ maxRefreshFailures + 1) :
    (l.RefreshLock b c w now).2.1.refreshFailures ≤ maxRefreshFailures + 1 := by
  unfold Lock.RefreshLock
  by_cases hhold : l.refreshMetadata = true
  · by_cases hfail : maxRefreshFailures < l.refreshFailures
    · simp [hhold, hfail, h]
    · simp only [hhold, hfail]
      have hle : l.refreshFailures ≤ maxRefreshFailures := Nat.not_lt.1 hfail
      rcases b.update w l.path
          { generationMatch := some l.latestGeneration
            metagenerationMatch := some l.latestMetadataGeneration }
          (l.metadata c now) with ⟨res, w1⟩
      cases res with
      | error err =>
        by_cases h1 : (err.isObjectNotExist || err.isPreconditionFailed) = true
        · simp [h1, h]
        · by_cases h2 : maxRefreshFailures < l.refreshFailures + 1
          · simp [h1, h2, hle]
          · simp [h1, h2, hle]
      | ok attrs => simp
  · simp [hhold, h]

/-- The count of refresh failures is at most four after every call. -/
theorem after_failures_le {σ : Type} (b : Bucket σ) (c : TimeCodec) (l : Lock)
    (step : Step σ) (h : l.refreshFailures ≤ maxRefreshFailures + 1) :
    (l.after b c step).refreshFailures ≤ maxRefreshFailures + 1 := by
  cases step with
  | lock w ticks ctxErr =>
    simp only [Lock.after, Lock.lock]
    rw [lockLoop_failures]
    exact h
  | refresh w now => exact refreshLock_failures_le b c l w now h
  | unlock w =>
    simp only [Lock.after, Lock.Unlock]
    rw [deleteLock_failures]
    exact h

theorem afterAll_failures_le {σ : Type} (b : Bucket σ) (c : TimeCodec) :
    ∀ (steps : List (Step σ)) (l : Lock), l.refreshFailures ≤ maxRefreshFailures + 1 →
      (l.afterAll b c steps).refreshFailures ≤ maxRefreshFailures + 1 := by
  intro steps
  induction steps with
  | nil =>
    intro l h
    exact h
  | cons step rest ih =>
    intro l h
    exact ih (l.after b c step) (after_failures_le b c l step h)

/-- C19. For every bucket handle, and whatever states the calls find the store in: the
client that any sequence of `Lock`, `RefreshLock` and `Unlock` calls makes of a fresh
client has `refreshFailures ≤ maxRefreshFailures + 1 = 4`. And a holding client with
`refreshFailures > 3` gets `ErrLockAbandoned` from `RefreshLock` with no store call and
with the client, `refreshFailures` included, unchanged. -/
theorem C19_refresh_failures_bounded {σ : Type} (b : Bucket σ) (c : TimeCodec)
    (id path : String) (ttl : Duration) (steps : List (Step σ)) :
    ((NewLock id path ttl).afterAll b c steps).refreshFailures ≤ maxRefreshFailures + 1
    ∧ maxRefreshFailures + 1 = 4
    ∧ ∀ (l : Lock) (w : σ) (log : List Call) (now : Time),
        l.refreshMetadata = true → maxRefreshFailures < l.refreshFailures →
        l.RefreshLock (traced b) c (w, log) now = (some .errLockAbandoned, l, (w, log)) := by
  refine ⟨afterAll_failures_le b c steps (NewLock id path ttl) (by simp [NewLock]), rfl, ?_⟩
  intro l w log now hhold hfail
  exact refreshLock_over_threshold (traced b) c l (w, log) now hhold hfail

/-- The witness of C19: the test `doesn't-update-lock-if-too-many-failures`. -/
theorem C19_refresh_failures_bounded_witness :
    (holdingClient 2 4).RefreshLock (traced (gcs "b")) unaryCodec
        ((WithFailOnObjectExistence (NewServer "b")).Add "testing" ownObjectAtTwo, []) 5 =
      (some .errLockAbandoned, holdingClient 2 4,
        ((WithFailOnObjectExistence (NewServer "b")).Add "testing" ownObjectAtTwo, [])) :=
  (C19_refresh_failures_bounded (gcs "b") unaryCodec "id" "testing" 180 []).2.2
    (holdingClient 2 4)
    ((WithFailOnObjectExistence (NewServer "b")).Add "testing" ownObjectAtTwo) [] 5 rfl
    (by decide)

/-! ## The counters of the mock store -/

set_option maxRecDepth 100000 in
/-- C20, counterexample. On the mock store that enforces the conditions, the object
`testing` is created, updated, deleted and created anew: the new object receives the
pair (1, 1) the name held before, and its update the pair (1, 2) the name held before.
On the mock store that does not enforce them, a create over the object at (1, 2) gives
it the pair (1, 1) it held before. -/
theorem C20_counterexample :
    Server.history "testing" (WithFailOnObjectExistence (NewServer "b")) createAnew =
      [some (1, 1), some (1, 2), none, some (1, 1), some (1, 2)]
    ∧ Server.history "testing" (NewServer "b") createOver =
      [some (1, 1), some (1, 2), some (1, 1)] := by
  refine ⟨by decide, by decide⟩

/-- C20, amended. On the mock store a successful update leaves the generation of the
object unchanged and increments its metageneration, by exactly one for a metageneration
below the `int64` maximum. A successful create stores an object with generation 1 and
metageneration 1 whatever the name held before, so an object created after a delete or
over an existing object receives the pair (1, 1) anew. A successful delete leaves the
name without an object. -/
theorem C20_mock_counters (s : Server) :
    (∀ name query metadata code obj1 s1,
      s.updateObject name query metadata = (.ok code (some obj1), s1) →
      ∃ obj, s.data name = some obj ∧ s1.data name = some obj1
        ∧ obj1.generation = obj.generation
        ∧ obj1.metageneration = wrapInt64 (obj.metageneration + 1)
        ∧ (-2 ^ 63 ≤ obj.metageneration → obj.metageneration < 2 ^ 63 - 1 →
            obj1.metageneration = obj.metageneration + 1))
    ∧ (∀ query objectAttrs code o s1,
      s.createObject query objectAttrs = (.ok code o, s1) →
      s1.counters objectAttrs.name = some (1, 1))
    ∧ (∀ name query code o s1,
      s.deleteObject name query = (.ok code o, s1) →
      s1.counters name = none) := by
  refine ⟨?_, ?_, ?_⟩
  · intro name query metadata code obj1 s1 h
    unfold Server.updateObject at h
    by_cases hf : s.failOnObjectName = some name
    · simp [hf] at h
    · cases hq : query.ifMetagenerationMatch with
      | none => simp [hf, hq] at h
      | some m =>
        cases hobj : s.data name with
        | none => simp [hf, hq, hobj] at h
        | some obj =>
          by_cases hm : obj.metageneration = m
          · simp only [hf, hq, hobj, hm, if_false, ne_eq, not_true_eq_false] at h
            simp only [Prod.mk.injEq, Response.ok.injEq, Option.some.injEq] at h
            obtain ⟨⟨_, hobj1⟩, hs1⟩ := h
            subst hobj1
            subst hs1
            refine ⟨obj, rfl, by simp, rfl, by simp [hm], ?_⟩
            intro hlo hhi
            show wrapInt64 (m + 1) = obj.metageneration + 1
            rw [← hm]
            exact wrapInt64_succ _ hlo hhi
          · simp [hf, hq, hobj, hm] at h
  · intro query objectAttrs code o s1 h
    unfold Server.createObject at h
    by_cases h1 : objectAttrs.name = ""
    · simp [h1] at h
    · by_cases h2 : s.failOnObjectName = some objectAttrs.name
      · simp [h1, h2] at h
      · by_cases h3 : s.failOnObjectExistence = true ∧ query.ifGenerationMatch ≠ some 0
        · simp [h1, h2, h3] at h
        · by_cases h4 : s.failOnObjectExistence = true ∧
              (s.data objectAttrs.name).isSome = true
          · simp [h1, h2, h3, h4] at h
            split at h <;> simp at h
          · simp only [h1, h2, h3, h4, if_false, Prod.mk.injEq] at h
            obtain ⟨_, hs1⟩ := h
            subst hs1
            simp [Server.counters]
  · intro name query code o s1 h
    unfold Server.deleteObject at h
    by_cases h1 : s.failOnObjectName = some name
    · simp [h1] at h
    · by_cases h2 : s.failOnObjectExistence = true ∧ query.ifMetagenerationMatch = none
      · simp [h1, h2] at h
      · cases hobj : s.data name with
        | none => simp [h1, h2, hobj] at h
        | some obj =>
          by_cases h3 : s.failOnObjectExistence = true ∧
              some obj.metageneration ≠ query.ifMetagenerationMatch
          · simp [h1, h2, hobj, h3] at h
            split at h <;> simp at h
          · simp only [h1, h2, hobj, h3, if_false, Prod.mk.injEq] at h
            obtain ⟨_, hs1⟩ := h
            subst hs1
            simp [Server.counters]

set_option maxRecDepth 100000 in
/-- The witness of C20: a create over the object of the test `updates-expires-at`, at
generation 2 and metageneration 2, on a mock store that does not enforce the
conditions. -/
theorem C20_mock_counters_witness :
    (((NewServer "b").Add "testing" ownObjectAtTwo).createObject {} testingAttrs).2.counters
      testingAttrs.name = some (1, 1) :=
  (C20_mock_counters ((NewServer "b").Add "testing" ownObjectAtTwo)).2.1 {} testingAttrs
    (200 : Nat)
    ((((NewServer "b").Add "testing" ownObjectAtTwo).createObject {} testingAttrs).2.data
      "testing")
    (((NewServer "b").Add "testing" ownObjectAtTwo).createObject {} testingAttrs).2
    (by
      have h : (((NewServer "b").Add "testing" ownObjectAtTwo).createObject {}
          testingAttrs).1 = .ok 200
          ((((NewServer "b").Add "testing" ownObjectAtTwo).createObject {} testingAttrs).2.data
            "testing") := by decide
      exact Prod.ext h rfl)

/-! ## Calls on the store of the spec -/

theorem quiet_refl (l : Lock) (s : Store) : Quiet l s l s :=
  ⟨rfl, id, rfl, rfl⟩

theorem quiet_trans (l l1 l2 : Lock) (s s1 s2 : Store)
    (h1 : Quiet l s l1 s1) (h2 : Quiet l1 s1 l2 s2) : Quiet l s l2 s2 := by
  obtain ⟨hp1, hok1, hg1, hl1⟩ := h1
  obtain ⟨hp2, hok2, hg2, hl2⟩ := h2
  rw [hp1] at hok2 hg2
  exact ⟨hp2.trans hp1, fun h => hok2 (hok1 h), hg2.trans hg1, hl2.trans hl1⟩

theorem evolves_of_quiet (l l1 : Lock) (s s1 : Store) (h : Quiet l s l1 s1) :
    Evolves l s l1 s1 :=
  ⟨h.1, h.2.1, Or.inl ⟨h.2.2.1, h.2.2.2⟩⟩

theorem evolves_trans (l l1 l2 : Lock) (s s1 s2 : Store)
    (h1 : Evolves l s l1 s1) (h2 : Evolves l1 s1 l2 s2) : Evolves l s l2 s2 := by
  obtain ⟨hp1, hok1, hc1⟩ := h1
  obtain ⟨hp2, hok2, hc2⟩ := h2
  rw [hp1] at hok2 hc2
  refine ⟨hp2.trans hp1, fun h => hok2 (hok1 h), ?_⟩
  rcases hc1 with ⟨hg1, hl1⟩ | ⟨hg1, hl1⟩
  · rcases hc2 with ⟨hg2, hl2⟩ | ⟨hg2, hl2⟩
    · exact Or.inl ⟨hg2.trans hg1, hl2.trans hl1⟩
    · exact Or.inr ⟨by omega, hl2⟩
  · rcases hc2 with ⟨hg2, hl2⟩ | ⟨hg2, hl2⟩
    · exact Or.inr ⟨by omega, by omega⟩
    · exact Or.inr ⟨by omega, hl2⟩

/-- `createLock` on the store of the spec when the object is there: refused. -/
theorem spec_createLock_held (c : TimeCodec) (l : Lock) (s : Store) (now : Time)
    (obj : ObjectAttrs) (hobj : s.data l.path = some obj) :
    l.createLock specStore c s now = (some preconditionFailed, l, s) := by
  simp [Lock.createLock, specStore, hobj]

/-- `createLock` on the store of the spec when the object is not there: the object is
created with the next generation and metageneration 1, and the client caches both. -/
theorem spec_createLock_free (c : TimeCodec) (l : Lock) (s : Store) (now : Time)
    (hfree : s.data l.path = none) :
    l.createLock specStore c s now =
      (none,
        { l with
          refreshMetadata := true
          latestMetadataGeneration := 1
          latestGeneration := s.generations l.path + 1 },
        { data := Function.update s.data l.path (some
            { bucket := ""
              name := l.path
              cacheControl := "no-store"
              metadata := l.metadata c now
              generation := s.generations l.path + 1
              metageneration := 1 })
          generations := Function.update s.generations l.path (s.generations l.path + 1) }) := by
  simp [Lock.createLock, specStore, hfree]

theorem evolves_createLock (c : TimeCodec) (l : Lock) (s : Store) (now : Time) :
    Evolves l s (l.createLock specStore c s now).2.1 (l.createLock specStore c s now).2.2 := by
  cases hobj : s.data l.path with
  | some obj =>
    rw [spec_createLock_held c l s now obj hobj]
    exact evolves_of_quiet l l s s (quiet_refl l s)
  | none =>
    rw [spec_createLock_free c l s now hobj]
    refine ⟨rfl, ?_, Or.inr ⟨by simp, by simp⟩⟩
    intro hok
    refine ⟨by have := hok.1; simp; omega, ?_⟩
    intro obj h
    have h0 := hok.1
    simp at h
    subst h
    simp
    omega

theorem quiet_deleteLockTail (l : Lock) (s : Store) (metageneration : Option Int) :
    Quiet l s (l.deleteLockTail specStore s metageneration).2.1
      (l.deleteLockTail specStore s metageneration).2.2 := by
  unfold Lock.deleteLockTail
  cases hobj : s.data l.path with
  | none =>
    simp [specStore, hobj, Err.isObjectNotExist]
    exact ⟨rfl, id, rfl, rfl⟩
  | some obj =>
    by_cases hc : (Conditions.holdFor
        { metagenerationMatch := some (match metageneration with
          | some v => v
          | none => l.latestMetadataGeneration) } obj) = true
    · simp [specStore, hobj, hc]
      refine ⟨rfl, ?_, rfl, rfl⟩
      intro hok
      exact ⟨hok.1, by simp⟩
    · simp [specStore, hobj, hc, preconditionFailed, Err.isPreconditionFailed,
        Err.isObjectNotExist]
      exact ⟨rfl, id, rfl, rfl⟩

theorem quiet_deleteLock (l : Lock) (s : Store) (metageneration : Option Int)
    (confirmOwner : Bool) :
    Quiet l s (l.deleteLock specStore s metageneration confirmOwner).2.1
      (l.deleteLock specStore s metageneration confirmOwner).2.2 := by
  unfold Lock.deleteLock
  cases confirmOwner with
  | false => exact quiet_deleteLockTail l s metageneration
  | true =>
    simp only [if_true]
    cases hobj : s.data l.path with
    | none =>
      have hattrs : specStore.attrs s l.path = (.error .errObjectNotExist, s) := by
        simp [specStore, hobj]
      rw [hattrs]
      exact quiet_refl l s
    | some obj =>
      have hattrs : specStore.attrs s l.path = (.ok obj, s) := by
        simp [specStore, hobj]
      rw [hattrs]
      by_cases ho : obj.metadata.get ownerMetadata = l.identity
      · simp only [ho, ne_eq, not_true_eq_false, if_false]
        exact quiet_deleteLockTail l s metageneration
      · simp only [ne_eq, ho, not_false_eq_true, if_true]
        exact quiet_refl l s

theorem quiet_unlock (l : Lock) (s : Store) :
    Quiet l s (l.Unlock specStore s).2.1 (l.Unlock specStore s).2.2 :=
  quiet_deleteLock l s none true

theorem quiet_deleteLockIfStale (c : TimeCodec) (l : Lock) (s : Store) (now : Time) :
    Quiet l s (l.deleteLockIfStale specStore c s now).2.1
      (l.deleteLockIfStale specStore c s now).2.2 := by
  unfold Lock.deleteLockIfStale
  cases hobj : s.data l.path with
  | none =>
    simp [specStore, hobj]
    exact ⟨rfl, id, rfl, rfl⟩
  | some attrs =>
    have hattrs : specStore.attrs s l.path = (.ok attrs, s) := by
      simp [specStore, hobj]
    rw [hattrs]
    have second : ∀ (l2 : Lock) (s2 : Store), Quiet l s l2 s2 →
        Quiet l s
          (match c.parse (attrs.metadata.get expiresAtMetadata) with
            | none => l2.deleteLock specStore s2 (some attrs.metageneration) false
            | some expires =>
              if expires < now then l2.deleteLock specStore s2 (some attrs.metageneration) false
              else (none, l2, s2)).2.1
          (match c.parse (attrs.metadata.get expiresAtMetadata) with
            | none => l2.deleteLock specStore s2 (some attrs.metageneration) false
            | some expires =>
              if expires < now then l2.deleteLock specStore s2 (some attrs.metageneration) false
              else (none, l2, s2)).2.2 := by
      intro l2 s2 hq
      cases c.parse (attrs.metadata.get expiresAtMetadata) with
      | none => exact quiet_trans l l2 _ s s2 _ hq (quiet_deleteLock l2 s2 _ false)
      | some expires =>
        by_cases hlt : expires < now
        · simp only [hlt, if_true]
          exact quiet_trans l l2 _ s s2 _ hq (quiet_deleteLock l2 s2 _ false)
        · simp only [hlt, if_false]
          exact hq
    by_cases ho : attrs.metadata.get ownerMetadata = l.identity
    · simp only [ho, if_true]
      have h1 := quiet_deleteLock l s (some attrs.metageneration) false
      rcases hr : l.deleteLock specStore s (some attrs.metageneration) false with ⟨o, l2, s2⟩
      rw [hr] at h1
      cases o with
      | some err => exact h1
      | none => exact second l2 s2 h1
    · simp only [ho, if_false]
      exact second l s (quiet_refl l s)

theorem evolves_lockLoop (c : TimeCodec) (ctxErr : Err) :
    ∀ (ticks : List Tick) (l : Lock) (s : Store) (errs : List Err),
      Evolves l s (Lock.lockLoop specStore c ctxErr ticks l s errs).2.1
        (Lock.lockLoop specStore c ctxErr ticks l s errs).2.2 := by
  intro ticks
  induction ticks with
  | nil =>
    intro l s errs
    exact evolves_of_quiet l l s s (quiet_refl l s)
  | cons t ts ih =>
    intro l s errs
    have h1 := evolves_createLock c l s t.nowCreate
    simp only [Lock.lockLoop]
    rcases hr : l.createLock specStore c s t.nowCreate with ⟨o, l1, s1⟩
    rw [hr] at h1
    cases o with
    | none => exact h1
    | some err =>
      by_cases hpre : err.isPreconditionFailed = true
      · have h2 := quiet_deleteLockIfStale c l1 s1 t.nowStale
        simp only [hpre, if_true]
        rcases hr2 : l1.deleteLockIfStale specStore c s1 t.nowStale with ⟨o2, l2, s2⟩
        rw [hr2] at h2
        have h12 := evolves_trans l l1 l2 s s1 s2 h1 (evolves_of_quiet l1 l2 s1 s2 h2)
        cases o2 with
        | some err2 => exact h12
        | none => exact evolves_trans l l2 _ s s2 _ h12 (ih l2 s2 _)
      · simp only [hpre]
        exact evolves_trans l l1 _ s s1 _ h1 (ih l1 s1 _)

theorem evolves_lock (c : TimeCodec) (l : Lock) (s : Store) (ticks : List Tick)
    (ctxErr : Err) :
    Evolves l s (l.lock specStore c s ticks ctxErr).2.1 (l.lock specStore c s ticks ctxErr).2.2 :=
  evolves_lockLoop c ctxErr ticks l s []

/-- A `RefreshLock` of a holding client that returns nil on the store of the spec: the
object is there with the cached generation and the cached metageneration. -/
theorem spec_refresh_nil (c : TimeCodec) (l : Lock) (s : Store) (now : Time)
    (hhold : l.refreshMetadata = true)
    (hnil : (l.RefreshLock specStore c s now).1 = none) :
    ∃ obj, s.data l.path = some obj ∧ obj.generation = l.latestGeneration
      ∧ obj.metageneration = l.latestMetadataGeneration := by
  by_cases hfail : maxRefreshFailures < l.refreshFailures
  · simp [Lock.RefreshLock, hhold, hfail] at hnil
  cases hobj : s.data l.path with
  | none =>
    have hupd : specStore.update s l.path l.refreshConds (l.metadata c now) =
        (.error .errObjectNotExist, s) := by
      simp [specStore, hobj]
    exact (refreshLock_error_ne_nil specStore c l s s now _ hhold hfail hupd hnil).elim
  | some obj =>
    by_cases hc : l.refreshConds.holdFor obj = true
    · refine ⟨obj, rfl, ?_, ?_⟩
      · simp [Conditions.holdFor, Lock.refreshConds] at hc
        exact hc.1.symm
      · simp [Conditions.holdFor, Lock.refreshConds] at hc
        exact hc.2.symm
    · have hupd : specStore.update s l.path l.refreshConds (l.metadata c now) =
          (.error preconditionFailed, s) := by
        simp [specStore, hobj, hc]
      exact (refreshLock_error_ne_nil specStore c l s s now _ hhold hfail hupd hnil).elim

theorem quiet_refresh (c : TimeCodec) (l : Lock) (s : Store) (now : Time) :
    Quiet l s (l.RefreshLock specStore c s now).2.1 (l.RefreshLock specStore c s now).2.2 := by
  by_cases hhold : l.refreshMetadata = true
  swap
  · have hidle : l.refreshMetadata = false := by simpa using hhold
    simp [Lock.RefreshLock, hidle]
    exact ⟨rfl, id, rfl, rfl⟩
  by_cases hfail : maxRefreshFailures < l.refreshFailures
  · rw [refreshLock_over_threshold specStore c l s now hhold hfail]
    exact quiet_refl l s
  have hle : l.refreshFailures ≤ maxRefreshFailures := Nat.not_lt.1 hfail
  cases hobj : s.data l.path with
  | none =>
    have hupd : specStore.update s l.path l.refreshConds (l.metadata c now) =
        (.error .errObjectNotExist, s) := by
      simp [specStore, hobj]
    rw [refreshLock_lost specStore c l s s now _ hhold hle hupd (by decide)]
    exact quiet_refl l s
  | some obj =>
    by_cases hc : l.refreshConds.holdFor obj = true
    · have hgen : obj.generation = l.latestGeneration := by
        simp [Conditions.holdFor, Lock.refreshConds] at hc
        exact hc.1.symm
      have hupd : specStore.update s l.path l.refreshConds (l.metadata c now) =
          (.ok { obj with metadata := l.metadata c now, metageneration := obj.metageneration + 1 },
            { s with
              data := Function.update s.data l.path (some
                { obj with
                  metadata := l.metadata c now
                  metageneration := obj.metageneration + 1 }) }) := by
        simp [specStore, hobj, hc]
      rw [refreshLock_ok specStore c l s _ now _ hhold hle hupd]
      refine ⟨rfl, ?_, rfl, hgen⟩
      intro hok
      refine ⟨hok.1, ?_⟩
      intro obj1 h1
      simp at h1
      subst h1
      exact hok.2 obj hobj
    · have hupd : specStore.update s l.path l.refreshConds (l.metadata c now) =
          (.error preconditionFailed, s) := by
        simp [specStore, hobj, hc]
      rw [refreshLock_lost specStore c l s s now _ hhold hle hupd (by decide)]
      exact quiet_refl l s

/-! ## Two clients on the store of the spec: the invariant -/

/-- What a call of one client keeps, `og` being the generation another client caches. -/
theorem evolves_keeps (p : String) (og : Int) (l l1 : Lock) (s s1 : Store)
    (hev : Evolves l s l1 s1)
    (hpath : l.path = p) (hok : s.OK p)
    (hl : l.latestGeneration ≤ s.generations p) (ho : og ≤ s.generations p)
    (hne : ¬ (l.latestGeneration = s.generations p ∧ og = s.generations p
      ∧ 1 ≤ s.generations p)) :
    l1.path = p ∧ s1.OK p ∧ l1.latestGeneration ≤ s1.generations p
      ∧ og ≤ s1.generations p
      ∧ ¬ (l1.latestGeneration = s1.generations p ∧ og = s1.generations p
        ∧ 1 ≤ s1.generations p) := by
  obtain ⟨hp1, hok1, hc⟩ := hev
  rw [hpath] at hok1 hc
  refine ⟨hp1.trans hpath, hok1 hok, ?_, ?_, ?_⟩
  · rcases hc with ⟨hg, hl1⟩ | ⟨hg, hl1⟩ <;> omega
  · rcases hc with ⟨hg, hl1⟩ | ⟨hg, hl1⟩ <;> omega
  · rcases hc with ⟨hg, hl1⟩ | ⟨hg, hl1⟩
    · rw [hg, hl1]
      exact hne
    · intro h
      omega

theorem inv_step (c : TimeCodec) (p : String) (st : Sys) (op : Op) (h : st.Inv p) :
    (st.step c op).Inv p := by
  obtain ⟨hpa, hpb, hok, hla, hlb, hne⟩ := h
  have hne2 : ¬ (st.b.latestGeneration = st.store.generations p
      ∧ st.a.latestGeneration = st.store.generations p ∧ 1 ≤ st.store.generations p) :=
    fun h => hne ⟨h.2.1, h.1, h.2.2⟩
  cases op with
  | lock who ticks ctxErr =>
    cases who with
    | a =>
      obtain ⟨h1, h2, h3, h4, h5⟩ := evolves_keeps p st.b.latestGeneration st.a _ st.store _
        (evolves_lock c st.a st.store ticks ctxErr) hpa hok hla hlb hne
      exact ⟨h1, hpb, h2, h3, h4, h5⟩
    | b =>
      obtain ⟨h1, h2, h3, h4, h5⟩ := evolves_keeps p st.a.latestGeneration st.b _ st.store _
        (evolves_lock c st.b st.store ticks ctxErr) hpb hok hlb hla hne2
      exact ⟨hpa, h1, h2, h4, h3, fun h => h5 ⟨h.2.1, h.1, h.2.2⟩⟩
  | refresh who now =>
    cases who with
    | a =>
      obtain ⟨h1, h2, h3, h4, h5⟩ := evolves_keeps p st.b.latestGeneration st.a _ st.store _
        (evolves_of_quiet _ _ _ _ (quiet_refresh c st.a st.store now)) hpa hok hla hlb hne
      exact ⟨h1, hpb, h2, h3, h4, h5⟩
    | b =>
      obtain ⟨h1, h2, h3, h4, h5⟩ := evolves_keeps p st.a.latestGeneration st.b _ st.store _
        (evolves_of_quiet _ _ _ _ (quiet_refresh c st.b st.store now)) hpb hok hlb hla hne2
      exact ⟨hpa, h1, h2, h4, h3, fun h => h5 ⟨h.2.1, h.1, h.2.2⟩⟩
  | unlock who =>
    cases who with
    | a =>
      obtain ⟨h1, h2, h3, h4, h5⟩ := evolves_keeps p st.b.latestGeneration st.a _ st.store _
        (evolves_of_quiet _ _ _ _ (quiet_unlock st.a st.store)) hpa hok hla hlb hne
      exact ⟨h1, hpb, h2, h3, h4, h5⟩
    | b =>
      obtain ⟨h1, h2, h3, h4, h5⟩ := evolves_keeps p st.a.latestGeneration st.b _ st.store _
        (evolves_of_quiet _ _ _ _ (quiet_unlock st.b st.store)) hpb hok hlb hla hne2
      exact ⟨hpa, h1, h2, h4, h3, fun h => h5 ⟨h.2.1, h.1, h.2.2⟩⟩

theorem inv_run (c : TimeCodec) (p : String) :
    ∀ (ops : List Op) (st : Sys), st.Inv p → (st.run c ops).Inv p := by
  intro ops
  induction ops with
  | nil =>
    intro st h
    exact h
  | cons op rest ih =>
    intro st h
    exact ih (st.step c op) (inv_step c p st op h)

theorem inv_fresh (idA idB path : String) (ttlA ttlB : Duration) :
    (Sys.fresh idA idB path ttlA ttlB).Inv path := by
  refine ⟨rfl, rfl, ⟨le_refl _, ?_⟩, le_refl _, le_refl _, ?_⟩
  · intro obj h
    simp [Sys.fresh, Store.empty] at h
  · intro h
    have h3 := h.2.2
    simp [Sys.fresh, Store.empty] at h3

/-- Under the invariant the two clients do not both match the store. -/
theorem inv_excludes (p : String) (st : Sys) (h : st.Inv p) :
    ¬ (st.a.MatchesStore st.store ∧ st.b.MatchesStore st.store) := by
  obtain ⟨hpa, hpb, hok, _, _, hne⟩ := h
  rintro ⟨⟨oa, hoa, hga, _⟩, ⟨ob, hob, hgb, _⟩⟩
  rw [hpa] at hoa
  rw [hpb] at hob
  obtain ⟨h1, h2⟩ := hok.2 oa hoa
  obtain ⟨h3, _⟩ := hok.2 ob hob
  exact hne ⟨by omega, by omega, h2⟩

/-- `Lock` on the store of the spec with no object at the path: the first iteration
creates the object and the call returns nil. -/
theorem spec_lock_free (c : TimeCodec) (l : Lock) (s : Store) (t : Tick) (ts : List Tick)
    (ctxErr : Err) (hfree : s.data l.path = none) :
    l.lock specStore c s (t :: ts) ctxErr =
      (none, l.holdingAt (s.generations l.path + 1), s.created c l t.nowCreate) := by
  simp [Lock.lock, Lock.lockLoop, spec_createLock_free c l s t.nowCreate hfree,
    Lock.holdingAt, Store.created, Lock.specObject]

/-- `Lock` on the store of the spec with an expired object of another owner at the path:
the first iteration reaps it, the second creates the object anew, with the next
generation, and the call returns nil. -/
theorem spec_lock_expired (c : TimeCodec) (l : Lock) (s : Store) (obj : ObjectAttrs)
    (expires : Time) (t1 t2 : Tick) (ts : List Tick) (ctxErr : Err)
    (hobj : s.data l.path = some obj)
    (howner : obj.metadata.get ownerMetadata ≠ l.identity)
    (hparse : c.parse (obj.metadata.get expiresAtMetadata) = some expires)
    (hexpired : expires < t1.nowStale) :
    l.lock specStore c s (t1 :: t2 :: ts) ctxErr =
      (none, l.holdingAt (s.generations l.path + 1), s.created c l t2.nowCreate) := by
  have hc := spec_createLock_held c l s t1.nowCreate obj hobj
  have hpre : preconditionFailed.isPreconditionFailed = true := rfl
  have hp : l.deleteLockIfStale specStore c s t1.nowStale =
      (none, { l with refreshMetadata := false },
        { s with data := Function.update s.data l.path none }) := by
    simp [Lock.deleteLockIfStale, Lock.deleteLock, Lock.deleteLockTail, specStore, hobj,
      howner, hparse, hexpired, Conditions.holdFor]
  have hfirst : Lock.lockLoop specStore c ctxErr (t1 :: t2 :: ts) l s [] =
      Lock.lockLoop specStore c ctxErr (t2 :: ts) { l with refreshMetadata := false }
        { s with data := Function.update s.data l.path none } [preconditionFailed] := by
    rw [Lock.lockLoop]
    simp only [hc, hpre, if_true, hp, List.nil_append]
  have hsecond := spec_createLock_free c { l with refreshMetadata := false }
    { s with data := Function.update s.data l.path none } t2.nowCreate (by simp)
  unfold Lock.lock
  rw [hfirst, Lock.lockLoop]
  simp only [hsecond]
  simp [Lock.holdingAt, Store.created, Lock.specObject, Lock.metadata]

/-- C2. On the store the spec assumes (a new generation with every create, the
conditions of create, update and delete enforced), for two fresh clients `A` and `B` of
one path and every sequence of completed `Lock`, `RefreshLock` and `Unlock` calls of the
two from the empty store, it is never the case that both are holding and both cache the
generation and metageneration of the object in the store; this holds for every clock
and needs no assumption on the identities. In particular, for distinct identities:
after `A` acquires, the lease of `A` expires, and `B` reaps and acquires, both are
holding, the counters `B` caches are those of the store, those `A` caches are not, and
the next `RefreshLock` of `A` returns `ErrLockAbandoned` and changes nothing. -/
theorem C2_two_clients_never_both_hold_and_match (c : TimeCodec) (idA idB path : String)
    (ttlA ttlB : Duration) :
    (∀ ops : List Op, ¬ (Sys.run c (Sys.fresh idA idB path ttlA ttlB) ops).BothHoldAndMatch)
    ∧ (∀ (t0 : Tick) (ts0 : List Tick) (t1 t2 : Tick) (ts1 : List Tick) (now : Time)
        (e0 e1 : Err) (expires : Time),
        idA ≠ idB →
        c.parse (c.format (t0.nowCreate + ttlA)) = some expires →
        expires < t1.nowStale →
        ((NewLock idA path ttlA).lock specStore c Store.empty (t0 :: ts0) e0).1 = none
        ∧ ((NewLock idB path ttlB).lock specStore c
            (Sys.run c (Sys.fresh idA idB path ttlA ttlB) [.lock .a (t0 :: ts0) e0]).store
            (t1 :: t2 :: ts1) e1).1 = none
        ∧ (Sys.run c (Sys.fresh idA idB path ttlA ttlB)
            [.lock .a (t0 :: ts0) e0, .lock .b (t1 :: t2 :: ts1) e1]).a.refreshMetadata = true
        ∧ (Sys.run c (Sys.fresh idA idB path ttlA ttlB)
            [.lock .a (t0 :: ts0) e0, .lock .b (t1 :: t2 :: ts1) e1]).b.refreshMetadata = true
        ∧ (Sys.run c (Sys.fresh idA idB path ttlA ttlB)
            [.lock .a (t0 :: ts0) e0, .lock .b (t1 :: t2 :: ts1) e1]).b.MatchesStore
            (Sys.run c (Sys.fresh idA idB path ttlA ttlB)
              [.lock .a (t0 :: ts0) e0, .lock .b (t1 :: t2 :: ts1) e1]).store
        ∧ ¬ (Sys.run c (Sys.fresh idA idB path ttlA ttlB)
            [.lock .a (t0 :: ts0) e0, .lock .b (t1 :: t2 :: ts1) e1]).a.MatchesStore
            (Sys.run c (Sys.fresh idA idB path ttlA ttlB)
              [.lock .a (t0 :: ts0) e0, .lock .b (t1 :: t2 :: ts1) e1]).store
        ∧ Lock.RefreshLock specStore c
            (Sys.run c (Sys.fresh idA idB path ttlA ttlB)
              [.lock .a (t0 :: ts0) e0, .lock .b (t1 :: t2 :: ts1) e1]).a
            (Sys.run c (Sys.fresh idA idB path ttlA ttlB)
              [.lock .a (t0 :: ts0) e0, .lock .b (t1 :: t2 :: ts1) e1]).store now =
          (some .errLockAbandoned,
            (Sys.run c (Sys.fresh idA idB path ttlA ttlB)
              [.lock .a (t0 :: ts0) e0, .lock .b (t1 :: t2 :: ts1) e1]).a,
            (Sys.run c (Sys.fresh idA idB path ttlA ttlB)
              [.lock .a (t0 :: ts0) e0, .lock .b (t1 :: t2 :: ts1) e1]).store)) := by
  constructor
  · intro ops hboth
    exact inv_excludes path _ (inv_run c path ops _ (inv_fresh idA idB path ttlA ttlB))
      ⟨hboth.2.2.1, hboth.2.2.2⟩
  · intro t0 ts0 t1 t2 ts1 now e0 e1 expires hid hparse hexpired
    have hA := spec_lock_free c (NewLock idA path ttlA) Store.empty t0 ts0 e0 rfl
    have hidB : ¬ idA = idB := hid
    have hB := spec_lock_expired c (NewLock idB path ttlB)
      (Store.empty.created c (NewLock idA path ttlA) t0.nowCreate)
      ((NewLock idA path ttlA).specObject c t0.nowCreate 1) expires t1 t2 ts1 e1
      (by simp [Store.created, Store.empty, NewLock])
      (by simpa [Lock.specObject, Lock.metadata, NewLock, Metadata.get, List.lookup,
        ownerMetadata, expiresAtMetadata] using hidB)
      (by simpa [Lock.specObject, Lock.metadata, NewLock, Metadata.get, List.lookup,
        ownerMetadata, expiresAtMetadata] using hparse)
      hexpired
    have hgA : Store.empty.generations (NewLock idA path ttlA).path + 1 = 1 := rfl
    have hgB : (Store.empty.created c (NewLock idA path ttlA) t0.nowCreate).generations
        (NewLock idB path ttlB).path + 1 = 2 := by
      simp [Store.created, Store.empty, NewLock]
    rw [hgA] at hA
    rw [hgB] at hB
    have hrun1 : Sys.run c (Sys.fresh idA idB path ttlA ttlB) [.lock .a (t0 :: ts0) e0] =
        { a := (NewLock idA path ttlA).holdingAt 1
          b := NewLock idB path ttlB
          store := Store.empty.created c (NewLock idA path ttlA) t0.nowCreate } := by
      show Sys.step c (Sys.fresh idA idB path ttlA ttlB) (.lock .a (t0 :: ts0) e0) = _
      simp only [Sys.step, Sys.fresh, hA]
    have hrun2 : Sys.run c (Sys.fresh idA idB path ttlA ttlB)
        [.lock .a (t0 :: ts0) e0, .lock .b (t1 :: t2 :: ts1) e1] =
        { a := (NewLock idA path ttlA).holdingAt 1
          b := (NewLock idB path ttlB).holdingAt 2
          store := (Store.empty.created c (NewLock idA path ttlA) t0.nowCreate).created c
            (NewLock idB path ttlB) t2.nowCreate } := by
      have h2 : Sys.run c (Sys.fresh idA idB path ttlA ttlB)
          [.lock .a (t0 :: ts0) e0, .lock .b (t1 :: t2 :: ts1) e1] =
          Sys.step c (Sys.run c (Sys.fresh idA idB path ttlA ttlB) [.lock .a (t0 :: ts0) e0])
            (.lock .b (t1 :: t2 :: ts1) e1) := rfl
      rw [h2, hrun1]
      simp only [Sys.step, hB]
    rw [hrun2, hrun1]
    refine ⟨by rw [hA], by rw [hB], rfl, rfl, ?_, ?_, ?_⟩
    · exact ⟨(NewLock idB path ttlB).specObject c t2.nowCreate 2,
        by simp [Store.created, Store.empty, NewLock, Lock.holdingAt], rfl, rfl⟩
    · rintro ⟨obj, hobj, hg, _⟩
      simp [Store.created, Store.empty, NewLock, Lock.holdingAt] at hobj
      subst hobj
      simp [Lock.holdingAt, Lock.specObject, NewLock] at hg
    · have hupd : specStore.update
          ((Store.empty.created c (NewLock idA path ttlA) t0.nowCreate).created c
            (NewLock idB path ttlB) t2.nowCreate)
          ((NewLock idA path ttlA).holdingAt 1).path
          ((NewLock idA path ttlA).holdingAt 1).refreshConds
          (((NewLock idA path ttlA).holdingAt 1).metadata c now) =
          (.error preconditionFailed,
            (Store.empty.created c (NewLock idA path ttlA) t0.nowCreate).created c
              (NewLock idB path ttlB) t2.nowCreate) := by
        simp [specStore, Store.created, Store.empty, NewLock, Lock.holdingAt,
          Lock.refreshConds, Conditions.holdFor, Lock.specObject]
      exact refreshLock_lost specStore c _ _ _ now _ rfl
        (by simp [Lock.holdingAt, NewLock, maxRefreshFailures]) hupd (by decide)

/-- The witness of C2: `a` acquires at time 0 with a lease until time 3, `b` reaps at
time 5 and acquires at time 6; the `RefreshLock` of `a` at time 8 returns
`ErrLockAbandoned`. -/
theorem C2_two_clients_never_both_hold_and_match_witness :
    ¬ (Sys.run unaryCodec (Sys.fresh "a" "b" "testing" 3 3)
        [.lock .a [⟨0, 0⟩] .deadlineExceeded,
          .lock .b [⟨5, 5⟩, ⟨6, 6⟩] .deadlineExceeded]).BothHoldAndMatch
    ∧ ¬ (Sys.run unaryCodec (Sys.fresh "a" "b" "testing" 3 3)
        [.lock .a [⟨0, 0⟩] .deadlineExceeded,
          .lock .b [⟨5, 5⟩, ⟨6, 6⟩] .deadlineExceeded]).a.MatchesStore
        (Sys.run unaryCodec (Sys.fresh "a" "b" "testing" 3 3)
          [.lock .a [⟨0, 0⟩] .deadlineExceeded,
            .lock .b [⟨5, 5⟩, ⟨6, 6⟩] .deadlineExceeded]).store
    ∧ Lock.RefreshLock specStore unaryCodec
        (Sys.run unaryCodec (Sys.fresh "a" "b" "testing" 3 3)
          [.lock .a [⟨0, 0⟩] .deadlineExceeded,
            .lock .b [⟨5, 5⟩, ⟨6, 6⟩] .deadlineExceeded]).a
        (Sys.run unaryCodec (Sys.fresh "a" "b" "testing" 3 3)
          [.lock .a [⟨0, 0⟩] .deadlineExceeded,
            .lock .b [⟨5, 5⟩, ⟨6, 6⟩] .deadlineExceeded]).store 8 =
      (some .errLockAbandoned,
        (Sys.run unaryCodec (Sys.fresh "a" "b" "testing" 3 3)
          [.lock .a [⟨0, 0⟩] .deadlineExceeded,
            .lock .b [⟨5, 5⟩, ⟨6, 6⟩] .deadlineExceeded]).a,
        (Sys.run unaryCodec (Sys.fresh "a" "b" "testing" 3 3)
          [.lock .a [⟨0, 0⟩] .deadlineExceeded,
            .lock .b [⟨5, 5⟩, ⟨6, 6⟩] .deadlineExceeded]).store) :=
  have h := (C2_two_clients_never_both_hold_and_match unaryCodec "a" "b" "testing" 3 3).2
    ⟨0, 0⟩ [] ⟨5, 5⟩ ⟨6, 6⟩ [] 8 .deadlineExceeded .deadlineExceeded 3
    (by decide) (by decide) (by decide)
  ⟨(C2_two_clients_never_both_hold_and_match unaryCodec "a" "b" "testing" 3 3).1 _,
    h.2.2.2.2.2.1, h.2.2.2.2.2.2⟩

/-! ## Mutual exclusion on the store of the spec -/

set_option maxRecDepth 100000 in
/-- C1 fails. On the store of the spec, `lockA` and `lockB` have distinct identities and
one path. The create of `lockA` succeeds (generation 1, lease until time 3). Before
`lockA` reads the attributes, `lockB` runs `Lock`, which returns nil (generation 2), and
`RefreshLock`, which returns nil (metageneration 2). The read of `lockA` then returns
the object of `lockB`, and `Lock` of `lockA` returns nil with the counters (2, 2) of
that object cached. At this point both clients have had `Lock` succeed, neither has
acquired again, both are holding and both cache the counters of the object in the
store, which `lockB` owns with a lease until time 10: the next `RefreshLock` succeeds
for `lockA`, and it succeeds for `lockB` as well. -/
theorem C1_counterexample :
    lockA.identity ≠ lockB.identity ∧ lockA.path = lockB.path
    ∧ afterCreateA.data "testing" = some (lockA.specObject unaryCodec 0 1)
    ∧ lockOfB.1 = none
    ∧ refreshOfB.1 = none
    ∧ refreshOfB.2.1.refreshMetadata = true
    ∧ (refreshOfB.2.1.latestGeneration, refreshOfB.2.1.latestMetadataGeneration) = (2, 2)
    ∧ lockOfA.1 = none
    ∧ lockOfA.2.1.refreshMetadata = true
    ∧ (lockOfA.2.1.latestGeneration, lockOfA.2.1.latestMetadataGeneration) = (2, 2)
    ∧ lockOfA.2.2.2.length = 0
    ∧ (lockOfA.2.2.1.data "testing").map
        (fun o => (o.metadata.get ownerMetadata, o.metadata.get expiresAtMetadata,
          o.generation, o.metageneration)) =
        some ("b", unaryCodec.format 10, 2, 2)
    ∧ (Lock.RefreshLock specStore unaryCodec lockOfA.2.1 lockOfA.2.2.1 8).1 = none
    ∧ (Lock.RefreshLock specStore unaryCodec refreshOfB.2.1 lockOfA.2.2.1 8).1 = none := by
  decide

/-- A step that creates nothing keeps the invariant. -/
theorem net_inv_quiet {ι : Type} [DecidableEq ι] (st : Net ι) (p : String) (w : Option ι)
    (k : ι) (l1 : Lock) (s1 : Store) (h : st.Inv p w)
    (hq : Quiet (st.clients k) st.store l1 s1) :
    Net.Inv { clients := Function.update st.clients k l1, store := s1 } p w := by
  obtain ⟨hpath, hok, hle, hlast⟩ := h
  obtain ⟨hp1, hok1, hg1, hl1⟩ := hq
  rw [hpath k] at hok1 hg1
  refine ⟨?_, hok1 hok, ?_, ?_⟩
  · intro i
    by_cases hik : i = k
    · subst hik
      simp only [Function.update_same]
      exact hp1.trans (hpath i)
    · simp only [Function.update_noteq hik]
      exact hpath i
  · intro i
    show (Function.update st.clients k l1 i).latestGeneration ≤ s1.generations p
    by_cases hik : i = k
    · subst hik
      simp only [Function.update_same]
      rw [hl1, hg1]
      exact hle i
    · simp only [Function.update_noteq hik]
      rw [hg1]
      exact hle i
  · intro i
    show (Function.update st.clients k l1 i).latestGeneration = s1.generations p →
      1 ≤ s1.generations p → w = some i
    by_cases hik : i = k
    · subst hik
      simp only [Function.update_same]
      rw [hl1, hg1]
      exact hlast i
    · simp only [Function.update_noteq hik]
      rw [hg1]
      exact hlast i

/-- What `Lock` returns on the store of the spec tells whether it has created the
object: with nil the store has given out later generations for the path and the client
caches the last of them; with an error nothing was created. -/
theorem spec_lockLoop_result (c : TimeCodec) (ctxErr : Err) :
    ∀ (ticks : List Tick) (l : Lock) (s : Store) (errs : List Err),
      ((Lock.lockLoop specStore c ctxErr ticks l s errs).1 = none →
        s.generations l.path <
            (Lock.lockLoop specStore c ctxErr ticks l s errs).2.2.generations l.path
          ∧ (Lock.lockLoop specStore c ctxErr ticks l s errs).2.1.latestGeneration =
            (Lock.lockLoop specStore c ctxErr ticks l s errs).2.2.generations l.path)
      ∧ ((Lock.lockLoop specStore c ctxErr ticks l s errs).1 ≠ none →
        Quiet l s (Lock.lockLoop specStore c ctxErr ticks l s errs).2.1
          (Lock.lockLoop specStore c ctxErr ticks l s errs).2.2) := by
  intro ticks
  induction ticks with
  | nil =>
    intro l s errs
    simp only [Lock.lockLoop]
    exact ⟨fun h => by simp at h, fun _ => quiet_refl l s⟩
  | cons t ts ih =>
    intro l s errs
    have later : ∀ (l2 : Lock) (s2 : Store) (errs2 : List Err), Quiet l s l2 s2 →
        ((Lock.lockLoop specStore c ctxErr ts l2 s2 errs2).1 = none →
          s.generations l.path <
              (Lock.lockLoop specStore c ctxErr ts l2 s2 errs2).2.2.generations l.path
            ∧ (Lock.lockLoop specStore c ctxErr ts l2 s2 errs2).2.1.latestGeneration =
              (Lock.lockLoop specStore c ctxErr ts l2 s2 errs2).2.2.generations l.path)
        ∧ ((Lock.lockLoop specStore c ctxErr ts l2 s2 errs2).1 ≠ none →
          Quiet l s (Lock.lockLoop specStore c ctxErr ts l2 s2 errs2).2.1
            (Lock.lockLoop specStore c ctxErr ts l2 s2 errs2).2.2) := by
      intro l2 s2 errs2 hq
      obtain ⟨h1, h2⟩ := ih l2 s2 errs2
      rw [hq.1, hq.2.2.1] at h1
      exact ⟨h1, fun h => quiet_trans l l2 _ s s2 _ hq (h2 h)⟩
    cases hobj : s.data l.path with
    | none =>
      have hc := spec_createLock_free c l s t.nowCreate hobj
      simp only [Lock.lockLoop, hc]
      exact ⟨fun _ => ⟨by simp, by simp⟩, fun h => (h rfl).elim⟩
    | some obj =>
      have hc := spec_createLock_held c l s t.nowCreate obj hobj
      have hpre : preconditionFailed.isPreconditionFailed = true := rfl
      have h2 := quiet_deleteLockIfStale c l s t.nowStale
      simp only [Lock.lockLoop, hc, hpre, if_true]
      rcases hr2 : l.deleteLockIfStale specStore c s t.nowStale with ⟨o2, l2, s2⟩
      rw [hr2] at h2
      cases o2 with
      | some err2 => exact ⟨fun h => by simp at h, fun _ => h2⟩
      | none => exact later l2 s2 _ h2

/-- A step by which the client `k` creates the object keeps the invariant, with `k` the
client that acquired last. -/
theorem net_inv_acquire {ι : Type} [DecidableEq ι] (st : Net ι) (p : String) (w : Option ι)
    (k : ι) (l1 : Lock) (s1 : Store) (h : st.Inv p w)
    (hp1 : l1.path = p) (hok1 : s1.OK p)
    (hlt : st.store.generations p < s1.generations p)
    (hl1 : l1.latestGeneration = s1.generations p) :
    Net.Inv { clients := Function.update st.clients k l1, store := s1 } p (some k) := by
  obtain ⟨hpath, hok, hle, hlast⟩ := h
  refine ⟨?_, hok1, ?_, ?_⟩
  · intro i
    show (Function.update st.clients k l1 i).path = p
    by_cases hik : i = k
    · subst hik
      rw [Function.update_same]
      exact hp1
    · rw [Function.update_noteq hik]
      exact hpath i
  · intro i
    show (Function.update st.clients k l1 i).latestGeneration ≤ s1.generations p
    by_cases hik : i = k
    · subst hik
      rw [Function.update_same, hl1]
    · rw [Function.update_noteq hik]
      have := hle i
      omega
  · intro i
    show (Function.update st.clients k l1 i).latestGeneration = s1.generations p →
      1 ≤ s1.generations p → some k = some i
    by_cases hik : i = k
    · subst hik
      intro _ _
      rfl
    · rw [Function.update_noteq hik]
      intro heq _
      have := hle i
      omega

/-- Every step keeps the invariant, with the client that acquired last brought up to
date. -/
theorem net_inv_step {ι : Type} [DecidableEq ι] (c : TimeCodec) (st : Net ι) (p : String)
    (w : Option ι) (m : Move ι) (h : st.Inv p w) :
    (st.step c m).Inv p
      (match Net.acquiredBy c st m with
        | some k => some k
        | none => w) := by
  cases m with
  | refresh k now =>
    exact net_inv_quiet st p w k _ _ h (quiet_refresh c (st.clients k) st.store now)
  | delete k metageneration =>
    exact net_inv_quiet st p w k _ _ h
      (quiet_deleteLock (st.clients k) st.store metageneration false)
  | create k now =>
    cases hobj : st.store.data (st.clients k).path with
    | some obj =>
      have hc := spec_createLock_held c (st.clients k) st.store now obj hobj
      simp only [Net.step, Net.acquiredBy, hc, Option.isNone_some]
      exact net_inv_quiet st p w k _ _ h (quiet_refl (st.clients k) st.store)
    | none =>
      have hev := evolves_createLock c (st.clients k) st.store now
      have hc := spec_createLock_free c (st.clients k) st.store now hobj
      rw [hc] at hev
      obtain ⟨_, hok1, _⟩ := hev
      simp only [Net.step, Net.acquiredBy, hc, Option.isNone_none, if_true]
      have hpk := h.1 k
      subst hpk
      exact net_inv_acquire st _ w k _ _ h rfl (hok1 h.2.1) (by simp) (by simp)
  | lock k ticks ctxErr =>
    obtain ⟨hp1, hok1, _⟩ := evolves_lock c (st.clients k) st.store ticks ctxErr
    have hres := spec_lockLoop_result c ctxErr ticks (st.clients k) st.store []
    have hpk := h.1 k
    subst hpk
    cases hr : ((st.clients k).lock specStore c st.store ticks ctxErr).1 with
    | none =>
      have hr1 : (Lock.lockLoop specStore c ctxErr ticks (st.clients k) st.store []).1 = none :=
        hr
      simp only [Net.step, Net.acquiredBy, hr, Option.isNone_none, if_true]
      exact net_inv_acquire st _ w k _ _ h hp1 (hok1 h.2.1) (hres.1 hr1).1 (hres.1 hr1).2
    | some err =>
      have hr1 : (Lock.lockLoop specStore c ctxErr ticks (st.clients k) st.store []).1 ≠ none := by
        intro hn
        have hr2 : (Lock.lockLoop specStore c ctxErr ticks (st.clients k) st.store []).1 =
            some err := hr
        rw [hr2] at hn
        exact Option.noConfusion hn
      simp only [Net.step, Net.acquiredBy, hr, Option.isNone_some]
      exact net_inv_quiet st _ w k _ _ h (hres.2 hr1)

theorem net_inv_fresh {ι : Type} (ids : ι → String) (path : String) (ttls : ι → Duration) :
    (Net.fresh ids path ttls).Inv path none := by
  refine ⟨fun _ => rfl, ⟨le_refl _, ?_⟩, fun _ => le_refl _, ?_⟩
  · intro obj h
    simp [Net.fresh, Store.empty] at h
  · intro i _ h
    simp [Net.fresh, Store.empty] at h

/-- Every sequence of steps keeps the invariant, for some last acquirer. -/
theorem net_inv_run {ι : Type} [DecidableEq ι] (c : TimeCodec) (p : String) :
    ∀ (moves : List (Move ι)) (st : Net ι) (w : Option ι), st.Inv p w →
      ∃ w1, (st.run c moves).Inv p w1 := by
  intro moves
  induction moves with
  | nil =>
    intro st w h
    exact ⟨w, h⟩
  | cons m ms ih =>
    intro st w h
    exact ih (st.step c m) _ (net_inv_step c st p w m h)

/-- While the client `i` does not acquire, the last acquirer stays another one. -/
theorem net_inv_run_other {ι : Type} [DecidableEq ι] (c : TimeCodec) (p : String) (i : ι) :
    ∀ (moves : List (Move ι)) (st : Net ι) (w : Option ι), st.Inv p w → w ≠ some i →
      Net.reacquires c st moves i = false →
      ∃ w1, w1 ≠ some i ∧ (st.run c moves).Inv p w1 := by
  intro moves
  induction moves with
  | nil =>
    intro st w h hw _
    exact ⟨w, hw, h⟩
  | cons m ms ih =>
    intro st w h hw hre
    simp only [Net.reacquires, Bool.or_eq_false_iff, decide_eq_false_iff_not] at hre
    refine ih (st.step c m) _ (net_inv_step c st p w m h) ?_ hre.2
    cases hacq : Net.acquiredBy c st m with
    | none => exact hw
    | some k =>
      intro hk
      exact hre.1 (hacq.trans hk)

/-- A `RefreshLock` of a holding client on the store of the spec, when the store has no
object of the cached generation at the path: `ErrLockAbandoned`, and nothing changes. -/
theorem spec_refresh_abandoned (c : TimeCodec) (l : Lock) (s : Store) (now : Time)
    (hhold : l.refreshMetadata = true)
    (hgen : ∀ obj, s.data l.path = some obj → obj.generation ≠ l.latestGeneration) :
    l.RefreshLock specStore c s now = (some .errLockAbandoned, l, s) := by
  by_cases hfail : maxRefreshFailures < l.refreshFailures
  · exact refreshLock_over_threshold specStore c l s now hhold hfail
  have hle : l.refreshFailures ≤ maxRefreshFailures := Nat.not_lt.1 hfail
  cases hobj : s.data l.path with
  | none =>
    have hupd : specStore.update s l.path l.refreshConds (l.metadata c now) =
        (.error .errObjectNotExist, s) := by
      simp [specStore, hobj]
    exact refreshLock_lost specStore c l s s now _ hhold hle hupd (by decide)
  | some obj =>
    have hc : ¬ l.refreshConds.holdFor obj = true := by
      intro hc
      simp [Conditions.holdFor, Lock.refreshConds] at hc
      exact hgen obj hobj hc.1.symm
    have hupd : specStore.update s l.path l.refreshConds (l.metadata c now) =
        (.error preconditionFailed, s) := by
      simp [specStore, hobj, hc]
    exact refreshLock_lost specStore c l s s now _ hhold hle hupd (by decide)

/-- C1, amended. On the store the spec assumes, for any number of clients of one path,
of any identities and with any clocks, and for every interleaving of their store calls
from the empty store in which no call of another client falls between the create of a
`createLock` and the read of the attributes that follows it: once a client `j` has
acquired (by the step `m` its `Lock`, or the `createLock` of its `Lock`, has returned
nil), every `RefreshLock` of another client `i` that is holding returns
`ErrLockAbandoned` and changes neither client nor store, whatever the steps in
between, as long as `i` has not acquired again. So from the first acquire on, the only
holding client whose `RefreshLock` can succeed is the one that acquired last. -/
theorem C1_refresh_fails_after_another_acquire {ι : Type} [DecidableEq ι] (c : TimeCodec)
    (ids : ι → String) (path : String) (ttls : ι → Duration) (pre mid : List (Move ι))
    (m : Move ι) (i j : ι) (now2 : Time)
    (hij : i ≠ j)
    (hacq : Net.acquiredBy c (Net.run c (Net.fresh ids path ttls) pre) m = some j)
    (hmid : Net.reacquires c (Net.run c (Net.fresh ids path ttls) (pre ++ [m])) mid i = false)
    (hhold : ((Net.run c (Net.fresh ids path ttls)
      (pre ++ m :: mid)).clients i).refreshMetadata = true) :
    Lock.RefreshLock specStore c
        ((Net.run c (Net.fresh ids path ttls) (pre ++ m :: mid)).clients i)
        (Net.run c (Net.fresh ids path ttls) (pre ++ m :: mid)).store now2 =
      (some .errLockAbandoned,
        (Net.run c (Net.fresh ids path ttls) (pre ++ m :: mid)).clients i,
        (Net.run c (Net.fresh ids path ttls) (pre ++ m :: mid)).store) := by
  obtain ⟨w0, h0⟩ := net_inv_run c path pre _ none (net_inv_fresh ids path ttls)
  have h1 := net_inv_step c _ path w0 m h0
  rw [hacq] at h1
  have hrun1 : Net.run c (Net.fresh ids path ttls) (pre ++ [m]) =
      (Net.run c (Net.fresh ids path ttls) pre).step c m := by
    simp [Net.run, List.foldl_append]
  have hrun2 : Net.run c (Net.fresh ids path ttls) (pre ++ m :: mid) =
      Net.run c ((Net.run c (Net.fresh ids path ttls) pre).step c m) mid := by
    simp [Net.run, List.foldl_append]
  rw [hrun1] at hmid
  rw [hrun2] at hhold ⊢
  obtain ⟨w2, hw2, hpath, hok, _, hlast⟩ := net_inv_run_other c path i mid _ (some j) h1
    (by
      intro h
      exact hij (Option.some.inj h).symm)
    hmid
  apply spec_refresh_abandoned c _ _ now2 hhold
  intro obj hobj hgen
  rw [hpath i] at hobj
  obtain ⟨hg, hone⟩ := hok.2 obj hobj
  exact hw2 (hlast i (hgen.symm.trans hg) hone)

/-- The witness of C1: `Lock` of `a` acquires at time 0 with a lease until time 3 and
`a` refreshes at time 1; `b` deletes the object on the metageneration 2 its probe has
read, creates the object anew at time 6 and refreshes it at time 7; the `RefreshLock`
of `a` at time 8 returns `ErrLockAbandoned`. -/
theorem C1_refresh_fails_after_another_acquire_witness :
    Lock.RefreshLock specStore unaryCodec
        ((Net.run unaryCodec (Net.fresh Client.identity "testing" (fun _ => 3))
          ([.lock .a [⟨0, 0⟩] .deadlineExceeded, .refresh .a 1, .delete .b (some 2)] ++
            .create .b 6 :: [.refresh .b 7])).clients .a)
        (Net.run unaryCodec (Net.fresh Client.identity "testing" (fun _ => 3))
          ([.lock .a [⟨0, 0⟩] .deadlineExceeded, .refresh .a 1, .delete .b (some 2)] ++
            .create .b 6 :: [.refresh .b 7])).store 8 =
      (some .errLockAbandoned,
        (Net.run unaryCodec (Net.fresh Client.identity "testing" (fun _ => 3))
          ([.lock .a [⟨0, 0⟩] .deadlineExceeded, .refresh .a 1, .delete .b (some 2)] ++
            .create .b 6 :: [.refresh .b 7])).clients .a,
        (Net.run unaryCodec (Net.fresh Client.identity "testing" (fun _ => 3))
          ([.lock .a [⟨0, 0⟩] .deadlineExceeded, .refresh .a 1, .delete .b (some 2)] ++
            .create .b 6 :: [.refresh .b 7])).store) :=
  C1_refresh_fails_after_another_acquire unaryCodec Client.identity "testing" (fun _ => 3)
    [.lock .a [⟨0, 0⟩] .deadlineExceeded, .refresh .a 1, .delete .b (some 2)]
    [.refresh .b 7] (.create .b 6) .a .b 8
    (by decide) (by decide) (by decide) (by decide)

end DistLock
